import Mathlib

/-!
# demoinfocs: game events, string tables and send tables

A shallow embedding of the game-event translator (pkg/demoinfocs/game_events.go),
of the string tables (pkg/demoinfocs/stringtables.go) and of the build path of
the send tables (pkg/demoinfocs/sendtables/sendtablescs2/parser.go).  Go maps
are association lists (a lookup of an absent key yields the zero value, as in
Go), a pointer is the position of its target in a heap, a nil pointer is
`none`, and `eventDispatcher.Dispatch` appends to the log `Parser.dispatched`.
A function of the source that can fail at run time (nil dereference, index out
of range, unbounded recursion) returns `Option`, `none` being the failure.
-/

set_option autoImplicit false

namespace Demoinfocs

/-! ## Go maps -/

/-- Go `m[k]` on a map whose values are pointers: `none` is nil or absent. -/
def mapGet {κ ν : Type} [DecidableEq κ] (m : List (κ × ν)) (k : κ) : Option ν :=
  match m with
  | [] => none
  | (k1, v) :: rest => if k1 = k then some v else mapGet rest k

/-- Go `m[k] = v`: replaces the entry stored under `k` or adds one. -/
def mapSet {κ ν : Type} [DecidableEq κ] (m : List (κ × ν)) (k : κ) (v : ν) : List (κ × ν) :=
  match m with
  | [] => [(k, v)]
  | (k1, v1) :: rest => if k1 = k then (k, v) :: rest else (k1, v1) :: mapSet rest k v

/-- Go `delete(m, k)`. -/
def mapDelete {κ ν : Type} [DecidableEq κ] (m : List (κ × ν)) (k : κ) : List (κ × ν) :=
  m.filter (fun e => decide (e.1 ≠ k))

/-! ## Messages (package msg) -/

/-- A float32 or float64 value, carried as its bit pattern and never computed on. -/
abbrev FloatBits := Nat

/-- The type msg.CMsgSource1LegacyGameEventKeyT; an unset field reads as its zero value. -/
structure KeyT where
  type : Int := 0
  valString : String := ""
  valFloat : FloatBits := 0
  valLong : Int := 0
  valShort : Int := 0
  valByte : Int := 0
  valBool : Bool := false
  valUint64 : Nat := 0
  deriving DecidableEq, Repr

/-- The key description inside a descriptor (CMsgSource1LegacyGameEventListKeyT). -/
structure KeyDesc where
  type : Int := 0
  name : String := ""
  deriving DecidableEq, Repr

/-- The type msg.CMsgSource1LegacyGameEventListDescriptorT. -/
structure Descriptor where
  eventid : Int := 0
  name : String := ""
  keys : List KeyDesc := []
  deriving DecidableEq, Repr

/-- The type msg.CMsgSource1LegacyGameEvent. -/
structure GameEvent where
  eventName : String := ""
  eventid : Int := 0
  keys : List KeyT := []
  deriving DecidableEq, Repr

/-- The Go type `map[string]*msg.CMsgSource1LegacyGameEventKeyT`. -/
abbrev Data := List (String × KeyT)

/-- Nil-safe getter `data[k].GetType()`. -/
def getType (d : Data) (k : String) : Int := ((mapGet d k).map KeyT.type).getD 0
/-- Nil-safe getter `data[k].GetValString()`. -/
def getValString (d : Data) (k : String) : String := ((mapGet d k).map KeyT.valString).getD ""
/-- Nil-safe getter `data[k].GetValFloat()`. -/
def getValFloat (d : Data) (k : String) : FloatBits := ((mapGet d k).map KeyT.valFloat).getD 0
/-- Nil-safe getter `data[k].GetValLong()`. -/
def getValLong (d : Data) (k : String) : Int := ((mapGet d k).map KeyT.valLong).getD 0
/-- Nil-safe getter `data[k].GetValShort()`. -/
def getValShort (d : Data) (k : String) : Int := ((mapGet d k).map KeyT.valShort).getD 0
/-- Nil-safe getter `data[k].GetValByte()`. -/
def getValByte (d : Data) (k : String) : Int := ((mapGet d k).map KeyT.valByte).getD 0
/-- Nil-safe getter `data[k].GetValBool()`. -/
def getValBool (d : Data) (k : String) : Bool := ((mapGet d k).map KeyT.valBool).getD false
/-- Nil-safe getter `data[k].GetValUint64()`. -/
def getValUint64 (d : Data) (k : String) : Nat := ((mapGet d k).map KeyT.valUint64).getD 0

/-! ## Package common -/

/-- The type common.EquipmentType, by the constant names the source uses. -/
inductive EquipmentType where
  | EqUnknown | EqWorld | EqBomb | EqFlash | EqHE | EqDecoy | EqSmoke
  | EqIncendiary | EqMolotov
  | other (code : Nat)
  deriving DecidableEq, Repr

/-- The type common.Team (a byte). -/
abbrev Team := Nat

/-- Conversion `common.Team(v)` of an int32 to a byte. -/
def toByte (v : Int) : Nat := (v % 256).toNat

/-- An address of a common.Player. -/
abbrev PlayerPtr := Nat

/-- An address of a common.TeamState. -/
abbrev TeamStatePtr := Nat

/-- The type r3.Vector. -/
structure Vector where
  x : FloatBits := 0
  y : FloatBits := 0
  z : FloatBits := 0
  deriving DecidableEq, Repr

/-- The type common.Equipment, read only through its pointer. -/
structure Equipment where
  type : EquipmentType
  uniqueID : Nat := 0
  deriving DecidableEq, Repr

/-- The type common.Player: the fields the handlers read and write; the methods
Health, Armor, Weapons and ControlledBot read entity properties, held here as data. -/
structure Player where
  name : String := ""
  steamID64 : Nat := 0
  isBot : Bool := false
  isConnected : Bool := false
  isPlanting : Bool := false
  isReloading : Bool := false
  team : Team := 0
  health : Int := 0
  armor : Int := 0
  weapons : List Equipment := []
  controlledBot : Option PlayerPtr := none
  deriving DecidableEq, Repr

/-- The type common.PlayerInfo. -/
structure PlayerInfo where
  userID : Int := 0
  name : String := ""
  guid : String := ""
  xuid : Nat := 0
  isFakePlayer : Bool := false
  isHltv : Bool := false
  deriving DecidableEq, Repr

/-- The type common.GrenadeProjectile, read only through its pointer. -/
structure GrenadeProjectile where
  entityID : Int := 0
  thrower : Option PlayerPtr := none
  weaponInstance : Option Equipment := none
  deriving DecidableEq, Repr

/-- The type FlyingFlashbang. -/
structure FlyingFlashbang where
  projectile : GrenadeProjectile
  flashedEntityIDs : List Int := []
  explodedFrame : Int := 0
  deriving DecidableEq, Repr

/-! ## Package events -/

/-- The type events.RoundEndReason (a byte). -/
abbrev RoundEndReason := Nat

/-- The constant events.RoundEndReasonTargetBombed ("reason 1" in the source). -/
def RoundEndReasonTargetBombed : RoundEndReason := 1

/-- The type events.Bombsite. -/
inductive Bombsite where
  | BomsiteUnknown | BombsiteA | BombsiteB
  deriving DecidableEq, Repr

/-- The type events.WarnType. -/
inductive WarnType where
  | WarnTypeUndefined | WarnTypeBombsiteUnknown | WarnTypeTeamSwapPlayerNil
  | WarnTypeGameEventBeforeDescriptors | WarnTypeStringTableParsingFailure
  deriving DecidableEq, Repr

/-- The type events.BombEvent. -/
structure BombEvent where
  player : Option PlayerPtr := none
  site : Bombsite := Bombsite.BomsiteUnknown
  deriving DecidableEq, Repr

/-- The type events.GrenadeEvent. -/
structure GrenadeEvent where
  grenadeType : EquipmentType
  grenade : Option Equipment
  thrower : Option PlayerPtr
  position : Vector
  grenadeEntityID : Int
  deriving DecidableEq, Repr

/-- The type events.Kill. -/
structure Kill where
  victim : Option PlayerPtr
  killer : Option PlayerPtr
  assister : Option PlayerPtr
  isHeadshot : Bool
  penetratedObjects : Int
  weapon : Option Equipment
  assistedFlash : Bool
  attackerBlind : Bool
  noScope : Bool
  throughSmoke : Bool
  distance : FloatBits
  deriving DecidableEq, Repr

/-- The type events.PlayerHurt. -/
structure PlayerHurt where
  player : Option PlayerPtr
  attacker : Option PlayerPtr
  health : Int
  armor : Int
  healthDamage : Int
  armorDamage : Int
  healthDamageTaken : Int
  armorDamageTaken : Int
  hitGroup : Nat
  weapon : Option Equipment
  deriving DecidableEq, Repr

/-- The type events.PlayerTeamChange. -/
structure PlayerTeamChange where
  player : Option PlayerPtr
  isBot : Bool
  silent : Bool
  newTeam : Team
  newTeamState : Option TeamStatePtr
  oldTeam : Team
  oldTeamState : Option TeamStatePtr
  deriving DecidableEq, Repr

/-- The type events.RoundStart. -/
structure RoundStart where
  timeLimit : Int := 0
  fragLimit : Int := 0
  objective : String := ""
  deriving DecidableEq, Repr

/-- The type events.RoundEnd. -/
structure RoundEnd where
  message : String := ""
  reason : RoundEndReason := 0
  winner : Team := 0
  winnerState : Option TeamStatePtr := none
  loserState : Option TeamStatePtr := none
  deriving DecidableEq, Repr

/-- The type events.BulletDamage. -/
structure BulletDamage where
  attacker : Option PlayerPtr
  victim : Option PlayerPtr
  distance : FloatBits
  damageDirX : FloatBits
  damageDirY : FloatBits
  damageDirZ : FloatBits
  numPenetrations : Int
  isNoScope : Bool
  isAttackerInAir : Bool
  deriving DecidableEq, Repr

/-- The type events.OtherDeath. -/
structure OtherDeath where
  killer : Option PlayerPtr
  weapon : Option Equipment
  penetratedObjects : Int
  noScope : Bool
  throughSmoke : Bool
  killerBlind : Bool
  otherType : String
  otherID : Int
  otherPosition : Vector
  deriving DecidableEq, Repr

/-- The events handed to `eventDispatcher.Dispatch` by game_events.go. -/
inductive Event where
  | ParserWarn (message : String) (type : WarnType)
  | GenericGameEvent (name : String) (data : Data)
  | RoundStart (e : RoundStart)
  | AnnouncementWinPanelMatch
  | AnnouncementFinalRound
  | AnnouncementMatchStarted
  | AnnouncementLastRoundHalf
  | RoundEnd (e : RoundEnd)
  | RoundEndOfficial
  | RoundMVPAnnouncement (player : Option PlayerPtr) (reason : Nat)
  | BotTakenOver (taker : Option PlayerPtr)
  | MatchStart
  | RoundFreezetimeEnd
  | Footstep (player : Option PlayerPtr)
  | PlayerJump (player : Option PlayerPtr)
  | PlayerSound (player : Option PlayerPtr) (radius : Int) (duration : Int)
  | WeaponFire (shooter : Option PlayerPtr) (weapon : Option Equipment)
  | WeaponReload (player : Option PlayerPtr)
  | Kill (e : Kill)
  | PlayerHurt (e : PlayerHurt)
  | PlayerFlashed (player attacker : Option PlayerPtr) (projectile : Option GrenadeProjectile)
  | FlashExplode (e : GrenadeEvent)
  | HeExplode (e : GrenadeEvent)
  | DecoyStart (e : GrenadeEvent)
  | DecoyExpired (e : GrenadeEvent)
  | SmokeStart (e : GrenadeEvent)
  | SmokeExpired (e : GrenadeEvent)
  | FireGrenadeStart (e : GrenadeEvent)
  | FireGrenadeExpired (e : GrenadeEvent)
  | HostageHurt (player : Option PlayerPtr) (hostage : Option Nat)
  | HostageKilled (killer : Option PlayerPtr) (hostage : Option Nat)
  | HostageRescued (player : Option PlayerPtr) (hostage : Option Nat)
  | HostageRescuedAll
  | BulletDamage (e : BulletDamage)
  | PlayerDisconnected (player : Option PlayerPtr)
  | PlayerTeamChange (e : PlayerTeamChange)
  | BombPlantBegin (e : BombEvent)
  | BombPlanted (e : BombEvent)
  | BombDefused (e : BombEvent)
  | BombExplode (e : BombEvent)
  | BombDefuseStart (player : Option PlayerPtr) (hasKit : Bool)
  | ItemEquip (player : Option PlayerPtr) (weapon : Option Equipment)
  | ItemPickup (player : Option PlayerPtr) (weapon : Option Equipment)
  | ItemDrop (player : Option PlayerPtr) (weapon : Option Equipment)
  | OtherDeath (e : OtherDeath)
  | BombDropped (player : Option PlayerPtr) (entityID : Int)
  | BombPickup (player : Option PlayerPtr)
  | MatchStartedChanged (oldIsStarted newIsStarted : Bool)
  | RoundFreezetimeChanged (oldIsFreezetime newIsFreezetime : Bool)
  | PlayerNameChange (player : Option PlayerPtr) (oldName newName : String)
  | StringTablePlayerUpdateApplied (player : Option PlayerPtr)
  | PlayerInfo (index : Int) (info : PlayerInfo)
  | POVRecordingPlayerDetected (playerSlot : Int) (info : PlayerInfo)
  deriving Repr

/-! ## Parser state -/

/-- The methods of gameEventHandler that are used as game-event handlers. -/
inductive HandlerFunc where
  | beginNewMatch | bombBeginDefuse | bombBeginPlant | bombDefused | bombDropped
  | bombExploded | bombPickup | bombPlanted | botTakeover | bulletDamage
  | csWinPanelMatch | decoyDetonate | decoyStarted | flashBangDetonate
  | heGrenadeDetonate | hostageKilled | hostageHurt | hostageRescued
  | HostageRescuedAll | infernoExpire | infernoStartBurn | itemEquip | itemPickup
  | itemRemove | otherDeath | playerBlind | playerConnect | playerDeath
  | playerDisconnect | playerFallDamage
  | playerFootstep | playerHurt | playerJump | playerSound | playerTeam
  | roundAnnounceFinal | roundAnnounceLastRoundHalf | roundAnnounceMatchStart
  | roundEnd | roundFreezeEnd | roundMVP | roundOfficiallyEnded | roundStart
  | smokeGrenadeDetonate | smokeGrenadeExpired | weaponFire | weaponReload
  deriving DecidableEq, Repr

/-- A value of type gameEventHandlerFunc in gameEventNameToHandler: a method,
or a method wrapped by the closures `delay` or `delayIfNoPlayers`. -/
inductive Handler where
  | direct (f : HandlerFunc)
  | delay (f : HandlerFunc)
  | delayIfNoPlayers (f : HandlerFunc)
  deriving DecidableEq, Repr

/-- An entry of parser.delayedEventHandlers: the closure `func() { f(data) }`
built by `delay`, or the closure built by decoyDetonate. -/
inductive Delayed where
  | run (f : HandlerFunc) (data : Data)
  | deleteThrownGrenade (thrower : Option PlayerPtr) (wepType : EquipmentType)
  deriving DecidableEq, Repr

/-- The errors handed to parser.setError or returned by bombEvent. -/
inductive Error where
  | ErrBombsiteIndexNotFound (site : Int)
  | unmarshal (message : String)
  | playerXUID (message : String)
  deriving DecidableEq, Repr

/-- The type bombsiteInfo. -/
structure BombsiteInfo where
  index : Int := 0
  center : Vector := {}
  deriving DecidableEq, Repr

/-- The type boundingBoxInformation (an entry of parser.triggers). -/
structure Trigger where
  min : Vector := {}
  max : Vector := {}
  deriving DecidableEq, Repr

/-- The type of gameState.lastFlash. -/
structure LastFlash where
  player : Option PlayerPtr := none
  projectileByPlayer : List (Option PlayerPtr × GrenadeProjectile) := []
  deriving DecidableEq, Repr

/-- The parser together with its gameState and its gameEventHandler. -/
structure Parser where
  gameEventDescs : Option (List (Int × Descriptor)) := none
  source2FallbackGameEventListBin : List Nat := []
  err : Option Error := none
  dispatched : List Event := []
  delayedEventHandlers : List Delayed := []
  disableMimicSource1GameEvents : Bool := false
  currentFrame : Int := 0
  bombsiteA : BombsiteInfo := {}
  bombsiteB : BombsiteInfo := {}
  triggers : List (Int × Trigger) := []
  rawPlayers : List (Int × PlayerInfo) := []
  playerHeap : List Player := []
  playersByUserID : List (Int × PlayerPtr) := []
  playersByEntityID : List (Int × PlayerPtr) := []
  playersBySteamID : List (Nat × PlayerPtr) := []
  entities : List (Int × Vector) := []
  hostages : List (Int × Nat) := []
  grenadeProjectiles : List (Int × GrenadeProjectile) := []
  infernos : List (Int × Nat) := []
  thrownGrenades : List (PlayerPtr × List (EquipmentType × List Equipment)) := []
  flyingFlashbangs : List FlyingFlashbang := []
  currentPlanter : Option PlayerPtr := none
  currentDefuser : Option PlayerPtr := none
  lastFlash : LastFlash := {}
  isMatchStarted : Bool := false
  lastMatchStartedChangedEvent : Option (Bool × Bool) := none
  lastRoundStartEvent : Option RoundStart := none
  lastFreezeTimeChangedEvent : Option (Bool × Bool) := none
  lastRoundEndEvent : Option RoundEnd := none
  userIDToFallDamageFrame : List (Int × Int) := []
  frameToRoundEndReason : List (Int × RoundEndReason) := []
  ignoreBombsiteIndexNotFound : Bool := false
  modelPreCache : List (List Nat) := []
  grenadeModelIndices : List (Nat × EquipmentType) := []
  classBaselines : List (Int × List Nat) := []
  recordingPlayerSlot : Int := -1
  headerClientName : String := ""
  deriving Repr

/-- The type msg.CMsgPlayerInfo, by the getters that parseUserInfo calls. -/
structure CMsgPlayerInfo where
  xuid : Nat := 0
  name : String := ""
  userid : Int := 0
  fakeplayer : Bool := false
  ishltv : Bool := false
  deriving DecidableEq, Repr

/-- Functions of other packages that game_events.go and stringtables.go call and
that are not part of the translated files; each is a parameter of the embedding. -/
structure Env where
  /-- The function common.MapEquipment. -/
  MapEquipment : String → EquipmentType
  /-- The function common.EquipmentAlternative. -/
  EquipmentAlternative : EquipmentType → EquipmentType
  /-- The test `wepType.Class() == common.EqClassGrenade`. -/
  isGrenade : EquipmentType → Bool
  /-- The function common.NewEquipment. -/
  NewEquipment : EquipmentType → Equipment
  /-- The call proto.Unmarshal on a CMsgSource1LegacyGameEventList. -/
  Unmarshal : List Nat → Except String (List Descriptor)
  /-- The method boundingBoxInformation.contains. -/
  contains : Trigger → Vector → Bool
  /-- The method gameState.Team. -/
  teamState : Team → Option TeamStatePtr
  /-- The field TeamState.Opponent. -/
  opponent : TeamStatePtr → Option TeamStatePtr
  /-- The method Participants().FindByPawnHandle. -/
  FindByPawnHandle : Parser → Nat → Option PlayerPtr
  /-- The function common.ConvertSteamIDTxtTo32. -/
  ConvertSteamIDTxtTo32 : String → Except String Nat
  /-- The function common.ConvertSteamID32To64. -/
  ConvertSteamID32To64 : Nat → Nat
  /-- The float32 product `f * float32(time.Second)` converted to a time.Duration. -/
  secondsToDuration : FloatBits → Int
  /-- The conversion `float64(f)` of a float32. -/
  float64 : FloatBits → FloatBits
  /-- The formatting `fmt.Sprintf("unknown event %q", name)`. -/
  unknownEventMessage : String → String
  /-- The call proto.Unmarshal on a CMsgPlayerInfo. -/
  UnmarshalPlayerInfo : List Nat → Except String CMsgPlayerInfo
  /-- The call snappy.Decode. -/
  snappyDecode : List Nat → Except String (List Nat)

/-- The call eventDispatcher.Dispatch: the event is handed to the consumers. -/
def dispatch (p : Parser) (e : Event) : Parser :=
  { p with dispatched := p.dispatched ++ [e] }

/-- Modelled from the spec: parser.setError is not in src/; §5 says that a fatal
error sets a sticky error on the parser, so the first error is kept. -/
def setError (p : Parser) (e : Error) : Parser :=
  match p.err with
  | some _ => p
  | none => { p with err := some e }

/-- Dereference of a player pointer. -/
def playerAt (p : Parser) (ptr : PlayerPtr) : Player :=
  p.playerHeap.getD ptr {}

/-- A write through a player pointer. -/
def updatePlayer (p : Parser) (ptr : PlayerPtr) (f : Player → Player) : Parser :=
  { p with playerHeap := p.playerHeap.set ptr (f (playerAt p ptr)) }

/-- The method gameEventHandler.playerByUserID. -/
def playerByUserID (p : Parser) (userID : Int) : Option PlayerPtr :=
  match mapGet p.playersByUserID userID with
  | some player => some player
  | none =>
    match mapGet p.rawPlayers userID with
    | none => none
    | some rawInfo => mapGet p.playersByUserID rawInfo.userID

/-- The method gameEventHandler.playerByUserID32. -/
def playerByUserID32 (p : Parser) (userID : Int) : Option PlayerPtr :=
  playerByUserID p (if userID ≤ 65535 then Int.land userID 255 else userID)

/-! ## Helpers of the handlers -/

/-- Modelled from the spec: parser.nadeProjectileDestroyed is not in src/; §4.6
says that clear_grenade_projectiles flushes the residual projectiles, so the
projectile leaves grenade_projectiles. -/
def nadeProjectileDestroyed (p : Parser) (proj : GrenadeProjectile) : Parser :=
  { p with grenadeProjectiles := mapDelete p.grenadeProjectiles proj.entityID }

/-- Modelled from the spec: parser.infernoExpired is not in src/; §4.6 says that
clear_grenade_projectiles flushes the residual infernos, so the inferno leaves
infernos. -/
def infernoExpired (p : Parser) (inf : Int) : Parser :=
  { p with infernos := mapDelete p.infernos inf }

/-- The method gameEventHandler.clearGrenadeProjectiles; the two loops visit
the maps in the order of the association lists. -/
def clearGrenadeProjectiles (p : Parser) : Parser :=
  let p1 := p.grenadeProjectiles.foldl (fun q e => nadeProjectileDestroyed q e.2) p
  let p2 := p1.infernos.foldl (fun q e => infernoExpired q e.1) p1
  { p2 with thrownGrenades := [], flyingFlashbangs := [] }

/-- The function getPlayerWeapon. -/
def getPlayerWeapon (env : Env) (p : Parser) (player : Option PlayerPtr)
    (wepType : EquipmentType) : Option Equipment :=
  let fresh := some (env.NewEquipment wepType)
  match player with
  | none => fresh
  | some ptr =>
    let alternateWepType := env.EquipmentAlternative wepType
    match (playerAt p ptr).weapons.find? (fun wep =>
        decide (wep.type = wepType) ||
          (decide (alternateWepType ≠ EquipmentType.EqUnknown) &&
            decide (wep.type = alternateWepType))) with
    | some wep => some wep
    | none => fresh

/-- The method gameEventHandler.addThrownGrenade. -/
def addThrownGrenade (p : Parser) (pl : Option PlayerPtr) (wep : Equipment) : Parser :=
  match pl with
  | none => p
  | some ptr =>
    let playerGrenades := (mapGet p.thrownGrenades ptr).getD []
    let grenades := (mapGet playerGrenades wep.type).getD []
    { p with thrownGrenades :=
        mapSet p.thrownGrenades ptr (mapSet playerGrenades wep.type (grenades ++ [wep])) }

/-- The body of gameEventHandler.getThrownGrenade with a bound on the depth of
its recursion through ControlledBot; `none` when the bound is reached. -/
def getThrownGrenadeFuel (p : Parser) (fuel : Nat) (pl : Option PlayerPtr)
    (wepType : EquipmentType) : Option (Option Equipment) :=
  match pl with
  | none => some none
  | some ptr =>
    let playerGrenades := (mapGet p.thrownGrenades ptr).getD []
    let grenades := (mapGet playerGrenades wepType).getD []
    let grenades :=
      if grenades.length = 0 then
        match wepType with
        | EquipmentType.EqIncendiary => (mapGet playerGrenades EquipmentType.EqMolotov).getD []
        | EquipmentType.EqMolotov => (mapGet playerGrenades EquipmentType.EqIncendiary).getD []
        | _ => grenades
      else grenades
    if grenades.length = 0 then
      match (playerAt p ptr).controlledBot with
      | some bot =>
        if (playerAt p bot).steamID64 ≠ (playerAt p ptr).steamID64 then
          match fuel with
          | 0 => none
          | n + 1 => getThrownGrenadeFuel p n (some bot) wepType
        else some none
      | none => some none
    else some grenades.getLast?

/-- The method gameEventHandler.getThrownGrenade.  A chain of controlled bots
longer than the player heap revisits a player, and the Go recursion then never
returns: the result is `none`. -/
def getThrownGrenade (p : Parser) (pl : Option PlayerPtr) (wepType : EquipmentType) :
    Option (Option Equipment) :=
  getThrownGrenadeFuel p (p.playerHeap.length + 1) pl wepType

/-- The method gameEventHandler.deleteThrownGrenade. -/
def deleteThrownGrenade (p : Parser) (pl : Option PlayerPtr) (wepType : EquipmentType) :
    Parser :=
  match pl with
  | none => p
  | some ptr =>
    let playerGrenades := (mapGet p.thrownGrenades ptr).getD []
    if playerGrenades.length = 0 then p
    else
      let grenades := (mapGet playerGrenades wepType).getD []
      if grenades.length = 0 then p
      else
        let rest := grenades.take (grenades.length - 1)
        let playerGrenades1 := mapSet playerGrenades wepType rest
        let playerGrenades2 :=
          if rest.length = 0 then mapDelete playerGrenades1 wepType else playerGrenades1
        { p with thrownGrenades := mapSet p.thrownGrenades ptr playerGrenades2 }

/-- The method gameEventHandler.attackerWeaponType. -/
def attackerWeaponType (p : Parser) (wepType : EquipmentType) (victimUserID : Int) :
    EquipmentType :=
  let wepType :=
    if wepType = EquipmentType.EqUnknown ∧
        (mapGet p.userIDToFallDamageFrame victimUserID).getD 0 = p.currentFrame then
      EquipmentType.EqWorld
    else wepType
  if wepType = EquipmentType.EqUnknown then
    let reason := (mapGet p.frameToRoundEndReason p.currentFrame).getD 0
    if reason = 0 ∨ reason = RoundEndReasonTargetBombed then EquipmentType.EqBomb
    else wepType
  else wepType

/-- The method gameEventHandler.getEquipmentInstance. -/
def getEquipmentInstance (env : Env) (p : Parser) (player : Option PlayerPtr)
    (wepType : EquipmentType) : Option (Option Equipment) :=
  if env.isGrenade wepType then getThrownGrenade p player wepType
  else some (getPlayerWeapon env p player wepType)

/-- The function mapGameEventData; `e.Keys[i]` fails when the event carries
fewer keys than the descriptor. -/
def mapGameEventDataFrom (data : Data) : List KeyDesc → List KeyT → Option Data
  | [], _ => some data
  | _ :: _, [] => none
  | k :: ks, v :: vs => mapGameEventDataFrom (mapSet data k.name v) ks vs

/-- The function mapGameEventData; reading `d.Keys` fails when `d` is nil. -/
def mapGameEventData (d : Option Descriptor) (e : GameEvent) : Option Data :=
  match d with
  | none => none
  | some desc => mapGameEventDataFrom [] desc.keys e.keys

/-- The function guidToSteamID64. -/
def guidToSteamID64 (env : Env) (guid : String) : Except String Nat :=
  if guid = "BOT" then Except.ok 0
  else
    match env.ConvertSteamIDTxtTo32 guid with
    | Except.error e => Except.error e
    | Except.ok steamID32 => Except.ok (env.ConvertSteamID32To64 steamID32)

/-- Modelled from the spec: gameState.indexPlayerBySteamID is not in src/; §3
says that players are indexed by steam_id_64. -/
def indexPlayerBySteamID (p : Parser) (ptr : PlayerPtr) : Parser :=
  { p with playersBySteamID := mapSet p.playersBySteamID (playerAt p ptr).steamID64 ptr }

/-- The method parser.updatePlayerFromRawIfExists (stringtables.go). -/
def updatePlayerFromRawIfExists (p : Parser) (index : Int) (raw : PlayerInfo) : Parser :=
  match mapGet p.playersByEntityID (index + 1) with
  | none => p
  | some pl =>
    let old := playerAt p pl
    let oldName := old.name
    let newName := raw.name
    let nameChanged := !old.isBot && !raw.isFakePlayer && decide (raw.guid ≠ "BOT") &&
      decide (oldName ≠ newName)
    let p1 := updatePlayer p pl (fun x =>
      { x with name := raw.name, steamID64 := raw.xuid, isBot := raw.isFakePlayer })
    let p2 := indexPlayerBySteamID p1 pl
    let p3 := if nameChanged then dispatch p2 (Event.PlayerNameChange (some pl) oldName newName)
      else p2
    dispatch p3 (Event.StringTablePlayerUpdateApplied (some pl))

/-- The method parser.setRawPlayer (stringtables.go). -/
def setRawPlayer (p : Parser) (index : Int) (player : PlayerInfo) : Parser :=
  let player :=
    match mapGet p.rawPlayers index with
    | some old => if player.userID = 65535 then { player with userID := old.userID } else player
    | none => player
  let p1 := { p with rawPlayers := mapSet p.rawPlayers index player }
  let p2 := updatePlayerFromRawIfExists p1 index player
  dispatch p2 (Event.PlayerInfo index player)

/-- The value of `site` in gameEventHandler.bombEvent (gameEventKeyTypeLong is 3). -/
def bombEventSite (data : Data) : Int :=
  if getType data "site" = 3 then getValLong data "site" else getValShort data "site"

/-- The warning that gameEventHandler.bombEvent dispatches for an unknown site. -/
def bombsiteUnknownWarn : Event :=
  Event.ParserWarn "bombsite unknown for bomb related event" WarnType.WarnTypeBombsiteUnknown

/-- The method gameEventHandler.bombEvent: the returned pair and the parser. -/
def bombEvent (env : Env) (data : Data) (p : Parser) : Except Error BombEvent × Parser :=
  let bombEvent : BombEvent := { player := playerByUserID32 p (getValShort data "userid") }
  let site : Int := bombEventSite data
  if site = p.bombsiteA.index then
    (Except.ok { bombEvent with site := Bombsite.BombsiteA }, p)
  else if site = p.bombsiteB.index then
    (Except.ok { bombEvent with site := Bombsite.BombsiteB }, p)
  else
    let warn := bombsiteUnknownWarn
    match mapGet p.triggers site with
    | none =>
      if !p.ignoreBombsiteIndexNotFound then
        (Except.error (Error.ErrBombsiteIndexNotFound site), p)
      else (Except.ok bombEvent, dispatch p warn)
    | some t =>
      if env.contains t p.bombsiteA.center then
        (Except.ok { bombEvent with site := Bombsite.BombsiteA },
          { p with bombsiteA := { p.bombsiteA with index := site } })
      else if env.contains t p.bombsiteB.center then
        (Except.ok { bombEvent with site := Bombsite.BombsiteB },
          { p with bombsiteB := { p.bombsiteB with index := site } })
      else (Except.ok bombEvent, dispatch p warn)

/-- The method gameEventHandler.nadeEvent. -/
def nadeEvent (env : Env) (data : Data) (p : Parser) (nadeType : EquipmentType) :
    Option GrenadeEvent :=
  let thrower : Option PlayerPtr :=
    match mapGet data "userid" with
    | some _ => playerByUserID32 p (getValShort data "userid")
    | none => none
  let thrower : Option PlayerPtr :=
    match thrower, mapGet data "userid_pawn" with
    | none, some _ => env.FindByPawnHandle p ((getValLong data "userid_pawn") % 2 ^ 64).toNat
    | _, _ => thrower
  let position : Vector :=
    { x := env.float64 (getValFloat data "x"), y := env.float64 (getValFloat data "y"),
      z := env.float64 (getValFloat data "z") }
  (getThrownGrenade p thrower nadeType).map (fun grenade =>
    { grenadeType := nadeType, grenade := grenade, thrower := thrower, position := position,
      grenadeEntityID := getValShort data "entityid" })

/-- The method gameEventHandler.itemEvent. -/
def itemEvent (env : Env) (data : Data) (p : Parser) : Option PlayerPtr × Option Equipment :=
  let player := playerByUserID32 p (getValShort data "userid")
  (player, getPlayerWeapon env p player (env.MapEquipment (getValString data "item")))

/-! ## The handlers -/

/-- The method gameEventHandler.roundStart. -/
def roundStart (data : Data) (p : Parser) : Option Parser :=
  if !p.disableMimicSource1GameEvents then some p
  else
    some (dispatch (clearGrenadeProjectiles p) (Event.RoundStart
      { timeLimit := getValLong data "timelimit", fragLimit := getValLong data "fraglimit",
        objective := getValString data "objective" }))

/-- The method gameEventHandler.roundEnd. -/
def roundEnd (env : Env) (data : Data) (p : Parser) : Option Parser :=
  if !p.disableMimicSource1GameEvents then some p
  else
    let winner : Team := toByte (getValByte data "winner")
    let winnerState := env.teamState winner
    let loserState := winnerState.bind env.opponent
    let reason : RoundEndReason := toByte (getValByte data "reason")
    let reasons := mapSet p.frameToRoundEndReason p.currentFrame reason
    let p1 := { p with frameToRoundEndReason := reasons }
    some (dispatch p1 (Event.RoundEnd
      { message := getValString data "message", reason := reason, winner := winner,
        winnerState := winnerState, loserState := loserState }))

/-- The method gameEventHandler.roundOfficiallyEnded. -/
def roundOfficiallyEnded (p : Parser) : Option Parser :=
  if !p.disableMimicSource1GameEvents then some p
  else some (dispatch (clearGrenadeProjectiles p) Event.RoundEndOfficial)

/-- The method gameEventHandler.roundMVP. -/
def roundMVP (data : Data) (p : Parser) : Option Parser :=
  some (dispatch p (Event.RoundMVPAnnouncement
    (playerByUserID32 p (getValShort data "userid")) (toByte (getValShort data "reason"))))

/-- The method gameEventHandler.botTakeover; the arguments of the unassert
calls read `taker.IsBot`, which fails for a nil taker. -/
def botTakeover (data : Data) (p : Parser) : Option Parser :=
  match playerByUserID32 p (getValShort data "userid") with
  | none => none
  | some taker => some (dispatch p (Event.BotTakenOver (some taker)))

/-- The method gameEventHandler.playerSound. -/
def playerSound (env : Env) (data : Data) (p : Parser) : Option Parser :=
  some (dispatch p (Event.PlayerSound (playerByUserID32 p (getValShort data "userid"))
    (getValLong data "radius") (env.secondsToDuration (getValFloat data "duration"))))

/-- The method gameEventHandler.weaponFire. -/
def weaponFire (env : Env) (data : Data) (p : Parser) : Option Parser :=
  if !p.disableMimicSource1GameEvents then some p
  else
    let shooter := playerByUserID32 p (getValShort data "userid")
    let wepType := env.MapEquipment (getValString data "weapon")
    some (dispatch p (Event.WeaponFire shooter (getPlayerWeapon env p shooter wepType)))

/-- The method gameEventHandler.weaponReload. -/
def weaponReload (data : Data) (p : Parser) : Option Parser :=
  match playerByUserID32 p (getValShort data "userid") with
  | none => some p
  | some pl =>
    some (dispatch (updatePlayer p pl (fun x => { x with isReloading := true }))
      (Event.WeaponReload (some pl)))

/-- The method gameEventHandler.playerDeath. -/
def playerDeath (env : Env) (data : Data) (p : Parser) : Option Parser :=
  let killer := playerByUserID32 p (getValShort data "attacker")
  let wepType := env.MapEquipment (getValString data "weapon")
  let victimUserID := getValShort data "userid"
  let wepType := attackerWeaponType p wepType victimUserID
  let killer : Option PlayerPtr :=
    match killer, mapGet data "attacker_pawn" with
    | none, some _ => env.FindByPawnHandle p ((getValLong data "attacker_pawn") % 2 ^ 64).toNat
    | _, _ => killer
  (getEquipmentInstance env p killer wepType).map (fun weapon =>
    dispatch p (Event.Kill
      { victim := playerByUserID32 p (getValShort data "userid"),
        killer := killer,
        assister := playerByUserID32 p (getValShort data "assister"),
        isHeadshot := getValBool data "headshot",
        penetratedObjects := getValShort data "penetrated",
        weapon := weapon,
        assistedFlash := getValBool data "assistedflash",
        attackerBlind := getValBool data "attackerblind",
        noScope := getValBool data "noscope",
        throughSmoke := getValBool data "thrusmoke",
        distance := getValFloat data "distance" }))

/-- The PlayerHurt event that gameEventHandler.playerHurt builds, given the
weapon instance. -/
def playerHurtEvent (data : Data) (p : Parser) (weapon : Option Equipment) : PlayerHurt :=
  let userID := getValShort data "userid"
  let player := playerByUserID32 p userID
  let attacker := playerByUserID32 p (getValShort data "attacker")
  let health := getValByte data "health"
  let armor := getValByte data "armor"
  let healthDamage := getValShort data "dmg_health"
  let armorDamage := getValByte data "dmg_armor"
  let healthDamageTaken := if healthDamage > 100 then 100 else healthDamage
  let armorDamageTaken := if armorDamage > 100 then 100 else armorDamage
  let healthDamageTaken :=
    match player with
    | some pl => if health = 0 then (playerAt p pl).health else healthDamageTaken
    | none => healthDamageTaken
  let armorDamageTaken :=
    match player with
    | some pl => if armor = 0 then (playerAt p pl).armor else armorDamageTaken
    | none => armorDamageTaken
  { player := player, attacker := attacker, health := health, armor := armor,
    healthDamage := healthDamage, armorDamage := armorDamage,
    healthDamageTaken := healthDamageTaken, armorDamageTaken := armorDamageTaken,
    hitGroup := toByte (getValByte data "hitgroup"), weapon := weapon }

/-- The method gameEventHandler.playerHurt. -/
def playerHurt (env : Env) (data : Data) (p : Parser) : Option Parser :=
  let userID := getValShort data "userid"
  let attacker := playerByUserID32 p (getValShort data "attacker")
  let wepType := env.MapEquipment (getValString data "weapon")
  let wepType := attackerWeaponType p wepType userID
  (getEquipmentInstance env p attacker wepType).map (fun weapon =>
    dispatch p (Event.PlayerHurt (playerHurtEvent data p weapon)))

/-- The method gameEventHandler.playerFallDamage. -/
def playerFallDamage (data : Data) (p : Parser) : Option Parser :=
  let frames := mapSet p.userIDToFallDamageFrame (getValShort data "userid") p.currentFrame
  some { p with userIDToFallDamageFrame := frames }

/-- The method gameEventHandler.playerBlind. -/
def playerBlind (data : Data) (p : Parser) : Option Parser :=
  if !p.disableMimicSource1GameEvents then some p
  else
    let attacker := p.lastFlash.player
    let projectile := mapGet p.lastFlash.projectileByPlayer attacker
    some (dispatch p (Event.PlayerFlashed (playerByUserID32 p (getValShort data "userid"))
      attacker projectile))

/-- The method gameEventHandler.flashBangDetonate. -/
def flashBangDetonate (env : Env) (data : Data) (p : Parser) : Option Parser :=
  (nadeEvent env data p EquipmentType.EqFlash).map (fun nade =>
    let p1 := { p with lastFlash := { p.lastFlash with player := nade.thrower } }
    if !p.disableMimicSource1GameEvents then dispatch p1 (Event.FlashExplode nade) else p1)

/-- The method gameEventHandler.decoyDetonate. -/
def decoyDetonate (env : Env) (data : Data) (p : Parser) : Option Parser :=
  (nadeEvent env data p EquipmentType.EqDecoy).map (fun event =>
    let p1 := dispatch p (Event.DecoyExpired event)
    { p1 with delayedEventHandlers := p1.delayedEventHandlers ++
        [Delayed.deleteThrownGrenade event.thrower EquipmentType.EqDecoy] })

/-- The method gameEventHandler.smokeGrenadeExpired. -/
def smokeGrenadeExpired (env : Env) (data : Data) (p : Parser) : Option Parser :=
  (nadeEvent env data p EquipmentType.EqSmoke).map (fun event =>
    deleteThrownGrenade (dispatch p (Event.SmokeExpired event)) event.thrower
      EquipmentType.EqSmoke)

/-- The methods that dispatch one grenade event built by nadeEvent:
heGrenadeDetonate, decoyStarted, smokeGrenadeDetonate, infernoStartBurn, infernoExpire. -/
def dispatchNadeEvent (env : Env) (data : Data) (p : Parser) (nadeType : EquipmentType)
    (mk : GrenadeEvent → Event) : Option Parser :=
  (nadeEvent env data p nadeType).map (fun event => dispatch p (mk event))

/-- The method gameEventHandler.bulletDamage. -/
def bulletDamage (data : Data) (p : Parser) : Option Parser :=
  some (dispatch p (Event.BulletDamage
    { attacker := playerByUserID32 p (getValShort data "attacker"),
      victim := playerByUserID32 p (getValShort data "victim"),
      distance := getValFloat data "distance",
      damageDirX := getValFloat data "damage_dir_x",
      damageDirY := getValFloat data "damage_dir_y",
      damageDirZ := getValFloat data "damage_dir_z",
      numPenetrations := getValShort data "num_penetrations",
      isNoScope := getValBool data "no_scope",
      isAttackerInAir := getValBool data "in_air" }))

/-- The method gameEventHandler.playerConnect. -/
def playerConnect (env : Env) (data : Data) (p : Parser) : Option Parser :=
  let pl : PlayerInfo :=
    { userID := getValShort data "userid", name := getValString data "name",
      guid := getValString data "networkid", xuid := getValUint64 data "xuid",
      isFakePlayer := getValBool data "bot" }
  let (pl, p1) : PlayerInfo × Parser :=
    if pl.guid ≠ "" ∧ pl.xuid = 0 then
      match guidToSteamID64 env pl.guid with
      | Except.ok xuid => ({ pl with xuid := xuid }, p)
      | Except.error e =>
        ({ pl with xuid := 0 },
          setError p (Error.playerXUID ("failed to parse player XUID: " ++ e)))
    else (pl, p)
  let pl : PlayerInfo :=
    if !pl.isFakePlayer ∧ !pl.isHltv ∧ pl.xuid > 0 ∧ pl.userID ≤ 255 then
      { pl with userID := Int.lor pl.userID 65280 }
    else pl
  some (setRawPlayer p1 pl.userID pl)

/-- The method gameEventHandler.playerDisconnect. -/
def playerDisconnect (data : Data) (p : Parser) : Option Parser :=
  let uid := getValShort data "userid"
  let uid := if uid ≤ 65535 then Int.land uid 255 else uid
  match playerByUserID p uid with
  | none => some p
  | some pl =>
    if (playerAt p pl).isBot then
      some (updatePlayer (dispatch p (Event.PlayerDisconnected (some pl))) pl
        (fun x => { x with isConnected := false }))
    else some p

/-- The method gameEventHandler.playerTeam. -/
def playerTeam (env : Env) (data : Data) (p : Parser) : Option Parser :=
  let player := playerByUserID32 p (getValShort data "userid")
  let newTeam : Team := toByte (getValByte data "team")
  match player with
  | some pl =>
    let (newTeam, p1) : Team × Parser :=
      if (playerAt p pl).team ≠ newTeam then
        let newTeam := (playerAt p pl).team
        (newTeam, updatePlayer p pl (fun x => { x with team := newTeam }))
      else (newTeam, p)
    let oldTeam : Team := toByte (getValByte data "oldteam")
    some (dispatch p1 (Event.PlayerTeamChange
      { player := some pl, isBot := getValBool data "isbot",
        silent := getValBool data "silent", newTeam := newTeam,
        newTeamState := env.teamState newTeam, oldTeam := oldTeam,
        oldTeamState := env.teamState oldTeam }))
  | none =>
    some (dispatch p (Event.ParserWarn "Player team swap game-event occurred but player is nil"
      WarnType.WarnTypeTeamSwapPlayerNil))

/-- The method gameEventHandler.bombBeginPlant; `event.Player.IsPlanting = true`
fails for a nil player. -/
def bombBeginPlant (env : Env) (data : Data) (p : Parser) : Option Parser :=
  if !p.disableMimicSource1GameEvents then some p
  else
    match bombEvent env data p with
    | (Except.error err, p1) => some (setError p1 err)
    | (Except.ok event, p1) =>
      match event.player with
      | none => none
      | some pl =>
        let p2 := updatePlayer p1 pl (fun x => { x with isPlanting := true })
        some (dispatch { p2 with currentPlanter := some pl } (Event.BombPlantBegin event))

/-- The method gameEventHandler.bombPlanted. -/
def bombPlanted (env : Env) (data : Data) (p : Parser) : Option Parser :=
  if !p.disableMimicSource1GameEvents then some p
  else
    match bombEvent env data p with
    | (Except.error err, p1) => some (setError p1 err)
    | (Except.ok event, p1) =>
      let p2 :=
        match event.player with
        | some pl => updatePlayer p1 pl (fun x => { x with isPlanting := false })
        | none => p1
      some (dispatch { p2 with currentPlanter := none } (Event.BombPlanted event))

/-- The method gameEventHandler.bombDefused. -/
def bombDefused (env : Env) (data : Data) (p : Parser) : Option Parser :=
  if !p.disableMimicSource1GameEvents then some p
  else
    match bombEvent env data p with
    | (Except.error err, p1) => some (setError p1 err)
    | (Except.ok event, p1) =>
      some (dispatch { p1 with currentDefuser := none } (Event.BombDefused event))

/-- The method gameEventHandler.bombExploded. -/
def bombExploded (env : Env) (data : Data) (p : Parser) : Option Parser :=
  if !p.disableMimicSource1GameEvents then some p
  else
    match bombEvent env data p with
    | (Except.error err, p1) => some (setError p1 err)
    | (Except.ok event, p1) =>
      some (dispatch { p1 with currentDefuser := none } (Event.BombExplode event))

/-- The method gameEventHandler.bombBeginDefuse. -/
def bombBeginDefuse (data : Data) (p : Parser) : Option Parser :=
  if !p.disableMimicSource1GameEvents then some p
  else
    let p1 := { p with currentDefuser := playerByUserID32 p (getValShort data "userid") }
    some (dispatch p1 (Event.BombDefuseStart p1.currentDefuser (getValBool data "haskit")))

/-- The method gameEventHandler.otherDeath. -/
def otherDeath (env : Env) (data : Data) (p : Parser) : Option Parser :=
  let killer := playerByUserID32 p (getValShort data "attacker")
  let otherID := getValShort data "otherid"
  let otherPosition : Vector := (mapGet p.entities otherID).getD {}
  let wepType := env.MapEquipment (getValString data "weapon")
  some (dispatch p (Event.OtherDeath
    { killer := killer, weapon := getPlayerWeapon env p killer wepType,
      penetratedObjects := getValShort data "penetrated",
      noScope := getValBool data "noscope", throughSmoke := getValBool data "thrusmoke",
      killerBlind := getValBool data "attackerblind",
      otherType := getValString data "othertype", otherID := otherID,
      otherPosition := otherPosition }))

/-- The method gameEventHandler.bombDropped. -/
def bombDropped (data : Data) (p : Parser) : Option Parser :=
  if !p.disableMimicSource1GameEvents then some p
  else
    some (dispatch p (Event.BombDropped (playerByUserID32 p (getValShort data "userid"))
      (getValShort data "entityid")))

/-- The method gameEventHandler.bombPickup. -/
def bombPickup (data : Data) (p : Parser) : Option Parser :=
  if !p.disableMimicSource1GameEvents then some p
  else some (dispatch p (Event.BombPickup (playerByUserID32 p (getValShort data "userid"))))

/-- A call `f(data)` of a method of gameEventHandler. -/
def runHandler (env : Env) (f : HandlerFunc) (data : Data) (p : Parser) : Option Parser :=
  let user := playerByUserID32 p (getValShort data "userid")
  let hostage := mapGet p.hostages (getValShort data "hostage")
  match f with
  | .beginNewMatch => some (dispatch p Event.MatchStart)
  | .bombBeginDefuse => bombBeginDefuse data p
  | .bombBeginPlant => bombBeginPlant env data p
  | .bombDefused => bombDefused env data p
  | .bombDropped => bombDropped data p
  | .bombExploded => bombExploded env data p
  | .bombPickup => bombPickup data p
  | .bombPlanted => bombPlanted env data p
  | .botTakeover => botTakeover data p
  | .bulletDamage => bulletDamage data p
  | .csWinPanelMatch => some (dispatch p Event.AnnouncementWinPanelMatch)
  | .decoyDetonate => decoyDetonate env data p
  | .decoyStarted => dispatchNadeEvent env data p EquipmentType.EqDecoy Event.DecoyStart
  | .flashBangDetonate => flashBangDetonate env data p
  | .heGrenadeDetonate => dispatchNadeEvent env data p EquipmentType.EqHE Event.HeExplode
  | .hostageKilled => some (dispatch p (Event.HostageKilled user hostage))
  | .hostageHurt => some (dispatch p (Event.HostageHurt user hostage))
  | .hostageRescued => some (dispatch p (Event.HostageRescued user hostage))
  | .HostageRescuedAll => some (dispatch p Event.HostageRescuedAll)
  | .infernoExpire =>
    dispatchNadeEvent env data p EquipmentType.EqIncendiary Event.FireGrenadeExpired
  | .infernoStartBurn =>
    dispatchNadeEvent env data p EquipmentType.EqIncendiary Event.FireGrenadeStart
  | .itemEquip => some (dispatch p (Event.ItemEquip (itemEvent env data p).1 (itemEvent env data p).2))
  | .itemPickup => some (dispatch p (Event.ItemPickup (itemEvent env data p).1 (itemEvent env data p).2))
  | .itemRemove => some (dispatch p (Event.ItemDrop (itemEvent env data p).1 (itemEvent env data p).2))
  | .otherDeath => otherDeath env data p
  | .playerBlind => playerBlind data p
  | .playerConnect => playerConnect env data p
  | .playerDeath => playerDeath env data p
  | .playerDisconnect => playerDisconnect data p
  | .playerFallDamage => playerFallDamage data p
  | .playerFootstep => some (dispatch p (Event.Footstep user))
  | .playerHurt => playerHurt env data p
  | .playerJump => some (dispatch p (Event.PlayerJump user))
  | .playerSound => playerSound env data p
  | .playerTeam => playerTeam env data p
  | .roundAnnounceFinal => some (dispatch p Event.AnnouncementFinalRound)
  | .roundAnnounceLastRoundHalf => some (dispatch p Event.AnnouncementLastRoundHalf)
  | .roundAnnounceMatchStart => some (dispatch p Event.AnnouncementMatchStarted)
  | .roundEnd => roundEnd env data p
  | .roundFreezeEnd => some (dispatch p Event.RoundFreezetimeEnd)
  | .roundMVP => roundMVP data p
  | .roundOfficiallyEnded => roundOfficiallyEnded p
  | .roundStart => roundStart data p
  | .smokeGrenadeDetonate => dispatchNadeEvent env data p EquipmentType.EqSmoke Event.SmokeStart
  | .smokeGrenadeExpired => smokeGrenadeExpired env data p
  | .weaponFire => weaponFire env data p
  | .weaponReload => weaponReload data p

/-- The closure `delay(f)` of newGameEventHandler, called on `data`. -/
def delay (f : HandlerFunc) (data : Data) (p : Parser) : Parser :=
  { p with delayedEventHandlers := p.delayedEventHandlers ++ [Delayed.run f data] }

/-- The closure `delayIfNoPlayers(f)` of newGameEventHandler, called on `data`. -/
def delayIfNoPlayers (env : Env) (f : HandlerFunc) (data : Data) (p : Parser) :
    Option Parser :=
  if p.playersByUserID.length = 0 then some (delay f data p)
  else runHandler env f data p

/-- A call `handler(data)` of an entry of gameEventNameToHandler. -/
def callHandler (env : Env) (h : Handler) (data : Data) (p : Parser) : Option Parser :=
  match h with
  | .direct f => runHandler env f data p
  | .delay f => some (delay f data p)
  | .delayIfNoPlayers f => delayIfNoPlayers env f data p

/-- A call of an entry of parser.delayedEventHandlers. -/
def runDelayed (env : Env) (d : Delayed) (p : Parser) : Option Parser :=
  match d with
  | .run f data => runHandler env f data p
  | .deleteThrownGrenade thrower wepType => some (deleteThrownGrenade p thrower wepType)

/-- The map literal gameEventNameToHandler of newGameEventHandler: `none` is a
nil handler. -/
def gameEventNameToHandlerEntries : List (String × Option Handler) :=
  [
    ("ammo_pickup", none),
    ("announce_phase_end", none),
    ("begin_new_match", some (.direct .beginNewMatch)),
    ("bomb_beep", none),
    ("bomb_begindefuse", some (.delayIfNoPlayers .bombBeginDefuse)),
    ("bomb_beginplant", some (.delayIfNoPlayers .bombBeginPlant)),
    ("bomb_defused", some (.delayIfNoPlayers .bombDefused)),
    ("bomb_dropped", some (.delayIfNoPlayers .bombDropped)),
    ("bomb_exploded", some (.delayIfNoPlayers .bombExploded)),
    ("bomb_pickup", some (.delayIfNoPlayers .bombPickup)),
    ("bomb_planted", some (.delayIfNoPlayers .bombPlanted)),
    ("bot_takeover", some (.delay .botTakeover)),
    ("bullet_damage", some (.delayIfNoPlayers .bulletDamage)),
    ("buytime_ended", none),
    ("choppers_incoming_warning", none),
    ("cs_intermission", none),
    ("cs_match_end_restart", none),
    ("cs_pre_restart", none),
    ("cs_round_final_beep", none),
    ("cs_round_start_beep", none),
    ("cs_win_panel_match", some (.direct .csWinPanelMatch)),
    ("cs_win_panel_round", none),
    ("decoy_detonate", some (.direct .decoyDetonate)),
    ("decoy_started", some (.delay .decoyStarted)),
    ("endmatch_cmm_start_reveal_items", none),
    ("entity_visible", none),
    ("enter_bombzone", none),
    ("exit_bombzone", none),
    ("enter_buyzone", none),
    ("exit_buyzone", none),
    ("flashbang_detonate", some (.direct .flashBangDetonate)),
    ("firstbombs_incoming_warning", none),
    ("grenade_thrown", none),
    ("hegrenade_detonate", some (.direct .heGrenadeDetonate)),
    ("hostage_killed", some (.direct .hostageKilled)),
    ("hostage_hurt", some (.direct .hostageHurt)),
    ("hostage_rescued", some (.direct .hostageRescued)),
    ("hostage_rescued_all", some (.direct .HostageRescuedAll)),
    ("hltv_chase", none),
    ("hltv_fixed", none),
    ("hltv_message", none),
    ("hltv_status", none),
    ("hltv_title", none),
    ("hostname_changed", none),
    ("inferno_expire", some (.direct .infernoExpire)),
    ("inferno_startburn", some (.delay .infernoStartBurn)),
    ("inspect_weapon", none),
    ("item_equip", some (.delay .itemEquip)),
    ("item_pickup", some (.delay .itemPickup)),
    ("item_pickup_slerp", none),
    ("item_remove", some (.direct .itemRemove)),
    ("jointeam_failed", none),
    ("other_death", some (.direct .otherDeath)),
    ("player_activate", none),
    ("player_blind", some (.delay .playerBlind)),
    ("player_changename", none),
    ("player_connect", some (.direct .playerConnect)),
    ("player_connect_full", none),
    ("player_death", some (.delayIfNoPlayers .playerDeath)),
    ("player_disconnect", some (.direct .playerDisconnect)),
    ("player_falldamage", some (.direct .playerFallDamage)),
    ("player_footstep", some (.delayIfNoPlayers .playerFootstep)),
    ("player_hurt", some (.direct .playerHurt)),
    ("player_jump", some (.direct .playerJump)),
    ("player_spawn", none),
    ("player_spawned", none),
    ("player_given_c4", none),
    ("player_ping", none),
    ("player_ping_stop", none),
    ("player_sound", some (.delayIfNoPlayers .playerSound)),
    ("player_team", some (.delay .playerTeam)),
    ("round_announce_final", some (.direct .roundAnnounceFinal)),
    ("round_announce_last_round_half", some (.direct .roundAnnounceLastRoundHalf)),
    ("round_announce_match_point", none),
    ("round_announce_match_start", some (.direct .roundAnnounceMatchStart)),
    ("round_announce_warmup", none),
    ("round_end", some (.direct .roundEnd)),
    ("round_end_upload_stats", none),
    ("round_freeze_end", some (.direct .roundFreezeEnd)),
    ("round_mvp", some (.direct .roundMVP)),
    ("round_officially_ended", some (.direct .roundOfficiallyEnded)),
    ("round_poststart", none),
    ("round_prestart", none),
    ("round_start", some (.direct .roundStart)),
    ("round_time_warning", none),
    ("server_cvar", none),
    ("show_survival_respawn_status", none),
    ("survival_paradrop_spawn", none),
    ("smokegrenade_detonate", some (.direct .smokeGrenadeDetonate)),
    ("smokegrenade_expired", some (.direct .smokeGrenadeExpired)),
    ("switch_team", none),
    ("tournament_reward", none),
    ("vote_cast", none),
    ("weapon_fire", some (.delayIfNoPlayers .weaponFire)),
    ("weapon_fire_on_empty", none),
    ("weapon_reload", some (.direct .weaponReload)),
    ("weapon_zoom", none),
    ("weapon_zoom_rifle", none),
    ("entity_killed", none),
    ("hltv_versioninfo", none)
  ]

/-- The lookup `gameEventNameToHandler[name]`: the outer `none` is an unknown
name, `some none` a known name with a nil handler. -/
def gameEventNameToHandler (name : String) : Option (Option Handler) :=
  mapGet gameEventNameToHandlerEntries name

/-- The method parser.handleGameEventList. -/
def handleGameEventList (descriptors : List Descriptor) (p : Parser) : Parser :=
  let descs : List (Int × Descriptor) := descriptors.foldl (fun m d => mapSet m d.eventid d) []
  { p with gameEventDescs := some descs }

/-- The first block of parser.handleGameEvent, which loads the fallback list
when no descriptors are stored; `Except.error` is the early return. -/
def loadDescriptors (env : Env) (p : Parser) : Except Parser Parser :=
  match p.gameEventDescs with
  | some _ => Except.ok p
  | none =>
    let p1 := dispatch p (Event.ParserWarn
      "received GameEvent but event descriptors are missing"
      WarnType.WarnTypeGameEventBeforeDescriptors)
    match env.Unmarshal p1.source2FallbackGameEventListBin with
    | Except.error e => Except.error (setError p1 (Error.unmarshal e))
    | Except.ok list => Except.ok (handleGameEventList list p1)

/-- The method parser.handleGameEvent.  The calls debugGameEvent and
unassert.Error only log in debug builds and are left out; a failing
mapGameEventData or handler ends the call without a result. -/
def handleGameEvent (env : Env) (ge : GameEvent) (p : Parser) : Option Parser :=
  match loadDescriptors env p with
  | Except.error p1 => some p1
  | Except.ok p1 =>
    let desc := mapGet (p1.gameEventDescs.getD []) ge.eventid
    match mapGameEventData desc ge with
    | none => none
    | some data =>
      let name := (desc.map Descriptor.name).getD ""
      let handled : Option Parser :=
        match gameEventNameToHandler name with
        | some (some handler) => callHandler env handler data p1
        | some none => some p1
        | none =>
          some (dispatch p1 (Event.ParserWarn (env.unknownEventMessage name)
            WarnType.WarnTypeUndefined))
      handled.map (fun p2 => dispatch p2 (Event.GenericGameEvent name data))

/-- The method parser.dispatchMatchStartedEventIfNecessary. -/
def dispatchMatchStartedEventIfNecessary (p : Parser) : Parser :=
  match p.lastMatchStartedChangedEvent with
  | some e =>
    let p1 := dispatch { p with isMatchStarted := e.2 } (Event.MatchStartedChanged e.1 e.2)
    { p1 with lastMatchStartedChangedEvent := none }
  | none => p

/-- The method parser.processRoundProgressEvents. -/
def processRoundProgressEvents (p : Parser) : Parser :=
  let p1 :=
    match p.lastRoundStartEvent with
    | some e =>
      let q := dispatch (dispatchMatchStartedEventIfNecessary p) (Event.RoundStart e)
      { q with lastRoundStartEvent := none }
    | none => p
  let p2 :=
    match p1.lastFreezeTimeChangedEvent with
    | some e =>
      let q := dispatch p1 (Event.RoundFreezetimeChanged e.1 e.2)
      { q with lastFreezeTimeChangedEvent := none }
    | none => p1
  let p3 :=
    match p2.lastRoundEndEvent with
    | some e =>
      let q := dispatch p2 (Event.RoundEnd e)
      { q with lastRoundEndEvent := none }
    | none => p2
  dispatchMatchStartedEventIfNecessary p3

/-- Modelled from the spec: Participants().ByEntityID() is not in src/; §3 lists
the mapping players_by_entity_id of the game state, which is what is read. -/
def participantsByEntityID (p : Parser) (entityID : Int) : Option PlayerPtr :=
  mapGet p.playersByEntityID entityID

/-- The method parser.processFlyingFlashbangs. -/
def processFlyingFlashbangs (p : Parser) : Parser :=
  match p.flyingFlashbangs with
  | [] => p
  | flashbang :: rest =>
    if flashbang.flashedEntityIDs.length = 0 then
      if flashbang.explodedFrame > 0 ∧ flashbang.explodedFrame < p.currentFrame then
        { p with flyingFlashbangs := rest }
      else p
    else
      let p1 := flashbang.flashedEntityIDs.foldl (fun q entityID =>
        match participantsByEntityID q entityID with
        | none => q
        | some player =>
          dispatch q (Event.PlayerFlashed (some player) flashbang.projectile.thrower
            (some flashbang.projectile))) p
      { p1 with flyingFlashbangs := rest }

/-- The loop of parser.processFrameGameEvents over the entries that are queued
when the loop starts. -/
def runDelayedHandlers (env : Env) : List Delayed → Parser → Option Parser
  | [], p => some p
  | eventHandler :: rest, p =>
    match runDelayed env eventHandler p with
    | none => none
    | some p1 => runDelayedHandlers env rest p1

/-- The method parser.processFrameGameEvents. -/
def processFrameGameEvents (env : Env) (p : Parser) : Option Parser :=
  let p1 :=
    if !p.disableMimicSource1GameEvents then
      processRoundProgressEvents (processFlyingFlashbangs p)
    else p
  (runDelayedHandlers env p1.delayedEventHandlers p1).map (fun p2 =>
    { p2 with delayedEventHandlers := [] })

/-- The Go read `thrownGrenades[p][wepType]`; an absent entry reads as the
empty slice. -/
def thrownList (p : Parser) (pl : PlayerPtr) (wepType : EquipmentType) : List Equipment :=
  (mapGet ((mapGet p.thrownGrenades pl).getD []) wepType).getD []

/-! ## The bit reader (internal/bitread) -/

/-- A Go string whose bytes matter (string-table keys): the list of its bytes. -/
abbrev GoString := List Nat

/-- The bytes of a string literal made of ASCII characters. -/
def goString (s : String) : GoString := s.data.map Char.toNat

/-- Modelled from the spec: the bit reader is not in src/; §4.1 says that all
operations read forward, LSB-first within each byte, and that any read past the
end fails.  The reader is the list of the bits that are left. -/
abbrev BitReader := List Bool

/-- The bits of a byte, least significant first. -/
def bitsOfByte (b : Nat) : List Bool := (List.range 8).map (fun i => b.testBit i)

/-- The number whose bits, least significant first, are given. -/
def natOfBits : List Bool → Nat
  | [] => 0
  | b :: rest => b.toNat + 2 * natOfBits rest

/-- Modelled from the spec: the reader over a byte slice (NewSmallBitReader). -/
def NewSmallBitReader (buf : List Nat) : BitReader := (buf.map bitsOfByte).flatten

/-- Modelled from the spec: `read_bit → bool`. -/
def ReadBit : BitReader → Option (Bool × BitReader)
  | [] => none
  | b :: rest => some (b, rest)

/-- Modelled from the spec: `read_int(n) → u32`, unsigned. -/
def ReadInt (n : Nat) (r : BitReader) : Option (Nat × BitReader) :=
  if r.length < n then none else some (natOfBits (r.take n), r.drop n)

/-- Modelled from the spec: `read_varint_u32`, LEB128 with 7 bits per byte and
the most significant bit as continuation, at most 5 bytes. -/
def readVarInt32From : Nat → Nat → Nat → BitReader → Option (Nat × BitReader)
  | 0, _, res, r => some (res, r)
  | left + 1, count, res, r =>
    match ReadInt 8 r with
    | none => none
    | some (b, r1) =>
      let res1 := (res ||| ((b &&& 127) <<< (7 * count))) % 2 ^ 32
      if b &&& 128 ≠ 0 then readVarInt32From left (count + 1) res1 r1 else some (res1, r1)

/-- Modelled from the spec: `read_varint_u32`. -/
def ReadVarInt32 (r : BitReader) : Option (Nat × BitReader) := readVarInt32From 5 0 0 r

/-- Modelled from the spec: `read_ubit_int → u32`: 6 bits `v`, the mode
`(v & 0x30) >> 4` gives 0, 4, 8 or 28 extra bits, and the result is
`(v & 0x0F) | (read_int(extra) << 4)` when there are extra bits, else `v`. -/
def ReadUBitInt (r : BitReader) : Option (Nat × BitReader) :=
  match ReadInt 6 r with
  | none => none
  | some (v, r1) =>
    let extra : Nat :=
      match (v &&& 48) >>> 4 with
      | 1 => 4
      | 2 => 8
      | 3 => 28
      | _ => 0
    if extra = 0 then some (v, r1)
    else
      match ReadInt extra r1 with
      | none => none
      | some (w, r2) => some ((v &&& 15) ||| (w <<< 4), r2)

/-- Modelled from the spec: `read_string`, the bytes up to the next NUL byte. -/
def ReadString : BitReader → Option (GoString × BitReader)
  | b0 :: b1 :: b2 :: b3 :: b4 :: b5 :: b6 :: b7 :: rest =>
    let byte := natOfBits [b0, b1, b2, b3, b4, b5, b6, b7]
    if byte = 0 then some ([], rest)
    else
      match ReadString rest with
      | none => none
      | some (s, r1) => some (byte :: s, r1)
  | _ => none

/-- The bytes holding the given bits, LSB-aligned, `k` bytes in all. -/
def bytesOfBits : Nat → List Bool → List Nat
  | 0, _ => []
  | k + 1, bits => natOfBits (bits.take 8) :: bytesOfBits k (bits.drop 8)

/-- Modelled from the spec: `read_bits(n)`, a byte slice of ⌈n/8⌉ bytes holding
n LSB-aligned bits; a negative size fails. -/
def ReadBits (n : Int) (r : BitReader) : Option (List Nat × BitReader) :=
  if n < 0 ∨ r.length < n.toNat then none
  else some (bytesOfBits ((n.toNat + 7) / 8) (r.take n.toNat), r.drop n.toNat)

/-! ## String tables (stringtables.go) -/

/-- The constant stNameInstanceBaseline. -/
def stNameInstanceBaseline : String := "instancebaseline"
/-- The constant stNameUserInfo. -/
def stNameUserInfo : String := "userinfo"
/-- The constant stNameModelPreCache. -/
def stNameModelPreCache : String := "modelprecache"

/-- The constant stringtableKeyHistorySize. -/
def stringtableKeyHistorySize : Nat := 32

/-- The type stringTableItem. -/
structure StringTableItem where
  index : Int
  key : GoString
  value : List Nat
  deriving DecidableEq, Repr

/-- The parameters of parser.parseStringTable other than the buffer and the
number of updates. -/
structure StringTableConfig where
  name : String := ""
  userDataFixed : Bool := false
  userDataSize : Int := 0
  flags : Int := 0
  variantBitCount : Bool := false
  deriving DecidableEq, Repr

/-- The variables that the loop of parser.parseStringTable carries from one
update to the next: the reader, `index` and the key history `keys`. -/
structure UpdateState where
  r : BitReader
  index : Int
  keys : List GoString
  deriving DecidableEq, Repr

/-- The conversion of an integer to int32 (two's complement wrap-around). -/
def toInt32 (x : Int) : Int := (x + 2 ^ 31) % 2 ^ 32 - 2 ^ 31

/-- The index part of an update of parser.parseStringTable: `incr := r.ReadBit()`
and the new value of `index`. -/
def readStringTableIndex (r : BitReader) (index : Int) : Option (Int × BitReader) :=
  match ReadBit r with
  | none => none
  | some (true, r1) => some (toInt32 (index + 1), r1)
  | some (false, r1) =>
    match ReadVarInt32 r1 with
    | none => none
    | some (v, r2) => some (toInt32 (toInt32 v + 1), r2)

/-- The statements `keys = append(keys, key)` and the eviction that follows. -/
def pushKeyHistory (keys : List GoString) (key : GoString) : List GoString :=
  if (keys ++ [key]).length > stringtableKeyHistorySize then (keys ++ [key]).drop 1
  else keys ++ [key]

/-- The key built from the history entry at `pos`, the `size` and the string read. -/
def historyKey (keys : List GoString) (pos size : Nat) (t : GoString) : GoString :=
  if pos ≥ keys.length then t
  else
    let s := keys.getD pos []
    if size > s.length then s ++ t else s.take size ++ t

/-- The key part of an update of parser.parseStringTable: the key (empty when
the update has none), the new history and the reader. -/
def readStringTableKey (r : BitReader) (keys : List GoString) :
    Option (GoString × List GoString × BitReader) :=
  match ReadBit r with
  | none => none
  | some (false, r1) => some ([], keys, r1)
  | some (true, r1) =>
    match ReadBit r1 with
    | none => none
    | some (false, r2) =>
      match ReadString r2 with
      | none => none
      | some (t, r3) => some (t, pushKeyHistory keys t, r3)
    | some (true, r2) =>
      match ReadInt 5 r2 with
      | none => none
      | some (pos, r3) =>
        match ReadInt 5 r3 with
        | none => none
        | some (size, r4) =>
          match ReadString r4 with
          | none => none
          | some (t, r5) =>
            some (historyKey keys pos size t, pushKeyHistory keys (historyKey keys pos size t), r5)

/-- The value part of an update of parser.parseStringTable. -/
def readStringTableValue (env : Env) (cfg : StringTableConfig) (r : BitReader) :
    Option (List Nat × BitReader) :=
  match ReadBit r with
  | none => none
  | some (false, r1) => some ([], r1)
  | some (true, r1) =>
    let sized : Option (Bool × Int × BitReader) :=
      if cfg.userDataFixed then some (false, cfg.userDataSize, r1)
      else
        let flagged : Option (Bool × BitReader) :=
          if Int.land cfg.flags 1 ≠ 0 then ReadBit r1 else some (false, r1)
        match flagged with
        | none => none
        | some (isCompressed, r2) =>
          match (if cfg.variantBitCount then ReadUBitInt r2 else ReadInt 17 r2) with
          | none => none
          | some (n, r3) => some (isCompressed, (n : Int) * 8, r3)
    match sized with
    | none => none
    | some (isCompressed, bitSize, r4) =>
      match ReadBits bitSize r4 with
      | none => none
      | some (value, r5) =>
        if isCompressed then
          match env.snappyDecode value with
          | Except.error _ => none
          | Except.ok tmp => some (tmp, r5)
        else some (value, r5)

/-- One pass through the body of the loop of parser.parseStringTable: the item
appended to `items` and the variables for the next pass; `none` when a read or
the decompression fails. -/
def parseStringTableUpdate (env : Env) (cfg : StringTableConfig) (st : UpdateState) :
    Option (StringTableItem × UpdateState) :=
  match readStringTableIndex st.r st.index with
  | none => none
  | some (index, r1) =>
    match readStringTableKey r1 st.keys with
    | none => none
    | some (key, keys, r2) =>
      match readStringTableValue env cfg r2 with
      | none => none
      | some (value, r3) =>
        some ({ index := index, key := key, value := value },
          { r := r3, index := index, keys := keys })

/-- The loop of parser.parseStringTable, `n` passes at most: the items so far,
the loop variables, and whether a pass failed. -/
def parseStringTableLoop (env : Env) (cfg : StringTableConfig) :
    Nat → UpdateState → List StringTableItem → List StringTableItem × UpdateState × Bool
  | 0, st, items => (items, st, false)
  | n + 1, st, items =>
    match parseStringTableUpdate env cfg st with
    | none => (items, st, true)
    | some (item, st1) => parseStringTableLoop env cfg n st1 (items ++ [item])

/-- The warning that parser.parseStringTable dispatches when it recovers. -/
def stringTableParsingFailureWarn : Event :=
  Event.ParserWarn "failed to parse stringtable properly"
    WarnType.WarnTypeStringTableParsingFailure

/-- The method parser.parseStringTable: the items returned (the named result
holds the items appended before a failure) and the parser. -/
def parseStringTable (env : Env) (buf : List Nat) (numUpdates : Int)
    (cfg : StringTableConfig) (p : Parser) : List StringTableItem × Parser :=
  if buf.length = 0 then ([], p)
  else
    match parseStringTableLoop env cfg numUpdates.toNat
        { r := NewSmallBitReader buf, index := -1, keys := [] } [] with
    | (items, _, true) => (items, dispatch p stringTableParsingFailureWarn)
    | (items, _, false) => (items, p)

/-- A loop `for _, x := range xs { f(x) }` whose body can fail. -/
def forEachM {α : Type} (f : α → Parser → Option Parser) : List α → Parser → Option Parser
  | [], p => some p
  | x :: rest, p =>
    match f x p with
    | none => none
    | some p1 => forEachM f rest p1

/-- Whether a byte is an ASCII digit. -/
def isDigitByte (b : Nat) : Bool := decide (48 ≤ b) && decide (b ≤ 57)

/-- The function strconv.Atoi of the Go library: an optional sign, then decimal
digits, at least one, the value within 64 bits; `none` is the error. -/
def Atoi (s : GoString) : Option Int :=
  let signed : Bool × List Nat :=
    match s with
    | 45 :: rest => (true, rest)
    | 43 :: rest => (false, rest)
    | _ => (false, s)
  if signed.2.isEmpty || !signed.2.all isDigitByte then none
  else
    let v : Int := (signed.2.foldl (fun acc b => 10 * acc + (b - 48)) 0 : Nat)
    let w : Int := if signed.1 then -v else v
    if w < -(2 ^ 63) ∨ w > 2 ^ 63 - 1 then none else some w

/-- The test `instanceBaselineKeyRegex.MatchString(key)` for the regular
expression `^\d+:\d+$`. -/
def instanceBaselineKeyRegexMatch (key : GoString) : Bool :=
  match key.dropWhile isDigitByte with
  | 58 :: rest =>
    !(key.takeWhile isDigitByte).isEmpty && !rest.isEmpty && rest.all isDigitByte
  | _ => false

/-- The method Parser.SetInstanceBaseline (sendtablescs2/parser.go); an id out of
bounds fails. -/
def SetInstanceBaseline (p : Parser) (scID : Int) (data : List Nat) : Option Parser :=
  if scID < 0 ∨ scID > 2147483647 then none
  else
    let baselines := mapSet p.classBaselines scID data
    some { p with classBaselines := baselines }

/-- The function strings.Contains of the Go library. -/
def stringsContains : GoString → GoString → Bool
  | [], sub => sub.isEmpty
  | c :: s, sub => sub.isPrefixOf (c :: s) || stringsContains s sub

/-- The map literal modelPreCacheSubstringToEq. -/
def modelPreCacheSubstringToEq : List (GoString × EquipmentType) :=
  [ (goString "flashbang", EquipmentType.EqFlash),
    (goString "fraggrenade", EquipmentType.EqHE),
    (goString "smokegrenade", EquipmentType.EqSmoke),
    (goString "molotov", EquipmentType.EqMolotov),
    (goString "incendiarygrenade", EquipmentType.EqIncendiary),
    (goString "decoy", EquipmentType.EqDecoy) ]

/-- The method parser.processModelPreCacheUpdate; the inner loop visits the map
literal in the order it is written. -/
def processModelPreCacheUpdate (p : Parser) : Parser :=
  let indices := p.modelPreCache.enum.foldl (fun m entry =>
    modelPreCacheSubstringToEq.foldl (fun m2 eqEntry =>
      if stringsContains entry.2 eqEntry.1 then mapSet m2 entry.1 eqEntry.2 else m2) m)
    p.grenadeModelIndices
  { p with grenadeModelIndices := indices }

/-- The method parser.parseUserInfo; a message that does not decode fails. -/
def parseUserInfo (env : Env) (data : List Nat) (playerIndex : Int) (p : Parser) :
    Option Parser :=
  match mapGet p.rawPlayers playerIndex with
  | some _ => some p
  | none =>
    match env.UnmarshalPlayerInfo data with
    | Except.error _ => none
    | Except.ok userInfo =>
      if userInfo.xuid = 0 ∧ userInfo.name = "" then some p
      else
        let playerInfo : PlayerInfo :=
          { xuid := userInfo.xuid, name := userInfo.name, userID := userInfo.userid,
            isFakePlayer := userInfo.fakeplayer, isHltv := userInfo.ishltv, guid := "" }
        let p1 := setRawPlayer p playerIndex playerInfo
        if p1.recordingPlayerSlot = -1 ∧ p1.headerClientName = playerInfo.name then
          some (dispatch { p1 with recordingPlayerSlot := playerIndex }
            (Event.POVRecordingPlayerDetected playerIndex playerInfo))
        else some p1

/-- The type msg.CSVCMsg_CreateStringTable, by the getters that are called. -/
structure CreateStringTable where
  name : String := ""
  numEntries : Int := 0
  userDataFixedSize : Bool := false
  userDataSize : Int := 0
  flags : Int := 0
  stringData : List Nat := []
  dataCompressed : Bool := false
  uncompressedSize : Int := 0
  usingVarintBitcounts : Bool := false
  deriving DecidableEq, Repr

/-- The body of the loop over the items in parser.processStringTable. -/
def processStringTableItem (env : Env) (name : String) (item : StringTableItem)
    (p : Parser) : Option Parser :=
  if name = stNameInstanceBaseline then
    if item.key = [] ∨ instanceBaselineKeyRegexMatch item.key = true then some p
    else
      match Atoi item.key with
      | none => none
      | some classID => SetInstanceBaseline p classID item.value
  else if name = stNameUserInfo then parseUserInfo env item.value item.index p
  else some p

/-- The statements of parser.processStringTable up to the call of
parseStringTable: the padding of modelPreCache and the decompression. -/
def prepareStringTable (env : Env) (tab : CreateStringTable) (p : Parser) :
    Option (List Nat × Parser) :=
  let padding : List GoString :=
    List.replicate (tab.numEntries.toNat - p.modelPreCache.length) []
  let p1 := if tab.name = stNameModelPreCache then
    { p with modelPreCache := p.modelPreCache ++ padding } else p
  if tab.dataCompressed then
    if tab.uncompressedSize < 0 then none
    else
      match env.snappyDecode tab.stringData with
      | Except.error _ => none
      | Except.ok b => some (b, p1)
  else some (tab.stringData, p1)

/-- The items that parser.processStringTable gets from parseStringTable, and the
parser after that call. -/
def parsedStringTable (env : Env) (tab : CreateStringTable) (data : List Nat) (p : Parser) :
    List StringTableItem × Parser :=
  parseStringTable env data tab.numEntries
    { name := tab.name, userDataFixed := tab.userDataFixedSize,
      userDataSize := tab.userDataSize, flags := tab.flags,
      variantBitCount := tab.usingVarintBitcounts } p

/-- The method parser.processStringTable. -/
def processStringTable (env : Env) (tab : CreateStringTable) (p : Parser) : Option Parser :=
  match prepareStringTable env tab p with
  | none => none
  | some (data, p1) =>
    match forEachM (processStringTableItem env tab.name) (parsedStringTable env tab data p1).1
        (parsedStringTable env tab data p1).2 with
    | none => none
    | some p3 =>
      if tab.name = stNameModelPreCache then some (processModelPreCacheUpdate p3) else some p3

/-- An item of a table of msg.CDemoStringTables. -/
structure SnapshotItem where
  str : GoString := []
  data : List Nat := []
  deriving DecidableEq, Repr

/-- A table of msg.CDemoStringTables. -/
structure SnapshotTable where
  tableName : String := ""
  items : List SnapshotItem := []
  deriving DecidableEq, Repr

/-- The body of the loop over the items of an instancebaseline table in
parser.handleStringTables. -/
def handleBaselineItem (item : SnapshotItem) (p : Parser) : Option Parser :=
  if instanceBaselineKeyRegexMatch item.str = true then some p
  else
    match Atoi item.str with
    | none => none
    | some classID => SetInstanceBaseline p classID item.data

/-- The body of the loop over the items of a userinfo table in
parser.handleStringTables. -/
def handleUserInfoItem (env : Env) (item : SnapshotItem) (p : Parser) : Option Parser :=
  match Atoi item.str with
  | none => none
  | some playerIndex => parseUserInfo env item.data playerIndex p

/-- The body of the loop over the tables in parser.handleStringTables. -/
def handleSnapshotTable (env : Env) (tab : SnapshotTable) (p : Parser) : Option Parser :=
  if tab.tableName = stNameInstanceBaseline then forEachM handleBaselineItem tab.items p
  else if tab.tableName = stNameUserInfo then forEachM (handleUserInfoItem env) tab.items p
  else some p

/-- The method parser.handleStringTables. -/
def handleStringTables (env : Env) (tables : List SnapshotTable) (p : Parser) :
    Option Parser :=
  forEachM (handleSnapshotTable env) tables p

/-- Whether an item of an instancebaseline table is one that
parser.processStringTable hands to SetInstanceBaseline for the class `c`: its
key is not empty, does not match `^\d+:\d+$` and parses to `c`. -/
def setsBaseline (c : Int) (item : StringTableItem) : Bool :=
  decide (item.key ≠ []) && !instanceBaselineKeyRegexMatch item.key &&
    decide (Atoi item.key = some c)

/-- Whether an event is a POVRecordingPlayerDetected. -/
def isPOVRecordingPlayerDetected : Event → Bool
  | Event.POVRecordingPlayerDetected _ _ => true
  | _ => false

/-- The player info that parser.parseUserInfo builds from a decoded message. -/
def playerInfoOf (userInfo : CMsgPlayerInfo) : PlayerInfo :=
  { xuid := userInfo.xuid, name := userInfo.name, userID := userInfo.userid,
    isFakePlayer := userInfo.fakeplayer, isHltv := userInfo.ishltv, guid := "" }

/-- Whether the call `p.parseUserInfo(data, slot)` newly stores a userinfo entry
whose name equals header.ClientName: no raw player is stored for the slot, the
message decodes, it is not an empty one and its name is the client name. -/
def storesClientName (env : Env) (data : List Nat) (slot : Int) (p : Parser) : Bool :=
  match mapGet p.rawPlayers slot, env.UnmarshalPlayerInfo data with
  | none, Except.ok userInfo =>
    !decide (userInfo.xuid = 0 ∧ userInfo.name = "") &&
      decide (p.headerClientName = userInfo.name)
  | _, _ => false

/-- A sequence of calls `p.parseUserInfo(data, playerIndex)`, one for each pair
of the list, in list order. -/
def parseUserInfoCalls (env : Env) (calls : List (List Nat × Int)) (p : Parser) :
    Option Parser :=
  forEachM (fun c => parseUserInfo env c.1 c.2) calls p

/-- The entries `ds` are called one after the other, each exactly once and in
list order, taking the parser from `p` to `r`. -/
inductive RunsInOrder (env : Env) : List Delayed → Parser → Parser → Prop where
  | done (p : Parser) : RunsInOrder env [] p p
  | step (d : Delayed) (ds : List Delayed) (p p1 r : Parser) :
      runDelayed env d p = some p1 → RunsInOrder env ds p1 r → RunsInOrder env (d :: ds) p r

/-- Whether an event is the warning of parser.handleGameEvent for an unknown
event name, a ParserWarn whose Type is left at its zero value. -/
def isUnknownEventWarn : Event → Bool
  | Event.ParserWarn _ WarnType.WarnTypeUndefined => true
  | _ => false

/-- The parser `q` has dispatched what `p` has, followed by events none of which
is the warning for an unknown event name. -/
def AppendsKnown (p q : Parser) : Prop :=
  ∃ pre : List Event, q.dispatched = p.dispatched ++ pre ∧
    ∀ e ∈ pre, isUnknownEventWarn e = false

/-! ## The dispatch log -/

/-- Whether an event is a GenericGameEvent. -/
def isGenericGameEvent : Event → Bool
  | Event.GenericGameEvent _ _ => true
  | _ => false

/-- The parser `q` has dispatched what `p` has, followed by events none of which
is a GenericGameEvent. -/
def Appends (p q : Parser) : Prop :=
  ∃ pre : List Event, q.dispatched = p.dispatched ++ pre ∧
    ∀ e ∈ pre, isGenericGameEvent e = false

/-! ## Sample inputs -/

/-- An environment whose collaborators return fixed values; the fallback list
does not decode. -/
def sampleEnv : Env where
  MapEquipment := fun _ => EquipmentType.EqUnknown
  EquipmentAlternative := fun _ => EquipmentType.EqUnknown
  isGrenade := fun _ => false
  NewEquipment := fun t => { type := t }
  Unmarshal := fun _ => Except.error "cannot parse"
  contains := fun _ _ => false
  teamState := fun _ => none
  opponent := fun _ => none
  FindByPawnHandle := fun _ _ => none
  ConvertSteamIDTxtTo32 := fun _ => Except.error "bad id"
  ConvertSteamID32To64 := fun n => n
  secondsToDuration := fun n => n
  float64 := fun n => n
  unknownEventMessage := fun n => "unknown event " ++ n
  UnmarshalPlayerInfo := fun data =>
    match data with
    | [] => Except.ok {}
    | xuid :: userid :: name =>
      Except.ok { xuid := xuid, userid := userid, name := String.mk (name.map Char.ofNat) }
    | _ => Except.error "cannot parse"
  snappyDecode := fun _ => Except.error "corrupt input"

/-- A parser in Source-2 mode with one player (address 0, user id 7, team 3,
health 80, armor 0) and bombsites 1 and 2. -/
def sampleParser : Parser :=
  { disableMimicSource1GameEvents := true
    currentFrame := 12
    bombsiteA := { index := 1 }
    bombsiteB := { index := 2 }
    playerHeap := [{ name := "p7", team := 3, health := 80 }]
    playersByUserID := [(7, 0)]
    userIDToFallDamageFrame := [(7, 12)]
    frameToRoundEndReason := [(12, 9)] }

/-- The descriptor of hltv_status, with event id 4 and one key. -/
def sampleDescriptor : Descriptor :=
  { eventid := 4, name := "hltv_status", keys := [{ name := "clients" }] }

/-- A parser that has stored the descriptor of hltv_status under event id 4. -/
def sampleParserWithDescs : Parser :=
  { sampleParser with gameEventDescs := some [(4, sampleDescriptor)] }

/-! ## Send tables (sendtables/sendtablescs2/parser.go) -/

namespace Sendtablescs2

/-- A pointer to a serializer: its position in `Parser.serializerHeap`. -/
abbrev SerializerPtr := Nat

/-- A pointer to a field: its position in `Parser.fieldHeap`. -/
abbrev FieldPtr := Nat

/-- A pointer to a class: its position in `Parser.classHeap`. -/
abbrev ClassPtr := Nat

/-- The map literal pointerTypes. -/
def pointerTypes : List (String × Bool) :=
  [ ("CBodyComponentDCGBaseAnimating", true),
    ("CBodyComponentBaseAnimating", true),
    ("CBodyComponentBaseAnimatingOverlay", true),
    ("CBodyComponentBaseModelEntity", true),
    ("CBodyComponent", true),
    ("CBodyComponentSkeletonInstance", true),
    ("CBodyComponentPoint", true),
    ("CLightComponent", true),
    ("CRenderComponent", true),
    ("CPhysicsComponent", true) ]

/-- The map literal itemCounts. -/
def itemCounts : List (String × Int) :=
  [ ("MAX_ITEM_STOCKS", 8), ("MAX_ABILITY_DRAFT_ABILITIES", 48) ]

/-- The message type msg.ProtoFlattenedSerializerT. -/
structure ProtoFlattenedSerializerT where
  serializerNameSym : Int := 0
  serializerVersion : Int := 0
  fieldsIndex : List Int := []
  deriving DecidableEq, Repr

/-- The message type msg.ProtoFlattenedSerializerFieldT: the symbol numbers of a
field; ParsePacket hands the message to newField and reads nothing of it. -/
structure ProtoFlattenedSerializerFieldT where
  varTypeSym : Int := 0
  varNameSym : Int := 0
  fieldSerializerNameSym : Option Int := none
  fieldSerializerVersion : Int := 0
  deriving DecidableEq, Repr

/-- The message type msg.CSVCMsg_FlattenedSerializer. -/
structure CSVCMsg_FlattenedSerializer where
  serializers : List ProtoFlattenedSerializerT := []
  symbols : List String := []
  fields : List ProtoFlattenedSerializerFieldT := []
  deriving DecidableEq, Repr

/-- The entries of msg.CDemoClassInfo. -/
structure CDemoClassInfo_class_t where
  classId : Int := 0
  networkName : String := ""
  deriving DecidableEq, Repr

/-- The constants fieldModelSimple .. fieldModelVariableTable. -/
inductive FieldModel where
  | fieldModelSimple
  | fieldModelFixedArray
  | fieldModelFixedTable
  | fieldModelVariableArray
  | fieldModelVariableTable
  deriving DecidableEq, Repr

/-- Modelled from the spec: the type fieldType is not in src/; §3 gives it as
`{base_type, generic_type?, count, pointer}`.  The generic type is kept as its
type string. -/
structure FieldType where
  baseType : String := ""
  genericType : Option String := none
  pointer : Bool := false
  count : Int := 0
  deriving DecidableEq, Repr

/-- Modelled from the spec: the type field is not in src/; these are the
components that ParsePacket reads and writes (§3: var_name, var_type,
serializer_name, model, field_type; the sub-serializer is a pointer). -/
structure Field where
  varName : String := ""
  varType : String := ""
  serializerName : String := ""
  fieldType : Option FieldType := none
  serializer : Option SerializerPtr := none
  model : FieldModel := FieldModel.fieldModelSimple
  deriving DecidableEq, Repr

/-- Modelled from the spec: the type serializer is not in src/; §3 gives it as
`{name, version, fields: ordered list of Field}`, the fields being pointers. -/
structure Serializer where
  name : String := ""
  version : Int := 0
  fields : List FieldPtr := []
  deriving DecidableEq, Repr

/-- The type class as OnDemoClassInfo fills it; the name cache starts as an
empty map. -/
structure Class where
  classId : Int := 0
  name : String := ""
  serializer : Option SerializerPtr := none
  fpNameCacheNext : List (Int × Nat) := []
  deriving DecidableEq, Repr

/-- The type Parser of package sendtablescs2: the maps that OnServerInfo,
OnDemoClassInfo and ParsePacket use, with the heaps their pointers point into.
The entity store and the caches are not touched by these methods. -/
structure Parser where
  serializerHeap : List Serializer := []
  fieldHeap : List Field := []
  classHeap : List Class := []
  serializers : List (String × SerializerPtr) := []
  classIdSize : Nat := 0
  classBaselines : List (Int × List Nat) := []
  classesById : List (Int × ClassPtr) := []
  classesByName : List (String × ClassPtr) := []
  deriving DecidableEq, Repr

/-- Functions that parser.go calls and that are not part of src/; each is a
parameter of the embedding. -/
structure Externals where
  /-- The value of `uint32(math.Log(float64(n))/math.Log(2))`. -/
  logQuotient : Int → Nat
  /-- The reads `r.readBytes(r.readVarUint32())` followed by proto.Unmarshal:
  `none` when the reader fails, an error when the message does not decode. -/
  decode : List Nat → Option (Except String CSVCMsg_FlattenedSerializer)
  /-- The function newField, given the serializers stored so far. -/
  newField : List (String × SerializerPtr) → List Serializer → CSVCMsg_FlattenedSerializer →
    ProtoFlattenedSerializerFieldT → Field
  /-- The function newFieldType. -/
  newFieldType : String → FieldType
  /-- The list fieldPatches, each entry with its method patch. -/
  fieldPatches : List (Field → Field)

/-- Modelled from the spec: newSerializer is not in src/; a new serializer has
the given name and version and no field yet. -/
def newSerializer (name : String) (version : Int) : Serializer :=
  { name := name, version := version, fields := [] }

/-- Modelled from the spec: serializer.addField is not in src/; §4.3 says that
the fields are appended to the serializer in order. -/
def addField (s : Serializer) (f : FieldPtr) : Serializer :=
  { s with fields := s.fields ++ [f] }

/-- Modelled from the spec: field.setModel is not in src/; it records the model
of the field (§3). -/
def setModel (f : Field) (model : FieldModel) : Field :=
  { f with model := model }

/-- The method Parser.OnServerInfo, which returns no error. -/
def OnServerInfo (env : Externals) (maxClasses : Int) (p : Parser) : Parser :=
  { p with classIdSize := (env.logQuotient maxClasses + 1) % 2 ^ 32 }

/-- The body of the loop of Parser.OnDemoClassInfo. -/
def addClass (p : Parser) (c : CDemoClassInfo_class_t) : Parser :=
  let cls : Class :=
    { classId := c.classId, name := c.networkName,
      serializer := mapGet p.serializers c.networkName, fpNameCacheNext := [] }
  let ptr : ClassPtr := p.classHeap.length
  { p with classHeap := p.classHeap ++ [cls],
           classesById := mapSet p.classesById cls.classId ptr,
           classesByName := mapSet p.classesByName cls.name ptr }

/-- The method Parser.OnDemoClassInfo, which returns no error. -/
def OnDemoClassInfo (classes : List CDemoClassInfo_class_t) (p : Parser) : Parser :=
  classes.foldl addClass p

/-- The local variables of ParsePacket that its loops carry along, with the
parser. -/
structure PacketState where
  p : Parser
  fields : List (Int × FieldPtr) := []
  fieldTypes : List (String × FieldType) := []
  deriving DecidableEq, Repr

/-- A slice index `xs[i]` with an int32 index; `none` is out of range. -/
def sliceAt {α : Type} (xs : List α) (i : Int) : Option α :=
  if i < 0 then none else xs[i.toNat]?

/-- The step "determine field model" of ParsePacket; it reads through
field.fieldType, which fails for nil. -/
def determineModel (f : Field) : Option FieldModel :=
  match f.fieldType with
  | none => none
  | some fieldType =>
    if f.serializer.isSome then
      if fieldType.pointer || (mapGet pointerTypes fieldType.baseType).getD false then
        some FieldModel.fieldModelFixedTable
      else some FieldModel.fieldModelVariableTable
    else if fieldType.count > 0 ∧ fieldType.baseType ≠ "char" then
      some FieldModel.fieldModelFixedArray
    else if fieldType.baseType = "CUtlVector" ∨
        fieldType.baseType = "CNetworkUtlVectorBase" then
      some FieldModel.fieldModelVariableArray
    else some FieldModel.fieldModelSimple

/-- The field that ParsePacket creates for the index `i`, up to the patches
("create a new field" .. "apply any build-specific patches"), with the map of
field types. -/
def createField (env : Externals) (m : CSVCMsg_FlattenedSerializer)
    (pf : ProtoFlattenedSerializerFieldT) (st : PacketState) :
    Field × List (String × FieldType) :=
  let field := env.newField st.p.serializers st.p.serializerHeap m pf
  let fieldTypes :=
    match mapGet st.fieldTypes field.varType with
    | some _ => st.fieldTypes
    | none => mapSet st.fieldTypes field.varType (env.newFieldType field.varType)
  let field1 := { field with fieldType := mapGet fieldTypes field.varType }
  let field2 :=
    if field1.serializerName ≠ "" then
      { field1 with serializer := mapGet st.p.serializers field1.serializerName }
    else field1
  (env.fieldPatches.foldl (fun f patch => patch f) field2, fieldTypes)

/-- The branch `if _, ok := fields[i]; !ok` of ParsePacket: the field for the
index `i` is created, gets its model and is stored under `i`.  The new field is
put on the heap when it is complete. -/
def materializeField (env : Externals) (m : CSVCMsg_FlattenedSerializer) (i : Int)
    (st : PacketState) : Option PacketState :=
  match sliceAt m.fields i with
  | none => none
  | some pf =>
    match determineModel (createField env m pf st).1 with
    | none => none
    | some model =>
      let field := setModel (createField env m pf st).1 model
      let ptr : FieldPtr := st.p.fieldHeap.length
      let p1 := { st.p with fieldHeap := st.p.fieldHeap ++ [field] }
      some { p := p1, fields := mapSet st.fields i ptr,
             fieldTypes := (createField env m pf st).2 }

/-- The body of the loop over `s.GetFieldsIndex()` in ParsePacket. -/
def addFieldIndex (env : Externals) (m : CSVCMsg_FlattenedSerializer) (i : Int)
    (acc : PacketState × Serializer) : Option (PacketState × Serializer) :=
  let next :=
    match mapGet acc.1.fields i with
    | some _ => some acc.1
    | none => materializeField env m i acc.1
  match next with
  | none => none
  | some st1 =>
    match mapGet st1.fields i with
    | none => none
    | some ptr => some (st1, addField acc.2 ptr)

/-- The loop over `s.GetFieldsIndex()` in ParsePacket. -/
def addFields (env : Externals) (m : CSVCMsg_FlattenedSerializer) :
    List Int → PacketState × Serializer → Option (PacketState × Serializer)
  | [], acc => some acc
  | i :: rest, acc =>
    match addFieldIndex env m i acc with
    | none => none
    | some acc1 => addFields env m rest acc1

/-- A write through a class pointer. -/
def updateClass (p : Parser) (ptr : ClassPtr) (f : Class → Class) : Parser :=
  { p with classHeap := p.classHeap.set ptr (f (p.classHeap.getD ptr {})) }

/-- The end of the body of the loop over the serializers in ParsePacket: the
serializer is stored under its name, and the class of that name, if there is
one, gets it. -/
def storeSerializer (p : Parser) (serializer : Serializer) : Parser :=
  let ptr : SerializerPtr := p.serializerHeap.length
  let p1 := { p with serializerHeap := p.serializerHeap ++ [serializer],
                     serializers := mapSet p.serializers serializer.name ptr }
  match mapGet p1.classesByName serializer.name with
  | some c => updateClass p1 c (fun x => { x with serializer := some ptr })
  | none => p1

/-- The name `msg.GetSymbols()[s.GetSerializerNameSym()]` of a serializer of the
message; `none` when the symbol number is out of range. -/
def serializerNameOf (m : CSVCMsg_FlattenedSerializer) (s : ProtoFlattenedSerializerT) :
    Option String :=
  sliceAt m.symbols s.serializerNameSym

/-- The body of the loop over `msg.GetSerializers()` in ParsePacket.  The new
serializer is put on the heap when it is stored. -/
def processSerializer (env : Externals) (m : CSVCMsg_FlattenedSerializer)
    (s : ProtoFlattenedSerializerT) (st : PacketState) : Option PacketState :=
  match serializerNameOf m s with
  | none => none
  | some name =>
    match addFields env m s.fieldsIndex (st, newSerializer name s.serializerVersion) with
    | none => none
    | some (st1, serializer) => some { st1 with p := storeSerializer st1.p serializer }

/-- The loop over `msg.GetSerializers()` in ParsePacket. -/
def processSerializers (env : Externals) (m : CSVCMsg_FlattenedSerializer) :
    List ProtoFlattenedSerializerT → PacketState → Option PacketState
  | [], st => some st
  | s :: rest, st =>
    match processSerializer env m s st with
    | none => none
    | some st1 => processSerializers env m rest st1

/-- The method Parser.ParsePacket: the returned error and the parser; `none` is
a run-time failure. -/
def ParsePacket (env : Externals) (b : List Nat) (p : Parser) :
    Option (Option String × Parser) :=
  match env.decode b with
  | none => none
  | some (Except.error err) => some (some err, p)
  | some (Except.ok m) =>
    match processSerializers env m m.serializers { p := p } with
    | none => none
    | some st => some (none, st.p)

/-- The map `fields` of ParsePacket holds pairwise distinct indices, and the
fields stored under them are the heap cells from `n0` on, one new cell for each
index in the order in which the indices were first met. -/
def FieldsInv (n0 : Nat) (st : PacketState) : Prop :=
  (st.fields.map Prod.fst).Nodup ∧
  st.fields.map Prod.snd = List.range' n0 st.fields.length ∧
  st.p.fieldHeap.length = n0 + st.fields.length

/-- The parser `q` is the parser `p` with the fields `new` added to the heap of
fields and nothing else changed. -/
def AddsFields (p q : Parser) (new : List Field) : Prop :=
  q = { p with fieldHeap := p.fieldHeap ++ new }

/-- The type string `t` parsed the sample way: a trailing `*` makes a pointer. -/
def sampleFieldType (t : String) : FieldType :=
  match t.data.reverse with
  | '*' :: rest => { baseType := String.mk rest.reverse, pointer := true }
  | _ => { baseType := t }

/-- A packet with the serializer CBodyComponentPoint (no field) and two
serializers named CWorld, version 0 with the field indices 1, 0, 1 and version
1 with the field index 0.  Field 0 has the type CBodyComponent and names no
serializer; field 1 has the type CBodyComponent and names the serializer
CBodyComponentPoint. -/
def samplePacket : CSVCMsg_FlattenedSerializer :=
  { symbols := ["CWorld", "CBodyComponent", "m_body", "CBodyComponentPoint", "m_sub"],
    fields := [{ varTypeSym := 1, varNameSym := 2 },
               { varTypeSym := 1, varNameSym := 4, fieldSerializerNameSym := some 3 }],
    serializers := [{ serializerNameSym := 3, serializerVersion := 0, fieldsIndex := [] },
                    { serializerNameSym := 0, serializerVersion := 0, fieldsIndex := [1, 0, 1] },
                    { serializerNameSym := 0, serializerVersion := 1, fieldsIndex := [0] }] }

/-- Sample externals: an empty buffer makes the reader fail, a buffer that
starts with 0 does not decode, any other buffer decodes to the sample packet;
newField resolves the symbols of the field; there is no patch. -/
def sampleExternals : Externals where
  logQuotient := fun n => Nat.log 2 n.toNat
  decode := fun b =>
    match b with
    | [] => none
    | 0 :: _ => some (Except.error "cannot parse")
    | _ => some (Except.ok samplePacket)
  newField := fun _ _ m pf =>
    { varName := (sliceAt m.symbols pf.varNameSym).getD "",
      varType := (sliceAt m.symbols pf.varTypeSym).getD "",
      serializerName :=
        match pf.fieldSerializerNameSym with
        | some sym => (sliceAt m.symbols sym).getD ""
        | none => "" }
  newFieldType := sampleFieldType
  fieldPatches := []

end Sendtablescs2

/-! ## The fake parser (fake/parser.go) -/

namespace Fake

/-- Modelled from the spec: the fake parser (fake/parser.go) is not in src/, only
its test is.  §5 has parse_next_frame complete one frame, dispatch all events of
that frame and then return `(has_more, error?)`; in the test every call of
MockEvents queues the events of one further frame and
`On("ParseNextFrame").Return(..)` fixes the returned pair.  The state holds the
mocked result (none when no result was set), the frames that are still pending,
each with its events in the order queued, and the log of the events handed to
the registered event handlers. -/
structure Parser (ε : Type) where
  mocked : Option (Bool × Option String) := none
  frames : List (List ε) := []
  dispatched : List ε := []

/-- Modelled from the spec: fake.NewParser, a parser with nothing mocked. -/
def NewParser {ε : Type} : Parser ε := {}

/-- Modelled from the spec: the call `p.On("ParseNextFrame").Return(next, err)`. -/
def OnParseNextFrameReturn {ε : Type} (p : Parser ε) (next : Bool) (err : Option String) :
    Parser ε :=
  { p with mocked := some (next, err) }

/-- Modelled from the spec: the method MockEvents, which queues the events of one
further frame. -/
def MockEvents {ε : Type} (p : Parser ε) (events : List ε) : Parser ε :=
  { p with frames := p.frames ++ [events] }

/-- Modelled from the spec: the method ParseNextFrame.  One frame is completed:
the events of the first pending frame are dispatched in order, then the mocked
result is returned; a call without a mocked result fails. -/
def ParseNextFrame {ε : Type} (p : Parser ε) : Option ((Bool × Option String) × Parser ε) :=
  match p.mocked with
  | none => none
  | some result =>
    match p.frames with
    | [] => some (result, p)
    | frame :: rest =>
      some (result, { p with frames := rest, dispatched := p.dispatched ++ frame })

end Fake

/-! ## Lemmas on maps and on the dispatch log -/

theorem mapGet_mapSet_self {κ ν : Type} [DecidableEq κ] (m : List (κ × ν)) (k : κ) (v : ν) :
    mapGet (mapSet m k v) k = some v := by
  induction m with
  | nil => simp [mapSet, mapGet]
  | cons e rest ih =>
    obtain ⟨k1, v1⟩ := e
    by_cases h : k1 = k
    · simp [mapSet, mapGet, h]
    · simp [mapSet, mapGet, h, ih]

theorem set_getD_self {α : Type} (l : List α) (i : Nat) (d : α) :
    l.set i (l.getD i d) = l := by
  induction l generalizing i with
  | nil => simp
  | cons a rest ih =>
    cases i with
    | zero => simp
    | succ n => simpa using ih n

theorem updatePlayer_same_team (p : Parser) (pl : PlayerPtr) :
    updatePlayer p pl (fun x => { x with team := (playerAt p pl).team }) = p := by
  have hx : ({ playerAt p pl with team := (playerAt p pl).team } : Player) = playerAt p pl := rfl
  simp only [updatePlayer, hx]
  simp only [playerAt, set_getD_self]

theorem Appends.of_eq {p q : Parser} (h : q.dispatched = p.dispatched) : Appends p q :=
  ⟨[], by simp [h], by simp⟩

theorem Appends.refl (p : Parser) : Appends p p := Appends.of_eq rfl

theorem Appends.trans {p q r : Parser} (h1 : Appends p q) (h2 : Appends q r) : Appends p r := by
  obtain ⟨a, ha, hna⟩ := h1
  obtain ⟨b, hb, hnb⟩ := h2
  refine ⟨a ++ b, by rw [hb, ha, List.append_assoc], ?_⟩
  intro e he
  rcases List.mem_append.mp he with h | h
  · exact hna e h
  · exact hnb e h

theorem Appends.step (p : Parser) (e : Event) (h : isGenericGameEvent e = false) :
    Appends p (dispatch p e) :=
  ⟨[e], rfl, by simpa using h⟩

theorem Appends.step_of {p q : Parser} (e : Event) (hq : Appends p q)
    (h : isGenericGameEvent e = false) : Appends p (dispatch q e) :=
  Appends.trans hq (Appends.step q e h)

theorem dispatched_updatePlayer (p : Parser) (pl : PlayerPtr) (f : Player → Player) :
    (updatePlayer p pl f).dispatched = p.dispatched := rfl

theorem dispatched_setError (p : Parser) (e : Error) :
    (setError p e).dispatched = p.dispatched := by
  unfold setError
  cases p.err <;> rfl

theorem dispatched_foldl_nadeProjectileDestroyed (l : List (Int × GrenadeProjectile))
    (p : Parser) :
    (l.foldl (fun q e => nadeProjectileDestroyed q e.2) p).dispatched = p.dispatched := by
  induction l generalizing p with
  | nil => rfl
  | cons a rest ih => simp only [List.foldl_cons, ih]; rfl

theorem dispatched_foldl_infernoExpired (l : List (Int × Nat)) (p : Parser) :
    (l.foldl (fun q e => infernoExpired q e.1) p).dispatched = p.dispatched := by
  induction l generalizing p with
  | nil => rfl
  | cons a rest ih => simp only [List.foldl_cons, ih]; rfl

theorem dispatched_clearGrenadeProjectiles (p : Parser) :
    (clearGrenadeProjectiles p).dispatched = p.dispatched := by
  simp only [clearGrenadeProjectiles, dispatched_foldl_infernoExpired,
    dispatched_foldl_nadeProjectileDestroyed]

theorem dispatched_deleteThrownGrenade (p : Parser) (pl : Option PlayerPtr)
    (t : EquipmentType) : (deleteThrownGrenade p pl t).dispatched = p.dispatched := by
  unfold deleteThrownGrenade
  cases pl with
  | none => rfl
  | some ptr =>
    simp only
    split
    · rfl
    · split <;> rfl

theorem appends_bombEvent (env : Env) (data : Data) (p : Parser) :
    Appends p (bombEvent env data p).2 := by
  unfold bombEvent
  simp only
  split
  · exact Appends.refl p
  · split
    · exact Appends.refl p
    · split
      · split
        · exact Appends.refl p
        · exact Appends.step p _ rfl
      · split
        · exact Appends.of_eq rfl
        · split
          · exact Appends.of_eq rfl
          · exact Appends.step p _ rfl

theorem appends_updatePlayerFromRawIfExists (p : Parser) (index : Int) (raw : PlayerInfo) :
    Appends p (updatePlayerFromRawIfExists p index raw) := by
  unfold updatePlayerFromRawIfExists
  cases mapGet p.playersByEntityID (index + 1) with
  | none => exact Appends.refl p
  | some pl =>
    simp only
    refine Appends.step_of _ ?_ rfl
    split
    · exact Appends.step_of _ (Appends.of_eq rfl) rfl
    · exact Appends.of_eq rfl

theorem appends_setRawPlayer (p : Parser) (index : Int) (player : PlayerInfo) :
    Appends p (setRawPlayer p index player) := by
  unfold setRawPlayer
  simp only
  refine Appends.step_of _ ?_ rfl
  exact Appends.trans (Appends.of_eq rfl) (appends_updatePlayerFromRawIfExists _ _ _)

theorem appends_of_map {α : Type} (o : Option α) (p q : Parser) (g : α → Parser)
    (hg : ∀ a, Appends p (g a)) (h : o.map g = some q) : Appends p q := by
  cases o with
  | none => simp at h
  | some a =>
    simp only [Option.map_some', Option.some.injEq] at h
    subst h
    exact hg a

theorem appends_bombHandler (env : Env) (data : Data) (p q : Parser)
    (after : BombEvent → Parser → Option Parser)
    (hafter : ∀ ev p1 r, Appends p p1 → after ev p1 = some r → Appends p r)
    (h : (if (!p.disableMimicSource1GameEvents) = true then some p
      else match bombEvent env data p with
        | (Except.error err, p1) => some (setError p1 err)
        | (Except.ok event, p1) => after event p1) = some q) : Appends p q := by
  have hb := appends_bombEvent env data p
  split at h
  · cases h
    exact Appends.refl p
  · split at h
    · rename_i err p1 heq
      rw [heq] at hb
      cases h
      exact Appends.trans hb (Appends.of_eq (dispatched_setError _ _))
    · rename_i event p1 heq
      rw [heq] at hb
      exact hafter event p1 q hb h

theorem runHandler_appends (env : Env) (f : HandlerFunc) (data : Data) (p q : Parser)
    (h : runHandler env f data p = some q) : Appends p q := by
  cases f
  all_goals simp only [runHandler, bulletDamage, roundMVP, playerSound, otherDeath,
    playerFallDamage, dispatchNadeEvent, playerDeath, playerHurt] at h
  all_goals first
    | (simp only [Option.some.injEq] at h; subst h; exact Appends.step _ _ (by rfl))
    | (exact appends_of_map _ p q _ (fun a => Appends.step p _ (by rfl)) h)
    | skip
  case playerFallDamage =>
    cases h
    exact Appends.of_eq rfl
  case bombBeginDefuse =>
    unfold bombBeginDefuse at h
    split at h
    · cases h; exact Appends.refl p
    · cases h; exact Appends.step_of _ (Appends.of_eq rfl) (by rfl)
  case bombDropped =>
    unfold bombDropped at h
    split at h
    · cases h; exact Appends.refl p
    · cases h; exact Appends.step _ _ (by rfl)
  case bombPickup =>
    unfold bombPickup at h
    split at h
    · cases h; exact Appends.refl p
    · cases h; exact Appends.step _ _ (by rfl)
  case playerBlind =>
    unfold playerBlind at h
    split at h
    · cases h; exact Appends.refl p
    · cases h; exact Appends.step _ _ (by rfl)
  case weaponFire =>
    unfold weaponFire at h
    split at h
    · cases h; exact Appends.refl p
    · cases h; exact Appends.step _ _ (by rfl)
  case roundEnd =>
    unfold roundEnd at h
    split at h
    · cases h; exact Appends.refl p
    · cases h; exact Appends.step_of _ (Appends.of_eq rfl) (by rfl)
  case roundStart =>
    unfold roundStart at h
    split at h
    · cases h; exact Appends.refl p
    · cases h
      exact Appends.step_of _ (Appends.of_eq (dispatched_clearGrenadeProjectiles p)) (by rfl)
  case roundOfficiallyEnded =>
    unfold roundOfficiallyEnded at h
    split at h
    · cases h; exact Appends.refl p
    · cases h
      exact Appends.step_of _ (Appends.of_eq (dispatched_clearGrenadeProjectiles p)) (by rfl)
  case botTakeover =>
    unfold botTakeover at h
    split at h
    · cases h
    · cases h; exact Appends.step _ _ (by rfl)
  case weaponReload =>
    unfold weaponReload at h
    split at h
    · cases h; exact Appends.refl p
    · cases h; exact Appends.step_of _ (Appends.of_eq rfl) (by rfl)
  case decoyDetonate =>
    unfold decoyDetonate at h
    refine appends_of_map _ p q _ (fun a => ?_) h
    exact Appends.trans (Appends.step p _ (by rfl)) (Appends.of_eq rfl)
  case smokeGrenadeExpired =>
    unfold smokeGrenadeExpired at h
    refine appends_of_map _ p q _ (fun a => ?_) h
    exact Appends.trans (Appends.step p _ (by rfl))
      (Appends.of_eq (dispatched_deleteThrownGrenade _ _ _))
  case flashBangDetonate =>
    unfold flashBangDetonate at h
    refine appends_of_map _ p q _ (fun a => ?_) h
    simp only
    split
    · exact Appends.step_of _ (Appends.of_eq rfl) (by rfl)
    · exact Appends.of_eq rfl
  case playerDisconnect =>
    unfold playerDisconnect at h
    simp only at h
    split at h
    · cases h; exact Appends.refl p
    · split at h
      · cases h
        exact Appends.trans (Appends.step _ _ (by rfl)) (Appends.of_eq rfl)
      · cases h; exact Appends.refl p
  case bombBeginPlant =>
    refine appends_bombHandler env data p q _ ?_ h
    intro ev p1 r hp1 hr
    split at hr
    · cases hr
    · cases hr
      exact Appends.step_of _ (Appends.trans hp1 (Appends.of_eq rfl)) (by rfl)
  case bombPlanted =>
    refine appends_bombHandler env data p q _ ?_ h
    intro ev p1 r hp1 hr
    cases hr
    refine Appends.step_of _ (Appends.trans hp1 ?_) (by rfl)
    cases ev.player <;> exact Appends.of_eq rfl
  case bombDefused =>
    refine appends_bombHandler env data p q _ ?_ h
    intro ev p1 r hp1 hr
    cases hr
    exact Appends.step_of _ (Appends.trans hp1 (Appends.of_eq rfl)) (by rfl)
  case bombExploded =>
    refine appends_bombHandler env data p q _ ?_ h
    intro ev p1 r hp1 hr
    cases hr
    exact Appends.step_of _ (Appends.trans hp1 (Appends.of_eq rfl)) (by rfl)
  case playerTeam =>
    unfold playerTeam at h
    simp only at h
    split at h
    · cases h
      refine Appends.step_of _ ?_ (by rfl)
      split <;> exact Appends.of_eq rfl
    · cases h; exact Appends.step _ _ (by rfl)
  case playerConnect =>
    unfold playerConnect at h
    simp only at h
    cases h
    refine Appends.trans ?_ (appends_setRawPlayer _ _ _)
    split
    · split
      · exact Appends.refl p
      · exact Appends.of_eq (dispatched_setError _ _)
    · exact Appends.refl p

theorem callHandler_appends (env : Env) (h : Handler) (data : Data) (p q : Parser)
    (hq : callHandler env h data p = some q) : Appends p q := by
  cases h with
  | direct f => exact runHandler_appends env f data p q hq
  | delay f =>
    cases hq
    exact Appends.of_eq rfl
  | delayIfNoPlayers f =>
    simp only [callHandler, delayIfNoPlayers] at hq
    split at hq
    · cases hq
      exact Appends.of_eq rfl
    · exact runHandler_appends env f data p q hq

theorem loadDescriptors_appends (env : Env) (p p1 : Parser)
    (h : loadDescriptors env p = Except.ok p1) : Appends p p1 := by
  unfold loadDescriptors at h
  split at h
  · cases h
    exact Appends.refl p
  · simp only at h
    split at h
    · cases h
    · cases h
      exact Appends.trans (Appends.step p _ (by rfl)) (Appends.of_eq rfl)

theorem mapGameEventDataFrom_isSome (data : Data) (ks : List KeyDesc) (vs : List KeyT)
    (h : ks.length ≤ vs.length) : ∃ d, mapGameEventDataFrom data ks vs = some d := by
  induction ks generalizing data vs with
  | nil => exact ⟨data, rfl⟩
  | cons k ks ih =>
    cases vs with
    | nil => simp at h
    | cons v vs =>
      simp only [mapGameEventDataFrom]
      exact ih _ vs (by simpa using h)

theorem foldl_playerFlashed (proj : GrenadeProjectile) (ids : List Int) (p : Parser) :
    ids.foldl (fun q entityID =>
        match participantsByEntityID q entityID with
        | none => q
        | some player =>
          dispatch q (Event.PlayerFlashed (some player) proj.thrower (some proj))) p =
      { p with dispatched := p.dispatched ++ ids.filterMap (fun entityID =>
          (participantsByEntityID p entityID).map (fun player =>
            Event.PlayerFlashed (some player) proj.thrower (some proj))) } := by
  induction ids generalizing p with
  | nil => simp
  | cons entityID rest ih =>
    simp only [List.foldl_cons]
    rw [ih]
    cases h : participantsByEntityID p entityID with
    | none => simp [h]
    | some player =>
      have h2 : mapGet p.playersByEntityID entityID = some player := h
      simp [h, h2, dispatch, participantsByEntityID, List.filterMap_cons]

theorem mapGet_mapSet_ne {κ ν : Type} [DecidableEq κ] (m : List (κ × ν)) (k k1 : κ) (v : ν)
    (h : k1 ≠ k) : mapGet (mapSet m k v) k1 = mapGet m k1 := by
  induction m with
  | nil => simp [mapSet, mapGet, h.symm]
  | cons e rest ih =>
    obtain ⟨k2, v2⟩ := e
    by_cases h2 : k2 = k
    · subst h2
      simp [mapSet, mapGet, h.symm]
    · simp [mapSet, mapGet, h2, ih]

theorem mapGet_mapDelete_self {κ ν : Type} [DecidableEq κ] (m : List (κ × ν)) (k : κ) :
    mapGet (mapDelete m k) k = none := by
  induction m with
  | nil => rfl
  | cons e rest ih =>
    obtain ⟨k2, v2⟩ := e
    by_cases h2 : k2 = k
    · simpa [mapDelete, h2] using ih
    · simpa [mapDelete, h2, mapGet] using ih

theorem mapGet_mapDelete_ne {κ ν : Type} [DecidableEq κ] (m : List (κ × ν)) (k k1 : κ)
    (h : k1 ≠ k) : mapGet (mapDelete m k) k1 = mapGet m k1 := by
  induction m with
  | nil => rfl
  | cons e rest ih =>
    obtain ⟨k2, v2⟩ := e
    by_cases h2 : k2 = k
    · subst h2
      simpa [mapDelete, mapGet, h.symm] using ih
    · by_cases h3 : k2 = k1
      · subst h3
        simp [mapDelete, List.filter_cons, h2, mapGet]
      · simpa [mapDelete, h2, mapGet, h3] using ih

theorem mapSet_length_pos {κ ν : Type} [DecidableEq κ] (m : List (κ × ν)) (k : κ) (v : ν) :
    (mapSet m k v).length ≠ 0 := by
  cases m with
  | nil => simp [mapSet]
  | cons e rest =>
    obtain ⟨k2, v2⟩ := e
    by_cases h2 : k2 = k <;> simp [mapSet, h2]

theorem thrownList_addThrownGrenade (p : Parser) (ptr : PlayerPtr) (w : Equipment)
    (pl : PlayerPtr) (t : EquipmentType) :
    thrownList (addThrownGrenade p (some ptr) w) pl t =
      if pl = ptr ∧ t = w.type then thrownList p ptr w.type ++ [w] else thrownList p pl t := by
  by_cases hp : pl = ptr
  · subst hp
    by_cases ht : t = w.type
    · subst ht
      simp [thrownList, addThrownGrenade, mapGet_mapSet_self]
    · simp [thrownList, addThrownGrenade, mapGet_mapSet_self, mapGet_mapSet_ne, ht]
  · simp [thrownList, addThrownGrenade, mapGet_mapSet_ne, hp]

theorem getThrownGrenade_of_thrownList (p : Parser) (ptr : PlayerPtr) (t : EquipmentType)
    (h : thrownList p ptr t ≠ []) :
    getThrownGrenade p (some ptr) t = some (thrownList p ptr t).getLast? := by
  have h2 : (mapGet ((mapGet p.thrownGrenades ptr).getD []) t).getD [] ≠ [] := h
  unfold getThrownGrenade getThrownGrenadeFuel
  simp [thrownList, h2]

theorem deleteThrownGrenade_of_thrownList (q : Parser) (ptr : PlayerPtr) (t : EquipmentType)
    (h : thrownList q ptr t ≠ []) :
    (deleteThrownGrenade q (some ptr) t).thrownGrenades =
      mapSet q.thrownGrenades ptr
        (if ((thrownList q ptr t).take ((thrownList q ptr t).length - 1)).length = 0 then
          mapDelete (mapSet ((mapGet q.thrownGrenades ptr).getD []) t
            ((thrownList q ptr t).take ((thrownList q ptr t).length - 1))) t
        else mapSet ((mapGet q.thrownGrenades ptr).getD []) t
            ((thrownList q ptr t).take ((thrownList q ptr t).length - 1))) := by
  have hpg : ((mapGet q.thrownGrenades ptr).getD []).length ≠ 0 := by
    intro h0
    apply h
    have hnil : (mapGet q.thrownGrenades ptr).getD [] = [] := List.length_eq_zero.mp h0
    simp [thrownList, hnil, mapGet]
  have hg : (thrownList q ptr t).length ≠ 0 := fun h0 => h (List.length_eq_zero.mp h0)
  have hg2 : ((mapGet ((mapGet q.thrownGrenades ptr).getD []) t).getD []).length ≠ 0 := hg
  unfold deleteThrownGrenade
  simp only [if_neg hpg, if_neg hg2]
  rfl

theorem thrownList_deleteThrownGrenade (q : Parser) (ptr : PlayerPtr) (t : EquipmentType)
    (h : thrownList q ptr t ≠ []) (pl : PlayerPtr) (t1 : EquipmentType) :
    thrownList (deleteThrownGrenade q (some ptr) t) pl t1 =
      if pl = ptr ∧ t1 = t then (thrownList q ptr t).take ((thrownList q ptr t).length - 1)
      else thrownList q pl t1 := by
  have hd := deleteThrownGrenade_of_thrownList q ptr t h
  unfold thrownList at hd ⊢
  rw [hd]
  by_cases hp : pl = ptr
  · subst hp
    by_cases ht : t1 = t
    · subst ht
      simp only [mapGet_mapSet_self, Option.getD_some, and_self, if_true]
      split
      · rename_i h0
        rw [mapGet_mapDelete_self]
        exact (List.length_eq_zero.mp h0).symm
      · rw [mapGet_mapSet_self]
        rfl
    · simp only [mapGet_mapSet_self, Option.getD_some, ht, and_false, if_false]
      split
      · rw [mapGet_mapDelete_ne _ _ _ ht, mapGet_mapSet_ne _ _ _ _ ht]
      · rw [mapGet_mapSet_ne _ _ _ _ ht]
  · simp only [hp, false_and, if_false, mapGet_mapSet_ne _ _ _ _ hp]

theorem runDelayedHandlers_iff (env : Env) (ds : List Delayed) (p q : Parser) :
    runDelayedHandlers env ds p = some q ↔ RunsInOrder env ds p q := by
  induction ds generalizing p with
  | nil =>
    constructor
    · intro h
      simp only [runDelayedHandlers, Option.some.injEq] at h
      subst h
      exact RunsInOrder.done _
    · intro h
      cases h
      rfl
  | cons d rest ih =>
    constructor
    · intro h
      unfold runDelayedHandlers at h
      split at h
      · cases h
      · rename_i p1 h1
        exact RunsInOrder.step d rest p p1 q h1 ((ih p1).mp h)
    · intro h
      cases h with
      | step _ _ _ p1 _ h1 h2 =>
        unfold runDelayedHandlers
        simp only [h1]
        exact (ih p1).mpr h2

theorem delayed_processRoundProgressEvents (p : Parser) :
    (processRoundProgressEvents p).delayedEventHandlers = p.delayedEventHandlers := by
  cases hrs : p.lastRoundStartEvent <;> cases hms : p.lastMatchStartedChangedEvent <;>
    cases hfr : p.lastFreezeTimeChangedEvent <;> cases hre : p.lastRoundEndEvent <;>
    simp [processRoundProgressEvents, dispatchMatchStartedEventIfNecessary, dispatch,
      hrs, hms, hfr, hre]

theorem delayed_processFlyingFlashbangs (p : Parser) :
    (processFlyingFlashbangs p).delayedEventHandlers = p.delayedEventHandlers := by
  unfold processFlyingFlashbangs
  split
  · rfl
  · split
    · split <;> rfl
    · simp only [foldl_playerFlashed]

theorem appendsKnown_of_eq {p q : Parser} (h : q.dispatched = p.dispatched) : AppendsKnown p q :=
  ⟨[], by simp [h], by simp⟩

theorem appendsKnown_refl (p : Parser) : AppendsKnown p p := appendsKnown_of_eq rfl

theorem appendsKnown_trans {p q r : Parser} (h1 : AppendsKnown p q) (h2 : AppendsKnown q r) : AppendsKnown p r := by
  obtain ⟨a, ha, hna⟩ := h1
  obtain ⟨b, hb, hnb⟩ := h2
  refine ⟨a ++ b, by rw [hb, ha, List.append_assoc], ?_⟩
  intro e he
  rcases List.mem_append.mp he with h | h
  · exact hna e h
  · exact hnb e h

theorem appendsKnown_step (p : Parser) (e : Event) (h : isUnknownEventWarn e = false) :
    AppendsKnown p (dispatch p e) :=
  ⟨[e], rfl, by simpa using h⟩

theorem appendsKnown_step_of {p q : Parser} (e : Event) (hq : AppendsKnown p q)
    (h : isUnknownEventWarn e = false) : AppendsKnown p (dispatch q e) :=
  appendsKnown_trans hq (appendsKnown_step q e h)

theorem known_bombEvent (env : Env) (data : Data) (p : Parser) :
    AppendsKnown p (bombEvent env data p).2 := by
  unfold bombEvent
  simp only
  split
  · exact appendsKnown_refl p
  · split
    · exact appendsKnown_refl p
    · split
      · split
        · exact appendsKnown_refl p
        · exact appendsKnown_step p _ rfl
      · split
        · exact appendsKnown_of_eq rfl
        · split
          · exact appendsKnown_of_eq rfl
          · exact appendsKnown_step p _ rfl

theorem known_updatePlayerFromRawIfExists (p : Parser) (index : Int) (raw : PlayerInfo) :
    AppendsKnown p (updatePlayerFromRawIfExists p index raw) := by
  unfold updatePlayerFromRawIfExists
  cases mapGet p.playersByEntityID (index + 1) with
  | none => exact appendsKnown_refl p
  | some pl =>
    simp only
    refine appendsKnown_step_of _ ?_ rfl
    split
    · exact appendsKnown_step_of _ (appendsKnown_of_eq rfl) rfl
    · exact appendsKnown_of_eq rfl

theorem known_setRawPlayer (p : Parser) (index : Int) (player : PlayerInfo) :
    AppendsKnown p (setRawPlayer p index player) := by
  unfold setRawPlayer
  simp only
  refine appendsKnown_step_of _ ?_ rfl
  exact appendsKnown_trans (appendsKnown_of_eq rfl) (known_updatePlayerFromRawIfExists _ _ _)

theorem known_of_map {α : Type} (o : Option α) (p q : Parser) (g : α → Parser)
    (hg : ∀ a, AppendsKnown p (g a)) (h : o.map g = some q) : AppendsKnown p q := by
  cases o with
  | none => simp at h
  | some a =>
    simp only [Option.map_some', Option.some.injEq] at h
    subst h
    exact hg a

theorem known_bombHandler (env : Env) (data : Data) (p q : Parser)
    (after : BombEvent → Parser → Option Parser)
    (hafter : ∀ ev p1 r, AppendsKnown p p1 → after ev p1 = some r → AppendsKnown p r)
    (h : (if (!p.disableMimicSource1GameEvents) = true then some p
      else match bombEvent env data p with
        | (Except.error err, p1) => some (setError p1 err)
        | (Except.ok event, p1) => after event p1) = some q) : AppendsKnown p q := by
  have hb := known_bombEvent env data p
  split at h
  · cases h
    exact appendsKnown_refl p
  · split at h
    · rename_i err p1 heq
      rw [heq] at hb
      cases h
      exact appendsKnown_trans hb (appendsKnown_of_eq (dispatched_setError _ _))
    · rename_i event p1 heq
      rw [heq] at hb
      exact hafter event p1 q hb h

theorem runHandler_known (env : Env) (f : HandlerFunc) (data : Data) (p q : Parser)
    (h : runHandler env f data p = some q) : AppendsKnown p q := by
  cases f
  all_goals simp only [runHandler, bulletDamage, roundMVP, playerSound, otherDeath,
    playerFallDamage, dispatchNadeEvent, playerDeath, playerHurt] at h
  all_goals first
    | (simp only [Option.some.injEq] at h; subst h; exact appendsKnown_step _ _ (by rfl))
    | (exact known_of_map _ p q _ (fun a => appendsKnown_step p _ (by rfl)) h)
    | skip
  case playerFallDamage =>
    cases h
    exact appendsKnown_of_eq rfl
  case bombBeginDefuse =>
    unfold bombBeginDefuse at h
    split at h
    · cases h; exact appendsKnown_refl p
    · cases h; exact appendsKnown_step_of _ (appendsKnown_of_eq rfl) (by rfl)
  case bombDropped =>
    unfold bombDropped at h
    split at h
    · cases h; exact appendsKnown_refl p
    · cases h; exact appendsKnown_step _ _ (by rfl)
  case bombPickup =>
    unfold bombPickup at h
    split at h
    · cases h; exact appendsKnown_refl p
    · cases h; exact appendsKnown_step _ _ (by rfl)
  case playerBlind =>
    unfold playerBlind at h
    split at h
    · cases h; exact appendsKnown_refl p
    · cases h; exact appendsKnown_step _ _ (by rfl)
  case weaponFire =>
    unfold weaponFire at h
    split at h
    · cases h; exact appendsKnown_refl p
    · cases h; exact appendsKnown_step _ _ (by rfl)
  case roundEnd =>
    unfold roundEnd at h
    split at h
    · cases h; exact appendsKnown_refl p
    · cases h; exact appendsKnown_step_of _ (appendsKnown_of_eq rfl) (by rfl)
  case roundStart =>
    unfold roundStart at h
    split at h
    · cases h; exact appendsKnown_refl p
    · cases h
      exact appendsKnown_step_of _ (appendsKnown_of_eq (dispatched_clearGrenadeProjectiles p)) (by rfl)
  case roundOfficiallyEnded =>
    unfold roundOfficiallyEnded at h
    split at h
    · cases h; exact appendsKnown_refl p
    · cases h
      exact appendsKnown_step_of _ (appendsKnown_of_eq (dispatched_clearGrenadeProjectiles p)) (by rfl)
  case botTakeover =>
    unfold botTakeover at h
    split at h
    · cases h
    · cases h; exact appendsKnown_step _ _ (by rfl)
  case weaponReload =>
    unfold weaponReload at h
    split at h
    · cases h; exact appendsKnown_refl p
    · cases h; exact appendsKnown_step_of _ (appendsKnown_of_eq rfl) (by rfl)
  case decoyDetonate =>
    unfold decoyDetonate at h
    refine known_of_map _ p q _ (fun a => ?_) h
    exact appendsKnown_trans (appendsKnown_step p _ (by rfl)) (appendsKnown_of_eq rfl)
  case smokeGrenadeExpired =>
    unfold smokeGrenadeExpired at h
    refine known_of_map _ p q _ (fun a => ?_) h
    exact appendsKnown_trans (appendsKnown_step p _ (by rfl))
      (appendsKnown_of_eq (dispatched_deleteThrownGrenade _ _ _))
  case flashBangDetonate =>
    unfold flashBangDetonate at h
    refine known_of_map _ p q _ (fun a => ?_) h
    simp only
    split
    · exact appendsKnown_step_of _ (appendsKnown_of_eq rfl) (by rfl)
    · exact appendsKnown_of_eq rfl
  case playerDisconnect =>
    unfold playerDisconnect at h
    simp only at h
    split at h
    · cases h; exact appendsKnown_refl p
    · split at h
      · cases h
        exact appendsKnown_trans (appendsKnown_step _ _ (by rfl)) (appendsKnown_of_eq rfl)
      · cases h; exact appendsKnown_refl p
  case bombBeginPlant =>
    refine known_bombHandler env data p q _ ?_ h
    intro ev p1 r hp1 hr
    split at hr
    · cases hr
    · cases hr
      exact appendsKnown_step_of _ (appendsKnown_trans hp1 (appendsKnown_of_eq rfl)) (by rfl)
  case bombPlanted =>
    refine known_bombHandler env data p q _ ?_ h
    intro ev p1 r hp1 hr
    cases hr
    refine appendsKnown_step_of _ (appendsKnown_trans hp1 ?_) (by rfl)
    cases ev.player <;> exact appendsKnown_of_eq rfl
  case bombDefused =>
    refine known_bombHandler env data p q _ ?_ h
    intro ev p1 r hp1 hr
    cases hr
    exact appendsKnown_step_of _ (appendsKnown_trans hp1 (appendsKnown_of_eq rfl)) (by rfl)
  case bombExploded =>
    refine known_bombHandler env data p q _ ?_ h
    intro ev p1 r hp1 hr
    cases hr
    exact appendsKnown_step_of _ (appendsKnown_trans hp1 (appendsKnown_of_eq rfl)) (by rfl)
  case playerTeam =>
    unfold playerTeam at h
    simp only at h
    split at h
    · cases h
      refine appendsKnown_step_of _ ?_ (by rfl)
      split <;> exact appendsKnown_of_eq rfl
    · cases h; exact appendsKnown_step _ _ (by rfl)
  case playerConnect =>
    unfold playerConnect at h
    simp only at h
    cases h
    refine appendsKnown_trans ?_ (known_setRawPlayer _ _ _)
    split
    · split
      · exact appendsKnown_refl p
      · exact appendsKnown_of_eq (dispatched_setError _ _)
    · exact appendsKnown_refl p

theorem callHandler_known (env : Env) (h : Handler) (data : Data) (p q : Parser)
    (hq : callHandler env h data p = some q) : AppendsKnown p q := by
  cases h with
  | direct f => exact runHandler_known env f data p q hq
  | delay f =>
    cases hq
    exact appendsKnown_of_eq rfl
  | delayIfNoPlayers f =>
    simp only [callHandler, delayIfNoPlayers] at hq
    split at hq
    · cases hq
      exact appendsKnown_of_eq rfl
    · exact runHandler_known env f data p q hq

theorem loadDescriptors_known (env : Env) (p p1 : Parser)
    (h : loadDescriptors env p = Except.ok p1) : AppendsKnown p p1 := by
  unfold loadDescriptors at h
  split at h
  · cases h
    exact appendsKnown_refl p
  · simp only at h
    split at h
    · cases h
    · cases h
      exact appendsKnown_trans (appendsKnown_step p _ (by rfl)) (appendsKnown_of_eq rfl)

theorem mapGet_isSome_iff {κ ν : Type} [DecidableEq κ] (m : List (κ × ν)) (k : κ) :
    (mapGet m k).isSome = true ↔ k ∈ m.map Prod.fst := by
  induction m with
  | nil => simp [mapGet]
  | cons e rest ih =>
    obtain ⟨k1, v1⟩ := e
    by_cases h : k1 = k
    · simp [mapGet, h]
    · have h2 : ¬ k = k1 := fun h3 => h h3.symm
      simp [mapGet, h, h2, ih]

theorem mem_keys_mapSet {κ ν : Type} [DecidableEq κ] (m : List (κ × ν)) (k x : κ) (v : ν) :
    x ∈ (mapSet m k v).map Prod.fst ↔ x = k ∨ x ∈ m.map Prod.fst := by
  rw [← mapGet_isSome_iff, ← mapGet_isSome_iff]
  by_cases h : x = k
  · subst h
    simp [mapGet_mapSet_self]
  · simp [mapGet_mapSet_ne _ _ _ _ h, h]

theorem nodup_keys_mapSet {κ ν : Type} [DecidableEq κ] (m : List (κ × ν)) (k : κ) (v : ν)
    (h : (m.map Prod.fst).Nodup) : ((mapSet m k v).map Prod.fst).Nodup := by
  induction m with
  | nil => simp [mapSet]
  | cons e rest ih =>
    obtain ⟨k1, v1⟩ := e
    simp only [List.map_cons, List.nodup_cons] at h
    by_cases hk : k1 = k
    · subst hk
      simpa [mapSet] using h
    · simp only [mapSet, hk, if_false, List.map_cons, List.nodup_cons]
      refine ⟨?_, ih h.2⟩
      intro hmem
      rcases (mem_keys_mapSet rest k k1 v).mp hmem with h1 | h1
      · exact hk h1
      · exact h.1 h1

theorem length_mapSet_of_not_mem {κ ν : Type} [DecidableEq κ] (m : List (κ × ν)) (k : κ)
    (v : ν) (h : k ∉ m.map Prod.fst) : (mapSet m k v).length = m.length + 1 := by
  induction m with
  | nil => simp [mapSet]
  | cons e rest ih =>
    obtain ⟨k1, v1⟩ := e
    simp only [List.map_cons, List.mem_cons, not_or] at h
    have hk : ¬ k1 = k := fun h3 => h.1 h3.symm
    simp [mapSet, hk, ih h.2]

theorem mapGameEventDataFrom_keys (acc : Data) (ks : List KeyDesc) (vs : List KeyT)
    (data : Data) (h : mapGameEventDataFrom acc ks vs = some data) (name : String) :
    name ∈ data.map Prod.fst ↔ name ∈ acc.map Prod.fst ∨ name ∈ ks.map KeyDesc.name := by
  induction ks generalizing acc vs with
  | nil =>
    simp only [mapGameEventDataFrom, Option.some.injEq] at h
    subst h
    simp
  | cons k rest ih =>
    cases vs with
    | nil => simp [mapGameEventDataFrom] at h
    | cons v vs =>
      simp only [mapGameEventDataFrom] at h
      rw [ih _ vs h, mem_keys_mapSet]
      simp only [List.map_cons, List.mem_cons]
      tauto

theorem mapGameEventDataFrom_keeps (acc : Data) (ks : List KeyDesc) (vs : List KeyT)
    (data : Data) (h : mapGameEventDataFrom acc ks vs = some data) (name : String)
    (hname : name ∉ ks.map KeyDesc.name) : mapGet data name = mapGet acc name := by
  induction ks generalizing acc vs with
  | nil =>
    simp only [mapGameEventDataFrom, Option.some.injEq] at h
    subst h
    rfl
  | cons k rest ih =>
    cases vs with
    | nil => simp [mapGameEventDataFrom] at h
    | cons v vs =>
      simp only [mapGameEventDataFrom] at h
      simp only [List.map_cons, List.mem_cons, not_or] at hname
      rw [ih _ vs h hname.2, mapGet_mapSet_ne _ _ _ _ hname.1]

theorem mapGameEventDataFrom_value (acc : Data) (ks : List KeyDesc) (vs : List KeyT)
    (data : Data) (h : mapGameEventDataFrom acc ks vs = some data) (i : Nat) (k : KeyDesc)
    (v : KeyT) (hk : ks[i]? = some k) (hv : vs[i]? = some v)
    (hlast : ∀ (j : Nat) (k2 : KeyDesc), i < j → ks[j]? = some k2 → k2.name ≠ k.name) :
    mapGet data k.name = some v := by
  induction ks generalizing acc vs i with
  | nil => simp at hk
  | cons k0 rest ih =>
    cases vs with
    | nil => simp [mapGameEventDataFrom] at h
    | cons v0 vs =>
      simp only [mapGameEventDataFrom] at h
      cases i with
      | zero =>
        simp only [List.getElem?_cons_zero, Option.some.injEq] at hk hv
        subst hk
        subst hv
        have hnot : k0.name ∉ rest.map KeyDesc.name := by
          intro hmem
          obtain ⟨k2, hk2, hname⟩ := List.mem_map.mp hmem
          obtain ⟨n, hn⟩ := List.mem_iff_getElem?.mp hk2
          exact hlast (n + 1) k2 (Nat.succ_pos n) (by simpa using hn) hname
        rw [mapGameEventDataFrom_keeps _ rest vs data h _ hnot, mapGet_mapSet_self]
      | succ n =>
        simp only [List.getElem?_cons_succ] at hk hv
        refine ih _ vs h n hk hv ?_
        intro j k2 hj hk2
        exact hlast (j + 1) k2 (Nat.succ_lt_succ hj) (by simpa using hk2)

theorem mapGameEventDataFrom_nodup (acc : Data) (ks : List KeyDesc) (vs : List KeyT)
    (data : Data) (h : mapGameEventDataFrom acc ks vs = some data)
    (hacc : (acc.map Prod.fst).Nodup) : (data.map Prod.fst).Nodup := by
  induction ks generalizing acc vs with
  | nil =>
    simp only [mapGameEventDataFrom, Option.some.injEq] at h
    subst h
    exact hacc
  | cons k rest ih =>
    cases vs with
    | nil => simp [mapGameEventDataFrom] at h
    | cons v vs =>
      simp only [mapGameEventDataFrom] at h
      exact ih _ vs h (nodup_keys_mapSet acc k.name v hacc)

theorem mapGameEventDataFrom_length (acc : Data) (ks : List KeyDesc) (vs : List KeyT)
    (data : Data) (h : mapGameEventDataFrom acc ks vs = some data)
    (hnodup : (ks.map KeyDesc.name).Nodup)
    (hfresh : ∀ name ∈ ks.map KeyDesc.name, name ∉ acc.map Prod.fst) :
    data.length = acc.length + ks.length := by
  induction ks generalizing acc vs with
  | nil =>
    simp only [mapGameEventDataFrom, Option.some.injEq] at h
    subst h
    rfl
  | cons k rest ih =>
    cases vs with
    | nil => simp [mapGameEventDataFrom] at h
    | cons v vs =>
      simp only [mapGameEventDataFrom] at h
      simp only [List.map_cons, List.nodup_cons] at hnodup
      have hk : k.name ∉ acc.map Prod.fst := hfresh k.name (by simp)
      rw [ih _ vs h hnodup.2 ?_, length_mapSet_of_not_mem acc k.name v hk, List.length_cons]
      · omega
      · intro name hname hmem
        rcases (mem_keys_mapSet acc k.name name v).mp hmem with h1 | h1
        · exact hnodup.1 (h1 ▸ hname)
        · exact hfresh name (by simp [hname]) h1

theorem toInt32_of_range (x : Int) (h1 : -(2 ^ 31) ≤ x) (h2 : x < 2 ^ 31) : toInt32 x = x := by
  unfold toInt32
  have h3 : (x + 2 ^ 31) % 2 ^ 32 = x + 2 ^ 31 :=
    Int.emod_eq_of_lt (by omega) (by omega)
  omega

theorem parseStringTableLoop_acc (env : Env) (cfg : StringTableConfig) (n : Nat)
    (st : UpdateState) (acc : List StringTableItem) :
    parseStringTableLoop env cfg n st acc =
      (acc ++ (parseStringTableLoop env cfg n st []).1,
        (parseStringTableLoop env cfg n st []).2.1, (parseStringTableLoop env cfg n st []).2.2) := by
  induction n generalizing st acc with
  | zero => simp [parseStringTableLoop]
  | succ n ih =>
    unfold parseStringTableLoop
    cases h : parseStringTableUpdate env cfg st with
    | none => simp
    | some res =>
      obtain ⟨item, st1⟩ := res
      simp only
      rw [ih st1 (acc ++ [item]), ih st1 ([] ++ [item])]
      simp

theorem parseStringTableLoop_succ (env : Env) (cfg : StringTableConfig) (n : Nat)
    (st st1 : UpdateState) (item : StringTableItem)
    (h : parseStringTableUpdate env cfg st = some (item, st1)) :
    parseStringTableLoop env cfg (n + 1) st [] =
      (item :: (parseStringTableLoop env cfg n st1 []).1,
        (parseStringTableLoop env cfg n st1 []).2.1, (parseStringTableLoop env cfg n st1 []).2.2) := by
  have h1 : parseStringTableLoop env cfg (n + 1) st [] =
      parseStringTableLoop env cfg n st1 ([] ++ [item]) := by
    simp [parseStringTableLoop, h]
  rw [h1, parseStringTableLoop_acc]
  simp

theorem parseStringTableLoop_length (env : Env) (cfg : StringTableConfig) (n : Nat)
    (st : UpdateState) :
    ((parseStringTableLoop env cfg n st []).2.2 = false →
      (parseStringTableLoop env cfg n st []).1.length = n) ∧
    ((parseStringTableLoop env cfg n st []).2.2 = true →
      (parseStringTableLoop env cfg n st []).1.length < n) := by
  induction n generalizing st with
  | zero => simp [parseStringTableLoop]
  | succ n ih =>
    cases h : parseStringTableUpdate env cfg st with
    | none => simp [parseStringTableLoop, h]
    | some res =>
      obtain ⟨item, st1⟩ := res
      rw [parseStringTableLoop_succ env cfg n st st1 item h]
      simp only [List.length_cons]
      constructor
      · intro hf
        rw [(ih st1).1 hf]
      · intro hf
        exact Nat.succ_lt_succ ((ih st1).2 hf)

theorem parseStringTableLoop_failure (env : Env) (cfg : StringTableConfig) (n : Nat)
    (st : UpdateState) (h : (parseStringTableLoop env cfg n st []).2.2 = true) :
    parseStringTableLoop env cfg (parseStringTableLoop env cfg n st []).1.length st [] =
      ((parseStringTableLoop env cfg n st []).1, (parseStringTableLoop env cfg n st []).2.1, false) ∧
    parseStringTableUpdate env cfg (parseStringTableLoop env cfg n st []).2.1 = none := by
  induction n generalizing st with
  | zero => simp [parseStringTableLoop] at h
  | succ n ih =>
    cases hu : parseStringTableUpdate env cfg st with
    | none => simp [parseStringTableLoop, hu]
    | some res =>
      obtain ⟨item, st1⟩ := res
      rw [parseStringTableLoop_succ env cfg n st st1 item hu] at h ⊢
      simp only at h
      obtain ⟨h1, h2⟩ := ih st1 h
      simp only [List.length_cons]
      refine ⟨?_, h2⟩
      rw [parseStringTableLoop_succ env cfg _ st st1 item hu, h1]

theorem parseStringTableLoop_indices (env : Env) (cfg : StringTableConfig) (n : Nat)
    (st : UpdateState) (hlow : -1 ≤ st.index) (hhigh : st.index + n < 2 ^ 31)
    (hincr : ∀ k, k < (parseStringTableLoop env cfg n st []).1.length →
      ∃ r1, ReadBit (parseStringTableLoop env cfg k st []).2.1.r = some (true, r1)) :
    ∀ (k : Nat) (item : StringTableItem),
      (parseStringTableLoop env cfg n st []).1[k]? = some item → item.index = st.index + 1 + k := by
  induction n generalizing st with
  | zero =>
    intro k item hk
    simp [parseStringTableLoop] at hk
  | succ n ih =>
    intro k item hk
    cases hu : parseStringTableUpdate env cfg st with
    | none => simp [parseStringTableLoop, hu] at hk
    | some res =>
      obtain ⟨item0, st1⟩ := res
      rw [parseStringTableLoop_succ env cfg n st st1 item0 hu] at hk hincr
      simp only [List.length_cons] at hincr
      obtain ⟨r1, hr1⟩ := hincr 0 (Nat.succ_pos _)
      simp only [parseStringTableLoop] at hr1
      have hidx : item0.index = st.index + 1 ∧ st1.index = st.index + 1 := by
        unfold parseStringTableUpdate at hu
        simp only [readStringTableIndex, hr1] at hu
        cases hkey : readStringTableKey r1 st.keys with
        | none => simp [hkey] at hu
        | some kres =>
          obtain ⟨key, keys, r2⟩ := kres
          simp only [hkey] at hu
          cases hval : readStringTableValue env cfg r2 with
          | none => simp [hval] at hu
          | some vres =>
            obtain ⟨value, r3⟩ := vres
            simp only [hval, Option.some.injEq, Prod.mk.injEq] at hu
            obtain ⟨h1, h2⟩ := hu
            subst h1
            subst h2
            have hr : toInt32 (st.index + 1) = st.index + 1 :=
              toInt32_of_range _ (by omega) (by omega)
            exact ⟨hr, hr⟩
      cases k with
      | zero =>
        simp only [List.getElem?_cons_zero, Option.some.injEq] at hk
        subst hk
        simp [hidx.1]
      | succ k =>
        simp only [List.getElem?_cons_succ] at hk
        have hstep := ih st1 (by omega) (by rw [hidx.2]; push_cast at hhigh ⊢; omega) ?_ k item hk
        · rw [hstep, hidx.2]
          push_cast
          omega
        · intro j hj
          obtain ⟨r2, hr2⟩ := hincr (j + 1) (Nat.succ_lt_succ hj)
          rw [parseStringTableLoop_succ env cfg j st st1 item0 hu] at hr2
          exact ⟨r2, hr2⟩

theorem parseStringTableUpdate_parts (env : Env) (cfg : StringTableConfig)
    (st st1 : UpdateState) (item : StringTableItem)
    (h : parseStringTableUpdate env cfg st = some (item, st1)) :
    ∃ (index : Int) (r1 r2 : BitReader),
      readStringTableIndex st.r st.index = some (index, r1) ∧
      readStringTableKey r1 st.keys = some (item.key, st1.keys, r2) := by
  unfold parseStringTableUpdate at h
  cases hidx : readStringTableIndex st.r st.index with
  | none => simp [hidx] at h
  | some ires =>
    obtain ⟨index, r1⟩ := ires
    simp only [hidx] at h
    cases hkey : readStringTableKey r1 st.keys with
    | none => simp [hkey] at h
    | some kres =>
      obtain ⟨key, keys, r2⟩ := kres
      simp only [hkey] at h
      cases hval : readStringTableValue env cfg r2 with
      | none => simp [hval] at h
      | some vres =>
        obtain ⟨value, r3⟩ := vres
        simp only [hval, Option.some.injEq, Prod.mk.injEq] at h
        obtain ⟨h1, h2⟩ := h
        subst h1
        subst h2
        exact ⟨index, r1, r2, rfl, hkey⟩

theorem pushKeyHistory_length (keys : List GoString) (key : GoString)
    (h : keys.length ≤ 32) : (pushKeyHistory keys key).length ≤ 32 := by
  unfold pushKeyHistory stringtableKeyHistorySize
  split
  · simp only [List.length_drop, List.length_append, List.length_singleton]
    omega
  · omega

theorem pushKeyHistory_eq (keys : List GoString) (key : GoString) (h : keys.length ≤ 32) :
    pushKeyHistory keys key = (keys ++ [key]).drop ((keys ++ [key]).length - 32) := by
  unfold pushKeyHistory stringtableKeyHistorySize
  simp only [List.length_append, List.length_singleton]
  split
  · have h1 : keys.length + 1 - 32 = 1 := by omega
    rw [h1]
  · have h1 : keys.length + 1 - 32 = 0 := by omega
    rw [h1]
    rfl

theorem readStringTableKey_cases (r : BitReader) (keys : List GoString) (key : GoString)
    (keys1 : List GoString) (r1 : BitReader)
    (h : readStringTableKey r keys = some (key, keys1, r1)) :
    (∀ r2, ReadBit r = some (false, r2) → key = [] ∧ keys1 = keys) ∧
    (∀ r2, ReadBit r = some (true, r2) → keys1 = pushKeyHistory keys key) ∧
    (∀ r2 r3, ReadBit r = some (true, r2) → ReadBit r2 = some (false, r3) →
      ∃ t r4, ReadString r3 = some (t, r4) ∧ key = t) ∧
    (∀ r2 r3 pos r4 size r5, ReadBit r = some (true, r2) → ReadBit r2 = some (true, r3) →
      ReadInt 5 r3 = some (pos, r4) → ReadInt 5 r4 = some (size, r5) →
      ∃ t r6, ReadString r5 = some (t, r6) ∧ key = historyKey keys pos size t) := by
  unfold readStringTableKey at h
  cases hb : ReadBit r with
  | none => simp [hb] at h
  | some b1 =>
    obtain ⟨hasKey, ra⟩ := b1
    cases hasKey with
    | false =>
      simp only [hb, Option.some.injEq, Prod.mk.injEq] at h
      obtain ⟨h1, h2, _⟩ := h
      refine ⟨fun _ _ => ⟨h1.symm, h2.symm⟩, ?_, ?_, ?_⟩ <;> intros <;> simp_all
    | true =>
      simp only [hb] at h
      cases hu : ReadBit ra with
      | none => simp [hu] at h
      | some b2 =>
        obtain ⟨useHistory, rb⟩ := b2
        cases useHistory with
        | false =>
          simp only [hu] at h
          cases hs : ReadString rb with
          | none => simp [hs] at h
          | some sres =>
            obtain ⟨t, rc⟩ := sres
            simp only [hs, Option.some.injEq, Prod.mk.injEq] at h
            obtain ⟨h1, h2, _⟩ := h
            subst h1
            refine ⟨?_, ?_, ?_, ?_⟩
            · intro r2 h0
              simp at h0
            · intro r2 _
              exact h2.symm
            · intro r2 r3 h0 h3
              simp only [Option.some.injEq, Prod.mk.injEq, true_and] at h0
              subst h0
              rw [hu] at h3
              simp only [Option.some.injEq, Prod.mk.injEq, true_and] at h3
              subst h3
              exact ⟨t, rc, hs, rfl⟩
            · intro r2 r3 pos r4 size r5 h0 h3
              simp only [Option.some.injEq, Prod.mk.injEq, true_and] at h0
              subst h0
              rw [hu] at h3
              simp at h3
        | true =>
          simp only [hu] at h
          cases hp : ReadInt 5 rb with
          | none => simp [hp] at h
          | some pres =>
            obtain ⟨pos0, rc⟩ := pres
            simp only [hp] at h
            cases hz : ReadInt 5 rc with
            | none => simp [hz] at h
            | some zres =>
              obtain ⟨size0, rd⟩ := zres
              simp only [hz] at h
              cases hs : ReadString rd with
              | none => simp [hs] at h
              | some sres =>
                obtain ⟨t, re⟩ := sres
                simp only [hs, Option.some.injEq, Prod.mk.injEq] at h
                obtain ⟨h1, h2, _⟩ := h
                subst h1
                refine ⟨?_, ?_, ?_, ?_⟩
                · intro r2 h0
                  simp at h0
                · intro r2 _
                  exact h2.symm
                · intro r2 r3 h0 h3
                  simp only [Option.some.injEq, Prod.mk.injEq, true_and] at h0
                  subst h0
                  rw [hu] at h3
                  simp at h3
                · intro r2 r3 pos r4 size r5 h0 h3 h4 h5
                  simp only [Option.some.injEq, Prod.mk.injEq, true_and] at h0
                  subst h0
                  rw [hu] at h3
                  simp only [Option.some.injEq, Prod.mk.injEq, true_and] at h3
                  subst h3
                  rw [hp] at h4
                  simp only [Option.some.injEq, Prod.mk.injEq] at h4
                  obtain ⟨h41, h42⟩ := h4
                  subst h41
                  subst h42
                  rw [hz] at h5
                  simp only [Option.some.injEq, Prod.mk.injEq] at h5
                  obtain ⟨h51, h52⟩ := h5
                  subst h51
                  subst h52
                  exact ⟨t, re, hs, rfl⟩

theorem parseStringTableLoop_keys_bounded (env : Env) (cfg : StringTableConfig) (n : Nat)
    (st : UpdateState) (h : st.keys.length ≤ 32) :
    (parseStringTableLoop env cfg n st []).2.1.keys.length ≤ 32 := by
  induction n generalizing st with
  | zero => simpa [parseStringTableLoop] using h
  | succ n ih =>
    cases hu : parseStringTableUpdate env cfg st with
    | none => simpa [parseStringTableLoop, hu] using h
    | some res =>
      obtain ⟨item, st1⟩ := res
      rw [parseStringTableLoop_succ env cfg n st st1 item hu]
      apply ih
      obtain ⟨index, r1, r2, _, hkey⟩ := parseStringTableUpdate_parts env cfg st st1 item hu
      obtain ⟨hno, hyes, _, _⟩ := readStringTableKey_cases r1 st.keys item.key st1.keys r2 hkey
      cases hb : ReadBit r1 with
      | none => simp [readStringTableKey, hb] at hkey
      | some b =>
        obtain ⟨hasKey, ra⟩ := b
        cases hasKey with
        | false =>
          rw [(hno ra hb).2]
          exact h
        | true =>
          rw [hyes ra hb]
          exact pushKeyHistory_length _ _ h

theorem forEachM_append {α : Type} (f : α → Parser → Option Parser) (a b : List α)
    (p : Parser) : forEachM f (a ++ b) p = (forEachM f a p).bind (forEachM f b) := by
  induction a generalizing p with
  | nil => rfl
  | cons x rest ih =>
    simp only [List.cons_append, forEachM]
    cases f x p with
    | none => rfl
    | some p1 => exact ih p1

theorem parseStringTable_state (env : Env) (buf : List Nat) (numUpdates : Int)
    (cfg : StringTableConfig) (p : Parser) :
    (parseStringTable env buf numUpdates cfg p).2 = p ∨
    (parseStringTable env buf numUpdates cfg p).2 = dispatch p stringTableParsingFailureWarn := by
  unfold parseStringTable
  split
  · exact Or.inl rfl
  · split
    · exact Or.inr rfl
    · exact Or.inl rfl

theorem baseline_item (env : Env) (item : StringTableItem) (p q : Parser) (c : Int)
    (h : processStringTableItem env stNameInstanceBaseline item p = some q) :
    (setsBaseline c item = true →
      mapGet q.classBaselines c = some item.value ∧ 0 ≤ c ∧ c ≤ 2147483647) ∧
    (setsBaseline c item = false → mapGet q.classBaselines c = mapGet p.classBaselines c) := by
  unfold processStringTableItem at h
  simp only [if_true] at h
  by_cases hskip : item.key = [] ∨ instanceBaselineKeyRegexMatch item.key = true
  · simp only [if_pos hskip, Option.some.injEq] at h
    subst h
    constructor
    · intro hs
      rcases hskip with h1 | h1 <;> simp [setsBaseline, h1] at hs
    · intro _
      rfl
  · simp only [if_neg hskip] at h
    cases ha : Atoi item.key with
    | none => simp [ha] at h
    | some classID =>
      simp only [ha, SetInstanceBaseline] at h
      split at h
      · cases h
      · rename_i hrange
        simp only [Option.some.injEq] at h
        subst h
        have hne : item.key ≠ [] := fun h0 => hskip (Or.inl h0)
        have hre : instanceBaselineKeyRegexMatch item.key = false := by
          cases hr : instanceBaselineKeyRegexMatch item.key with
          | false => rfl
          | true => exact absurd (Or.inr hr) hskip
        constructor
        · intro hs
          have hc : classID = c := by
            simpa [setsBaseline, hne, hre, ha] using hs
          subst hc
          refine ⟨mapGet_mapSet_self _ _ _, ?_, ?_⟩ <;> omega
        · intro hs
          have hc : c ≠ classID := by
            intro h0
            subst h0
            simp [setsBaseline, hne, hre, ha] at hs
          exact mapGet_mapSet_ne _ _ _ _ hc

theorem baseline_items_unchanged (env : Env) (items : List StringTableItem) (p q : Parser)
    (c : Int) (h : forEachM (processStringTableItem env stNameInstanceBaseline) items p = some q)
    (hnone : ∀ it ∈ items, setsBaseline c it = false) :
    mapGet q.classBaselines c = mapGet p.classBaselines c := by
  induction items generalizing p with
  | nil =>
    simp only [forEachM, Option.some.injEq] at h
    subst h
    rfl
  | cons item rest ih =>
    simp only [forEachM] at h
    cases h1 : processStringTableItem env stNameInstanceBaseline item p with
    | none => simp [h1] at h
    | some p1 =>
      simp only [h1] at h
      rw [ih p1 h (fun it hit => hnone it (List.mem_cons_of_mem _ hit)),
        (baseline_item env item p p1 c h1).2 (hnone item (List.mem_cons_self _ _))]

theorem baseline_items_last (env : Env) (pre post : List StringTableItem)
    (item : StringTableItem) (p q : Parser) (c : Int)
    (h : forEachM (processStringTableItem env stNameInstanceBaseline) (pre ++ item :: post) p =
      some q)
    (hsets : setsBaseline c item = true)
    (hnone : ∀ it ∈ post, setsBaseline c it = false) :
    mapGet q.classBaselines c = some item.value ∧ 0 ≤ c ∧ c ≤ 2147483647 := by
  rw [forEachM_append] at h
  cases h1 : forEachM (processStringTableItem env stNameInstanceBaseline) pre p with
  | none => simp [h1] at h
  | some p1 =>
    simp only [h1, Option.some_bind, forEachM] at h
    cases h2 : processStringTableItem env stNameInstanceBaseline item p1 with
    | none => simp [h2] at h
    | some p2 =>
      simp only [h2] at h
      have hb := (baseline_item env item p1 p2 c h2).1 hsets
      rw [baseline_items_unchanged env post p2 q c h hnone]
      exact hb

theorem baseline_items_complete (env : Env) (items : List StringTableItem) (p : Parser)
    (hok : ∀ it ∈ items, it.key = [] ∨ instanceBaselineKeyRegexMatch it.key = true ∨
      ∃ c, Atoi it.key = some c ∧ 0 ≤ c ∧ c ≤ 2147483647) :
    ∃ q, forEachM (processStringTableItem env stNameInstanceBaseline) items p = some q := by
  induction items generalizing p with
  | nil => exact ⟨p, rfl⟩
  | cons item rest ih =>
    have hrest : ∀ it ∈ rest, it.key = [] ∨ instanceBaselineKeyRegexMatch it.key = true ∨
        ∃ c, Atoi it.key = some c ∧ 0 ≤ c ∧ c ≤ 2147483647 :=
      fun it hit => hok it (List.mem_cons_of_mem _ hit)
    have hstep : ∃ p1, processStringTableItem env stNameInstanceBaseline item p = some p1 := by
      unfold processStringTableItem
      simp only [if_true]
      by_cases hskip : item.key = [] ∨ instanceBaselineKeyRegexMatch item.key = true
      · exact ⟨p, by simp only [if_pos hskip]⟩
      · rcases hok item (List.mem_cons_self _ _) with h1 | h1 | ⟨c, hc, h0, hmax⟩
        · exact absurd (Or.inl h1) hskip
        · exact absurd (Or.inr h1) hskip
        · have hrange : ¬ (c < 0 ∨ c > 2147483647) := by omega
          simp only [if_neg hskip, hc, SetInstanceBaseline, if_neg hrange]
          exact ⟨_, rfl⟩
    obtain ⟨p1, hp1⟩ := hstep
    obtain ⟨q, hq⟩ := ih p1 hrest
    exact ⟨q, by simp only [forEachM, hp1, hq]⟩

theorem updatePlayerFromRawIfExists_fields (p : Parser) (index : Int) (raw : PlayerInfo) :
    (updatePlayerFromRawIfExists p index raw).rawPlayers = p.rawPlayers ∧
    (updatePlayerFromRawIfExists p index raw).recordingPlayerSlot = p.recordingPlayerSlot ∧
    (updatePlayerFromRawIfExists p index raw).headerClientName = p.headerClientName ∧
    ∃ new : List Event,
      (updatePlayerFromRawIfExists p index raw).dispatched = p.dispatched ++ new ∧
      new.filter isPOVRecordingPlayerDetected = [] := by
  unfold updatePlayerFromRawIfExists
  cases mapGet p.playersByEntityID (index + 1) with
  | none => exact ⟨rfl, rfl, rfl, [], by simp, rfl⟩
  | some pl =>
    simp only
    split
    · refine ⟨rfl, rfl, rfl, [Event.PlayerNameChange (some pl) (playerAt p pl).name raw.name,
        Event.StringTablePlayerUpdateApplied (some pl)], ?_, rfl⟩
      simp only [dispatch, indexPlayerBySteamID, updatePlayer, List.append_assoc,
        List.singleton_append]
    · refine ⟨rfl, rfl, rfl, [Event.StringTablePlayerUpdateApplied (some pl)], ?_, rfl⟩
      simp only [dispatch, indexPlayerBySteamID, updatePlayer]

theorem setRawPlayer_eq (p : Parser) (index : Int) (player : PlayerInfo) :
    ∃ adjusted : PlayerInfo,
      setRawPlayer p index player =
        dispatch (updatePlayerFromRawIfExists
          { p with rawPlayers := mapSet p.rawPlayers index adjusted } index adjusted)
          (Event.PlayerInfo index adjusted) ∧
      (mapGet p.rawPlayers index = none → adjusted = player) := by
  refine ⟨_, rfl, ?_⟩
  intro h
  simp only [h]

theorem setRawPlayer_fields (p : Parser) (index : Int) (player : PlayerInfo) :
    (mapGet p.rawPlayers index = none →
      (setRawPlayer p index player).rawPlayers = mapSet p.rawPlayers index player) ∧
    (∀ j : Int, j ≠ index →
      mapGet (setRawPlayer p index player).rawPlayers j = mapGet p.rawPlayers j) ∧
    (setRawPlayer p index player).recordingPlayerSlot = p.recordingPlayerSlot ∧
    (setRawPlayer p index player).headerClientName = p.headerClientName ∧
    ∃ new : List Event,
      (setRawPlayer p index player).dispatched = p.dispatched ++ new ∧
      new.filter isPOVRecordingPlayerDetected = [] := by
  obtain ⟨adjusted, heq, hadj⟩ := setRawPlayer_eq p index player
  obtain ⟨h1, h2, h3, new, h4, h5⟩ := updatePlayerFromRawIfExists_fields
    { p with rawPlayers := mapSet p.rawPlayers index adjusted } index adjusted
  rw [heq]
  refine ⟨?_, ?_, ?_, ?_, ?_⟩
  · intro hnone
    rw [← hadj hnone]
    exact h1
  · intro j hj
    have h0 : (dispatch (updatePlayerFromRawIfExists
        { p with rawPlayers := mapSet p.rawPlayers index adjusted } index adjusted)
        (Event.PlayerInfo index adjusted)).rawPlayers = mapSet p.rawPlayers index adjusted := h1
    rw [h0]
    exact mapGet_mapSet_ne _ _ _ _ hj
  · exact h2
  · exact h3
  · refine ⟨new ++ [Event.PlayerInfo index adjusted], ?_, ?_⟩
    · have h0 : (dispatch (updatePlayerFromRawIfExists
          { p with rawPlayers := mapSet p.rawPlayers index adjusted } index adjusted)
          (Event.PlayerInfo index adjusted)).dispatched =
          (updatePlayerFromRawIfExists
            { p with rawPlayers := mapSet p.rawPlayers index adjusted } index
            adjusted).dispatched ++ [Event.PlayerInfo index adjusted] := rfl
      rw [h0, h4, List.append_assoc]
    · rw [List.filter_append, h5]
      rfl

theorem parseUserInfo_step (env : Env) (data : List Nat) (slot : Int) (p q : Parser)
    (h : parseUserInfo env data slot p = some q) :
    q.headerClientName = p.headerClientName ∧
    (∀ (j : Int) (old : PlayerInfo), mapGet p.rawPlayers j = some old →
      mapGet q.rawPlayers j = some old) ∧
    (∀ userInfo : CMsgPlayerInfo, mapGet p.rawPlayers slot = none →
      env.UnmarshalPlayerInfo data = Except.ok userInfo →
      ¬ (userInfo.xuid = 0 ∧ userInfo.name = "") →
      mapGet q.rawPlayers slot = some (playerInfoOf userInfo)) ∧
    ((q.recordingPlayerSlot = p.recordingPlayerSlot ∧
        (p.recordingPlayerSlot = -1 → storesClientName env data slot p = false) ∧
        ∃ new : List Event, q.dispatched = p.dispatched ++ new ∧
          new.filter isPOVRecordingPlayerDetected = []) ∨
      (p.recordingPlayerSlot = -1 ∧ q.recordingPlayerSlot = slot ∧
        storesClientName env data slot p = true ∧
        mapGet p.rawPlayers slot = none ∧
        ∃ userInfo : CMsgPlayerInfo, env.UnmarshalPlayerInfo data = Except.ok userInfo ∧
          ¬ (userInfo.xuid = 0 ∧ userInfo.name = "") ∧
          userInfo.name = p.headerClientName ∧
          mapGet q.rawPlayers slot = some (playerInfoOf userInfo) ∧
          ∃ new : List Event, q.dispatched = p.dispatched ++ new ∧
            new.filter isPOVRecordingPlayerDetected =
              [Event.POVRecordingPlayerDetected slot (playerInfoOf userInfo)])) := by
  unfold parseUserInfo at h
  cases hraw : mapGet p.rawPlayers slot with
  | some old =>
    simp only [hraw, Option.some.injEq] at h
    subst h
    refine ⟨rfl, fun _ _ hj => hj, ?_, Or.inl ⟨rfl, ?_, [], by simp, rfl⟩⟩
    · intro userInfo hnone
      cases hnone
    · intro _
      simp only [storesClientName, hraw]
  | none =>
    simp only [hraw] at h
    cases hdec : env.UnmarshalPlayerInfo data with
    | error e => simp [hdec] at h
    | ok userInfo =>
      simp only [hdec] at h
      by_cases hempty : userInfo.xuid = 0 ∧ userInfo.name = ""
      · simp only [if_pos hempty, Option.some.injEq] at h
        subst h
        refine ⟨rfl, fun _ _ hj => hj, ?_, Or.inl ⟨rfl, ?_, [], by simp, rfl⟩⟩
        · intro u _ hu hne
          simp only [Except.ok.injEq] at hu
          subst hu
          exact absurd hempty hne
        · intro _
          simp [storesClientName, hraw, hdec, hempty]
      · simp only [if_neg hempty] at h
        obtain ⟨hfresh, hother, hrps, hname, new, hnew, hpov⟩ :=
          setRawPlayer_fields p slot (playerInfoOf userInfo)
        have hstored : mapGet (setRawPlayer p slot (playerInfoOf userInfo)).rawPlayers slot =
            some (playerInfoOf userInfo) := by
          rw [hfresh hraw]
          exact mapGet_mapSet_self _ _ _
        have hkeep : ∀ (j : Int) (old : PlayerInfo), mapGet p.rawPlayers j = some old →
            mapGet (setRawPlayer p slot (playerInfoOf userInfo)).rawPlayers j = some old := by
          intro j old hj
          have hne : j ≠ slot := by
            intro h0
            subst h0
            rw [hraw] at hj
            cases hj
          rw [hother j hne]
          exact hj
        have hh : (if (setRawPlayer p slot (playerInfoOf userInfo)).recordingPlayerSlot = -1 ∧
              (setRawPlayer p slot (playerInfoOf userInfo)).headerClientName =
                (playerInfoOf userInfo).name then
            some (dispatch
              { setRawPlayer p slot (playerInfoOf userInfo) with recordingPlayerSlot := slot }
              (Event.POVRecordingPlayerDetected slot (playerInfoOf userInfo)))
            else some (setRawPlayer p slot (playerInfoOf userInfo))) = some q := h
        split at hh
        · rename_i hcond
          simp only [Option.some.injEq] at hh
          subst hh
          rw [hrps, hname] at hcond
          have hcn : p.headerClientName = userInfo.name := hcond.2
          refine ⟨hname, hkeep, ?_, Or.inr ⟨hcond.1, rfl, ?_, rfl, userInfo, rfl, hempty,
            hcond.2.symm, hstored, new ++ [Event.POVRecordingPlayerDetected slot
              (playerInfoOf userInfo)], ?_, ?_⟩⟩
          · intro u _ hu _
            simp only [Except.ok.injEq] at hu
            subst hu
            exact hstored
          · simp only [storesClientName, hraw, hdec, hempty, hcn, decide_False, decide_True,
              Bool.not_false, Bool.and_self]
          · simp only [dispatch, hnew, List.append_assoc]
          · simp [List.filter_append, hpov, isPOVRecordingPlayerDetected]
        · rename_i hcond
          simp only [Option.some.injEq] at hh
          subst hh
          rw [hrps, hname] at hcond
          refine ⟨hname, hkeep, ?_, Or.inl ⟨hrps, ?_, new, hnew, hpov⟩⟩
          · intro u _ hu _
            simp only [Except.ok.injEq] at hu
            subst hu
            exact hstored
          · intro hminus
            have hcn : ¬ (p.headerClientName = userInfo.name) := fun h0 => hcond ⟨hminus, h0⟩
            simp only [storesClientName, hraw, hdec, hcn, decide_False, Bool.and_false]

theorem forEachM_rel {α : Type} (f : α → Parser → Option Parser) (R : Parser → Parser → Prop)
    (hrefl : ∀ p, R p p) (htrans : ∀ a b c, R a b → R b c → R a c)
    (hstep : ∀ x p q, f x p = some q → R p q) (xs : List α) (p q : Parser)
    (h : forEachM f xs p = some q) : R p q := by
  induction xs generalizing p with
  | nil =>
    simp only [forEachM, Option.some.injEq] at h
    subst h
    exact hrefl p
  | cons x rest ih =>
    simp only [forEachM] at h
    cases hx : f x p with
    | none => simp [hx] at h
    | some p1 =>
      simp only [hx] at h
      exact htrans _ _ _ (hstep x p p1 hx) (ih p1 h)

theorem handleBaselineItem_rawPlayers (item : SnapshotItem) (p q : Parser)
    (h : handleBaselineItem item p = some q) :
    q.rawPlayers = p.rawPlayers ∧ q.recordingPlayerSlot = p.recordingPlayerSlot ∧
    q.headerClientName = p.headerClientName ∧ q.dispatched = p.dispatched := by
  unfold handleBaselineItem at h
  split at h
  · simp only [Option.some.injEq] at h
    subst h
    exact ⟨rfl, rfl, rfl, rfl⟩
  · cases ha : Atoi item.str with
    | none => simp [ha] at h
    | some c =>
      simp only [ha, SetInstanceBaseline] at h
      split at h
      · cases h
      · simp only [Option.some.injEq] at h
        subst h
        exact ⟨rfl, rfl, rfl, rfl⟩

theorem handleUserInfoItem_keeps (env : Env) (item : SnapshotItem) (p q : Parser)
    (h : handleUserInfoItem env item p = some q) :
    ∀ (j : Int) (old : PlayerInfo), mapGet p.rawPlayers j = some old →
      mapGet q.rawPlayers j = some old := by
  unfold handleUserInfoItem at h
  cases ha : Atoi item.str with
  | none => simp [ha] at h
  | some i =>
    simp only [ha] at h
    exact (parseUserInfo_step env item.data i p q h).2.1

theorem handleSnapshotTable_keeps (env : Env) (tab : SnapshotTable) (p q : Parser)
    (h : handleSnapshotTable env tab p = some q) :
    ∀ (j : Int) (old : PlayerInfo), mapGet p.rawPlayers j = some old →
      mapGet q.rawPlayers j = some old := by
  unfold handleSnapshotTable at h
  split at h
  · refine forEachM_rel handleBaselineItem
      (fun a b => ∀ (j : Int) (old : PlayerInfo), mapGet a.rawPlayers j = some old →
        mapGet b.rawPlayers j = some old) ?_ ?_ ?_ tab.items p q h
    · intro a j old hj
      exact hj
    · intro a b c hab hbc j old hj
      exact hbc j old (hab j old hj)
    · intro x a b hx j old hj
      rw [(handleBaselineItem_rawPlayers x a b hx).1]
      exact hj
  · split at h
    · refine forEachM_rel (handleUserInfoItem env)
        (fun a b => ∀ (j : Int) (old : PlayerInfo), mapGet a.rawPlayers j = some old →
          mapGet b.rawPlayers j = some old) ?_ ?_ ?_ tab.items p q h
      · intro a j old hj
        exact hj
      · intro a b c hab hbc j old hj
        exact hbc j old (hab j old hj)
      · intro x a b hx
        exact handleUserInfoItem_keeps env x a b hx
    · simp only [Option.some.injEq] at h
      subst h
      intro j old hj
      exact hj

theorem handleStringTables_keeps (env : Env) (tables : List SnapshotTable) (p q : Parser)
    (h : handleStringTables env tables p = some q) :
    ∀ (j : Int) (old : PlayerInfo), mapGet p.rawPlayers j = some old →
      mapGet q.rawPlayers j = some old := by
  refine forEachM_rel (handleSnapshotTable env)
    (fun a b => ∀ (j : Int) (old : PlayerInfo), mapGet a.rawPlayers j = some old →
      mapGet b.rawPlayers j = some old) ?_ ?_ ?_ tables p q h
  · intro a j old hj
    exact hj
  · intro a b c hab hbc j old hj
    exact hbc j old (hab j old hj)
  · intro x a b hx
    exact handleSnapshotTable_keeps env x a b hx

theorem handleStringTables_split (env : Env) (before after : List SnapshotTable)
    (pre post : List SnapshotItem) (item : SnapshotItem) (p q : Parser)
    (h : handleStringTables env
      (before ++ { tableName := stNameUserInfo, items := pre ++ item :: post } :: after) p =
        some q) :
    ∃ p1 p2 : Parser,
      handleStringTables env (before ++ [{ tableName := stNameUserInfo, items := pre }]) p =
        some p1 ∧
      handleUserInfoItem env item p1 = some p2 ∧
      ∀ (j : Int) (old : PlayerInfo), mapGet p2.rawPlayers j = some old →
        mapGet q.rawPlayers j = some old := by
  unfold handleStringTables at h
  rw [forEachM_append] at h
  cases h0 : forEachM (handleSnapshotTable env) before p with
  | none => simp [h0] at h
  | some p0 =>
    simp only [h0, Option.some_bind, forEachM] at h
    cases htab : handleSnapshotTable env
        { tableName := stNameUserInfo, items := pre ++ item :: post } p0 with
    | none => simp [htab] at h
    | some p3 =>
      simp only [htab] at h
      have hne : ¬ (stNameUserInfo = stNameInstanceBaseline) := by decide
      simp only [handleSnapshotTable, if_neg hne, if_true] at htab
      rw [forEachM_append] at htab
      cases hpre : forEachM (handleUserInfoItem env) pre p0 with
      | none => simp [hpre] at htab
      | some p1 =>
        simp only [hpre, Option.some_bind, forEachM] at htab
        cases hitem : handleUserInfoItem env item p1 with
        | none => simp [hitem] at htab
        | some p2 =>
          simp only [hitem] at htab
          refine ⟨p1, p2, ?_, hitem, ?_⟩
          · unfold handleStringTables
            rw [forEachM_append]
            simp only [h0, Option.some_bind, forEachM, handleSnapshotTable, if_neg hne, if_true,
              hpre]
          · intro j old hj
            have hpost : ∀ (j : Int) (old : PlayerInfo), mapGet p2.rawPlayers j = some old →
                mapGet p3.rawPlayers j = some old := by
              refine forEachM_rel (handleUserInfoItem env)
                (fun a b => ∀ (j : Int) (old : PlayerInfo), mapGet a.rawPlayers j = some old →
                  mapGet b.rawPlayers j = some old) ?_ ?_ ?_ post p2 p3 htab
              · intro a j old hj
                exact hj
              · intro a b c hab hbc j old hj
                exact hbc j old (hab j old hj)
              · intro x a b hx
                exact handleUserInfoItem_keeps env x a b hx
            exact handleStringTables_keeps env after p3 q h j old (hpost j old hj)

theorem parseUserInfoCalls_cons (env : Env) (c : List Nat × Int) (rest : List (List Nat × Int))
    (p q : Parser) (h : parseUserInfoCalls env (c :: rest) p = some q) :
    ∃ p1 : Parser, parseUserInfo env c.1 c.2 p = some p1 ∧
      parseUserInfoCalls env rest p1 = some q := by
  unfold parseUserInfoCalls at h
  simp only [forEachM] at h
  cases hc : parseUserInfo env c.1 c.2 p with
  | none => simp [hc] at h
  | some p1 =>
    simp only [hc] at h
    exact ⟨p1, rfl, h⟩

theorem parseUserInfoCalls_cons_eq (env : Env) (c : List Nat × Int)
    (rest : List (List Nat × Int)) (p p1 : Parser)
    (h : parseUserInfo env c.1 c.2 p = some p1) :
    parseUserInfoCalls env (c :: rest) p = parseUserInfoCalls env rest p1 := by
  unfold parseUserInfoCalls
  simp only [forEachM, h]

theorem parseUserInfoCalls_slot_set (env : Env) (calls : List (List Nat × Int)) (p q : Parser)
    (hset : p.recordingPlayerSlot ≠ -1)
    (hrun : parseUserInfoCalls env calls p = some q) :
    q.recordingPlayerSlot = p.recordingPlayerSlot ∧
    ∃ new : List Event, q.dispatched = p.dispatched ++ new ∧
      new.filter isPOVRecordingPlayerDetected = [] := by
  induction calls generalizing p with
  | nil =>
    simp only [parseUserInfoCalls, forEachM, Option.some.injEq] at hrun
    subst hrun
    exact ⟨rfl, [], by simp, rfl⟩
  | cons c rest ih =>
    obtain ⟨p1, h1, h2⟩ := parseUserInfoCalls_cons env c rest p q hrun
    obtain ⟨_, _, _, hstep⟩ := parseUserInfo_step env c.1 c.2 p p1 h1
    rcases hstep with ⟨hsame, _, new0, hnew0, hpov0⟩ | ⟨hminus, _⟩
    · have hset1 : p1.recordingPlayerSlot ≠ -1 := by
        rw [hsame]
        exact hset
      obtain ⟨hq, new1, hnew1, hpov1⟩ := ih p1 hset1 h2
      refine ⟨hq.trans hsame, new0 ++ new1, ?_, ?_⟩
      · rw [hnew1, hnew0, List.append_assoc]
      · rw [List.filter_append, hpov0, hpov1]
        rfl
    · exact absurd hminus hset

theorem mapSet_of_not_mem {κ ν : Type} [DecidableEq κ] (m : List (κ × ν)) (k : κ) (v : ν)
    (h : mapGet m k = none) : mapSet m k v = m ++ [(k, v)] := by
  induction m with
  | nil => rfl
  | cons e rest ih =>
    obtain ⟨k1, v1⟩ := e
    by_cases hk : k1 = k
    · simp [mapGet, hk] at h
    · simp only [mapGet, hk, if_false] at h
      simp only [mapSet, hk, if_false, List.cons_append, ih h]

namespace Sendtablescs2

theorem addsFields_refl (p : Parser) : AddsFields p p [] := by
  simp [AddsFields]

theorem addsFields_trans (p q r : Parser) (a b : List Field) (h1 : AddsFields p q a)
    (h2 : AddsFields q r b) : AddsFields p r (a ++ b) := by
  unfold AddsFields at *
  subst h1
  subst h2
  simp [List.append_assoc]

theorem materializeField_spec (env : Externals) (m : CSVCMsg_FlattenedSerializer) (i : Int)
    (st st1 : PacketState) (h : materializeField env m i st = some st1) :
    ∃ f : Field, determineModel f = some f.model ∧ AddsFields st.p st1.p [f] ∧
      st1.fields = mapSet st.fields i st.p.fieldHeap.length := by
  unfold materializeField at h
  cases hpf : sliceAt m.fields i with
  | none => simp [hpf] at h
  | some pf =>
    simp only [hpf] at h
    cases hmodel : determineModel (createField env m pf st).1 with
    | none => simp [hmodel] at h
    | some model =>
      simp only [hmodel, Option.some.injEq] at h
      subst h
      refine ⟨setModel (createField env m pf st).1 model, ?_, rfl, rfl⟩
      have h1 : determineModel (setModel (createField env m pf st).1 model) =
          determineModel (createField env m pf st).1 := rfl
      rw [h1, hmodel]
      rfl

theorem fieldsInv_mapSet (n0 : Nat) (st st1 : PacketState) (i : Int) (f : Field)
    (hfresh : mapGet st.fields i = none) (hp : AddsFields st.p st1.p [f])
    (hf : st1.fields = mapSet st.fields i st.p.fieldHeap.length) (hinv : FieldsInv n0 st) :
    FieldsInv n0 st1 := by
  obtain ⟨h1, h2, h3⟩ := hinv
  unfold AddsFields at hp
  refine ⟨?_, ?_, ?_⟩
  · rw [hf]
    exact nodup_keys_mapSet _ _ _ h1
  · rw [hf, mapSet_of_not_mem _ _ _ hfresh, List.map_append, h2, h3]
    simp [List.range'_concat]
  · rw [hp, hf, mapSet_of_not_mem _ _ _ hfresh]
    simp only [List.length_append, List.length_singleton, h3]
    omega

theorem addFieldIndex_spec (env : Externals) (m : CSVCMsg_FlattenedSerializer) (i : Int)
    (st st1 : PacketState) (s s1 : Serializer)
    (h : addFieldIndex env m i (st, s) = some (st1, s1)) :
    ∃ (new : List Field) (ptr : FieldPtr),
      AddsFields st.p st1.p new ∧ (∀ f ∈ new, determineModel f = some f.model) ∧
      mapGet st1.fields i = some ptr ∧ s1 = addField s ptr ∧
      (∀ (j : Int) (q : FieldPtr), mapGet st.fields j = some q → mapGet st1.fields j = some q) ∧
      (∀ n0 : Nat, FieldsInv n0 st → FieldsInv n0 st1) ∧
      (∀ j : Int, j ∈ st1.fields.map Prod.fst ↔ j = i ∨ j ∈ st.fields.map Prod.fst) := by
  unfold addFieldIndex at h
  cases hget : mapGet st.fields i with
  | some ptr =>
    simp only [hget, Option.some.injEq, Prod.mk.injEq] at h
    obtain ⟨h1, h2⟩ := h
    subst h1
    refine ⟨[], ptr, addsFields_refl _, by simp, hget, h2.symm, fun _ _ hj => hj,
      fun _ hinv => hinv, ?_⟩
    intro j
    constructor
    · exact fun hj => Or.inr hj
    · rintro (hj | hj)
      · subst hj
        rw [← mapGet_isSome_iff, hget]
        rfl
      · exact hj
  | none =>
    simp only [hget] at h
    cases hmat : materializeField env m i st with
    | none => simp [hmat] at h
    | some st2 =>
      simp only [hmat] at h
      obtain ⟨f, hf1, hf2, hf3⟩ := materializeField_spec env m i st st2 hmat
      have hself : mapGet st2.fields i = some st.p.fieldHeap.length := by
        rw [hf3]
        exact mapGet_mapSet_self _ _ _
      simp only [hself, Option.some.injEq, Prod.mk.injEq] at h
      obtain ⟨h1, h2⟩ := h
      subst h1
      refine ⟨[f], st.p.fieldHeap.length, hf2, ?_, hself, h2.symm, ?_, ?_, ?_⟩
      · intro g hg
        simp only [List.mem_singleton] at hg
        subst hg
        exact hf1
      · intro j q hj
        have hne : j ≠ i := by
          intro h0
          subst h0
          rw [hget] at hj
          cases hj
        rw [hf3, mapGet_mapSet_ne _ _ _ _ hne]
        exact hj
      · intro n0 hinv
        exact fieldsInv_mapSet n0 st st2 i f hget hf2 hf3 hinv
      · intro j
        rw [hf3]
        exact mem_keys_mapSet _ _ _ _

theorem addFields_spec (env : Externals) (m : CSVCMsg_FlattenedSerializer) (idxs : List Int)
    (st st1 : PacketState) (s s1 : Serializer)
    (h : addFields env m idxs (st, s) = some (st1, s1)) :
    ∃ new : List Field,
      AddsFields st.p st1.p new ∧ (∀ f ∈ new, determineModel f = some f.model) ∧
      s1.name = s.name ∧ s1.version = s.version ∧
      s1.fields.map some = s.fields.map some ++ idxs.map (mapGet st1.fields) ∧
      (∀ (j : Int) (q : FieldPtr), mapGet st.fields j = some q → mapGet st1.fields j = some q) ∧
      (∀ n0 : Nat, FieldsInv n0 st → FieldsInv n0 st1) ∧
      (∀ j : Int, j ∈ st1.fields.map Prod.fst ↔ j ∈ idxs ∨ j ∈ st.fields.map Prod.fst) := by
  induction idxs generalizing st s with
  | nil =>
    simp only [addFields, Option.some.injEq, Prod.mk.injEq] at h
    obtain ⟨h1, h2⟩ := h
    subst h1
    subst h2
    exact ⟨[], addsFields_refl _, by simp, rfl, rfl, by simp, fun _ _ hj => hj,
      fun _ hinv => hinv, by simp⟩
  | cons i rest ih =>
    simp only [addFields] at h
    cases hstep : addFieldIndex env m i (st, s) with
    | none => simp [hstep] at h
    | some acc =>
      obtain ⟨st2, s2⟩ := acc
      simp only [hstep] at h
      obtain ⟨new1, ptr, ha1, hm1, hget1, hs1, hmono1, hinv1, hkeys1⟩ :=
        addFieldIndex_spec env m i st st2 s s2 hstep
      obtain ⟨new2, ha2, hm2, hn2, hv2, hfs2, hmono2, hinv2, hkeys2⟩ := ih st2 s2 h
      refine ⟨new1 ++ new2, addsFields_trans _ _ _ _ _ ha1 ha2, ?_, ?_, ?_, ?_, ?_, ?_, ?_⟩
      · intro f hf
        rcases List.mem_append.mp hf with hf | hf
        · exact hm1 f hf
        · exact hm2 f hf
      · rw [hn2, hs1]
        rfl
      · rw [hv2, hs1]
        rfl
      · rw [hfs2, hs1]
        simp only [addField, List.map_append, List.map_cons, List.map_nil, List.append_assoc,
          List.singleton_append, hmono2 i ptr hget1]
      · intro j q hj
        exact hmono2 j q (hmono1 j q hj)
      · intro n0 hinv
        exact hinv2 n0 (hinv1 n0 hinv)
      · intro j
        rw [hkeys2, hkeys1]
        simp only [List.mem_cons]
        tauto

theorem storeSerializer_spec (p : Parser) (ser : Serializer) :
    (storeSerializer p ser).fieldHeap = p.fieldHeap ∧
    (storeSerializer p ser).serializerHeap = p.serializerHeap ++ [ser] ∧
    (storeSerializer p ser).serializers =
      mapSet p.serializers ser.name p.serializerHeap.length ∧
    (storeSerializer p ser).classesById = p.classesById ∧
    (storeSerializer p ser).classesByName = p.classesByName ∧
    (storeSerializer p ser).classHeap.length = p.classHeap.length ∧
    ∀ (c : ClassPtr) (cls : Class), p.classHeap[c]? = some cls →
      (storeSerializer p ser).classHeap[c]? =
        some (if mapGet p.classesByName ser.name = some c then
          { cls with serializer := some p.serializerHeap.length } else cls) := by
  unfold storeSerializer
  simp only
  cases hc : mapGet p.classesByName ser.name with
  | none =>
    refine ⟨rfl, rfl, rfl, rfl, rfl, rfl, ?_⟩
    intro c cls hcls
    simp [hcls]
  | some c0 =>
    refine ⟨rfl, rfl, rfl, rfl, rfl, ?_, ?_⟩
    · simp [updateClass]
    · intro c cls hcls
      simp only [updateClass, Option.some.injEq]
      by_cases hcc : c0 = c
      · subst hcc
        have hlt : c0 < p.classHeap.length := by
          by_contra hge
          rw [List.getElem?_eq_none (Nat.le_of_not_lt hge)] at hcls
          cases hcls
        have hd : p.classHeap.getD c0 {} = cls := by
          rw [List.getD_eq_getElem?_getD, hcls]
          rfl
        rw [List.getElem?_set, if_pos rfl, if_pos hlt, hd, if_pos rfl]
      · rw [List.getElem?_set, if_neg hcc, hcls, if_neg]
        intro h0
        exact hcc h0

theorem processSerializer_spec (env : Externals) (m : CSVCMsg_FlattenedSerializer)
    (s : ProtoFlattenedSerializerT) (st st1 : PacketState)
    (h : processSerializer env m s st = some st1) :
    ∃ (ser : Serializer) (new : List Field),
      serializerNameOf m s = some ser.name ∧ ser.version = s.serializerVersion ∧
      ser.fields.map some = s.fieldsIndex.map (mapGet st1.fields) ∧
      st1.p.fieldHeap = st.p.fieldHeap ++ new ∧
      (∀ f ∈ new, determineModel f = some f.model) ∧
      st1.p.serializerHeap = st.p.serializerHeap ++ [ser] ∧
      st1.p.serializers = mapSet st.p.serializers ser.name st.p.serializerHeap.length ∧
      st1.p.classesById = st.p.classesById ∧
      st1.p.classesByName = st.p.classesByName ∧
      st1.p.classHeap.length = st.p.classHeap.length ∧
      (∀ (c : ClassPtr) (cls : Class), st.p.classHeap[c]? = some cls →
        st1.p.classHeap[c]? =
          some (if mapGet st.p.classesByName ser.name = some c then
            { cls with serializer := some st.p.serializerHeap.length } else cls)) ∧
      (∀ (j : Int) (q : FieldPtr), mapGet st.fields j = some q → mapGet st1.fields j = some q) ∧
      (∀ n0 : Nat, FieldsInv n0 st → FieldsInv n0 st1) ∧
      (∀ j : Int, j ∈ st1.fields.map Prod.fst ↔
        j ∈ s.fieldsIndex ∨ j ∈ st.fields.map Prod.fst) := by
  unfold processSerializer at h
  cases hname : serializerNameOf m s with
  | none => simp [hname] at h
  | some name =>
    simp only [hname] at h
    cases hadd : addFields env m s.fieldsIndex (st, newSerializer name s.serializerVersion) with
    | none => simp [hadd] at h
    | some acc =>
      obtain ⟨st2, ser⟩ := acc
      simp only [hadd, Option.some.injEq] at h
      subst h
      obtain ⟨new, ha, hm, hn, hv, hfs, hmono, hinv, hkeys⟩ :=
        addFields_spec env m s.fieldsIndex st st2 (newSerializer name s.serializerVersion) ser hadd
      obtain ⟨g1, g2, g3, g4, g5, g6, g7⟩ := storeSerializer_spec st2.p ser
      have hp2 : st2.p = { st.p with fieldHeap := st.p.fieldHeap ++ new } := ha
      have e1 : st2.p.fieldHeap = st.p.fieldHeap ++ new := by rw [hp2]
      have e2 : st2.p.serializerHeap = st.p.serializerHeap := by rw [hp2]
      have e3 : st2.p.serializers = st.p.serializers := by rw [hp2]
      have e4 : st2.p.classesById = st.p.classesById := by rw [hp2]
      have e5 : st2.p.classesByName = st.p.classesByName := by rw [hp2]
      have e6 : st2.p.classHeap = st.p.classHeap := by rw [hp2]
      have hname2 : ser.name = name := hn
      refine ⟨ser, new, ?_, hv, ?_, ?_, hm, ?_, ?_, ?_, ?_, ?_, ?_, hmono, ?_, hkeys⟩
      · rw [hname2]
      · simpa [newSerializer] using hfs
      · exact g1.trans e1
      · rw [← e2]
        exact g2
      · rw [← e2, ← e3]
        exact g3
      · exact g4.trans e4
      · exact g5.trans e5
      · rw [← e6]
        exact g6
      · intro c cls hcls
        rw [← e6] at hcls
        rw [← e5, ← e2]
        exact g7 c cls hcls
      · intro n0 hi
        obtain ⟨i1, i2, i3⟩ := hinv n0 hi
        refine ⟨i1, i2, ?_⟩
        have i4 : (storeSerializer st2.p ser).fieldHeap.length = n0 + st2.fields.length := by
          rw [g1]
          exact i3
        exact i4

theorem map_mapGet_mono (a b : List (Int × FieldPtr)) (l : List FieldPtr) (idxs : List Int)
    (h : l.map some = idxs.map (mapGet a))
    (hmono : ∀ (j : Int) (q : FieldPtr), mapGet a j = some q → mapGet b j = some q) :
    idxs.map (mapGet a) = idxs.map (mapGet b) := by
  induction idxs generalizing l with
  | nil => rfl
  | cons i rest ih =>
    cases l with
    | nil => simp at h
    | cons x l1 =>
      simp only [List.map_cons, List.cons.injEq] at h
      obtain ⟨h1, h2⟩ := h
      simp only [List.map_cons, List.cons.injEq]
      exact ⟨by rw [← h1, hmono i x h1.symm], ih l1 h2⟩

theorem processSerializers_cons (env : Externals) (m : CSVCMsg_FlattenedSerializer)
    (s : ProtoFlattenedSerializerT) (rest : List ProtoFlattenedSerializerT)
    (st st1 : PacketState) (h : processSerializers env m (s :: rest) st = some st1) :
    ∃ st2 : PacketState, processSerializer env m s st = some st2 ∧
      processSerializers env m rest st2 = some st1 := by
  simp only [processSerializers] at h
  cases hs : processSerializer env m s st with
  | none => simp [hs] at h
  | some st2 =>
    simp only [hs] at h
    exact ⟨st2, rfl, h⟩

theorem processSerializers_fields (env : Externals) (m : CSVCMsg_FlattenedSerializer)
    (ds : List ProtoFlattenedSerializerT) (st st1 : PacketState)
    (h : processSerializers env m ds st = some st1) :
    ∃ new : List Field,
      st1.p.fieldHeap = st.p.fieldHeap ++ new ∧
      (∀ f ∈ new, determineModel f = some f.model) ∧
      (∀ (j : Int) (q : FieldPtr), mapGet st.fields j = some q → mapGet st1.fields j = some q) ∧
      (∀ n0 : Nat, FieldsInv n0 st → FieldsInv n0 st1) ∧
      (∀ j : Int, j ∈ st1.fields.map Prod.fst ↔
        (∃ s ∈ ds, j ∈ s.fieldsIndex) ∨ j ∈ st.fields.map Prod.fst) := by
  induction ds generalizing st with
  | nil =>
    simp only [processSerializers, Option.some.injEq] at h
    subst h
    exact ⟨[], by simp, by simp, fun _ _ hj => hj, fun _ hi => hi, by simp⟩
  | cons s rest ih =>
    obtain ⟨st2, h1, h2⟩ := processSerializers_cons env m s rest st st1 h
    obtain ⟨ser, new1, _, _, _, hfh, hm1, _, _, _, _, _, _, hmono1, hinv1, hkeys1⟩ :=
      processSerializer_spec env m s st st2 h1
    obtain ⟨new2, hfh2, hm2, hmono2, hinv2, hkeys2⟩ := ih st2 h2
    refine ⟨new1 ++ new2, ?_, ?_, ?_, ?_, ?_⟩
    · rw [hfh2, hfh, List.append_assoc]
    · intro f hf
      rcases List.mem_append.mp hf with hf | hf
      · exact hm1 f hf
      · exact hm2 f hf
    · intro j q hj
      exact hmono2 j q (hmono1 j q hj)
    · intro n0 hi
      exact hinv2 n0 (hinv1 n0 hi)
    · intro j
      rw [hkeys2, hkeys1]
      constructor
      · rintro (⟨s1, hs1, hj⟩ | hj | hj)
        · exact Or.inl ⟨s1, List.mem_cons_of_mem _ hs1, hj⟩
        · exact Or.inl ⟨s, List.mem_cons_self _ _, hj⟩
        · exact Or.inr hj
      · rintro (⟨s1, hs1, hj⟩ | hj)
        · rcases List.mem_cons.mp hs1 with e | e
          · subst e
            exact Or.inr (Or.inl hj)
          · exact Or.inl ⟨s1, e, hj⟩
        · exact Or.inr (Or.inr hj)

theorem processSerializers_heap (env : Externals) (m : CSVCMsg_FlattenedSerializer)
    (ds : List ProtoFlattenedSerializerT) (st st1 : PacketState)
    (h : processSerializers env m ds st = some st1) :
    ∃ sers : List Serializer,
      st1.p.serializerHeap = st.p.serializerHeap ++ sers ∧ sers.length = ds.length ∧
      ∀ (k : Nat) (s : ProtoFlattenedSerializerT), ds[k]? = some s →
        ∃ ser : Serializer, sers[k]? = some ser ∧ serializerNameOf m s = some ser.name ∧
          ser.version = s.serializerVersion ∧
          ser.fields.map some = s.fieldsIndex.map (mapGet st1.fields) := by
  induction ds generalizing st with
  | nil =>
    simp only [processSerializers, Option.some.injEq] at h
    subst h
    exact ⟨[], by simp, rfl, by simp⟩
  | cons s rest ih =>
    obtain ⟨st2, h1, h2⟩ := processSerializers_cons env m s rest st st1 h
    obtain ⟨ser, new1, hn, hv, hfs, _, _, hsh, _, _, _, _, _, _, _, _⟩ :=
      processSerializer_spec env m s st st2 h1
    obtain ⟨sers, hsh2, hlen, hall⟩ := ih st2 h2
    obtain ⟨_, _, _, hmono, _, _⟩ := processSerializers_fields env m rest st2 st1 h2
    refine ⟨ser :: sers, ?_, ?_, ?_⟩
    · rw [hsh2, hsh, List.append_assoc]
      rfl
    · simp [hlen]
    · intro k s0 hk
      cases k with
      | zero =>
        simp only [List.getElem?_cons_zero, Option.some.injEq] at hk
        subst hk
        refine ⟨ser, by simp, hn, hv, ?_⟩
        rw [hfs]
        exact map_mapGet_mono _ _ _ _ hfs hmono
      | succ k1 =>
        simp only [List.getElem?_cons_succ] at hk
        obtain ⟨ser1, g1, g2, g3, g4⟩ := hall k1 s0 hk
        exact ⟨ser1, by simpa using g1, g2, g3, g4⟩

theorem processSerializers_names (env : Externals) (m : CSVCMsg_FlattenedSerializer)
    (ds : List ProtoFlattenedSerializerT) (st st1 : PacketState)
    (h : processSerializers env m ds st = some st1) (n : String) :
    ((∀ s ∈ ds, serializerNameOf m s ≠ some n) →
      mapGet st1.p.serializers n = mapGet st.p.serializers n) ∧
    (∀ (pre post : List ProtoFlattenedSerializerT) (s : ProtoFlattenedSerializerT),
      ds = pre ++ s :: post → serializerNameOf m s = some n →
      (∀ s1 ∈ post, serializerNameOf m s1 ≠ some n) →
      mapGet st1.p.serializers n = some (st.p.serializerHeap.length + pre.length)) := by
  induction ds generalizing st with
  | nil =>
    simp only [processSerializers, Option.some.injEq] at h
    subst h
    refine ⟨fun _ => rfl, ?_⟩
    intro pre post s hsplit
    exact absurd hsplit (by simp)
  | cons s0 rest ih =>
    obtain ⟨st2, h1, h2⟩ := processSerializers_cons env m s0 rest st st1 h
    obtain ⟨ser, new1, hn, _, _, _, _, hsh, hmap, _, _, _, _, _, _, _⟩ :=
      processSerializer_spec env m s0 st st2 h1
    obtain ⟨ih1, ih2⟩ := ih st2 h2
    constructor
    · intro hnone
      rw [ih1 (fun s hs => hnone s (List.mem_cons_of_mem _ hs)), hmap]
      have hne : n ≠ ser.name := by
        intro h0
        apply hnone s0 (List.mem_cons_self _ _)
        rw [hn, h0]
      exact mapGet_mapSet_ne _ _ _ _ hne
    · intro pre post s hsplit hs hpost
      cases pre with
      | nil =>
        simp only [List.nil_append, List.cons.injEq] at hsplit
        obtain ⟨e1, e2⟩ := hsplit
        subst e1
        subst e2
        rw [ih1 hpost, hmap]
        have hname : ser.name = n := by
          rw [hn] at hs
          exact Option.some.inj hs
        rw [hname]
        simp only [List.length_nil, Nat.add_zero]
        exact mapGet_mapSet_self _ _ _
      | cons p0 pre1 =>
        simp only [List.cons_append, List.cons.injEq] at hsplit
        obtain ⟨_, e2⟩ := hsplit
        rw [ih2 pre1 post s e2 hs hpost, hsh]
        simp only [List.length_append, List.length_cons, List.length_nil, Option.some.injEq]
        omega

theorem processSerializers_classes (env : Externals) (m : CSVCMsg_FlattenedSerializer)
    (ds : List ProtoFlattenedSerializerT) (st st1 : PacketState)
    (h : processSerializers env m ds st = some st1) :
    st1.p.classesById = st.p.classesById ∧ st1.p.classesByName = st.p.classesByName ∧
    st1.p.classHeap.length = st.p.classHeap.length ∧
    ∀ (c : ClassPtr) (cls : Class), st.p.classHeap[c]? = some cls →
      ∃ cls1 : Class, st1.p.classHeap[c]? = some cls1 ∧ cls1.classId = cls.classId ∧
        cls1.name = cls.name ∧ cls1.fpNameCacheNext = cls.fpNameCacheNext ∧
        ((∀ s ∈ ds, ∀ n : String, serializerNameOf m s = some n →
            mapGet st.p.classesByName n ≠ some c) → cls1.serializer = cls.serializer) ∧
        (∀ (pre post : List ProtoFlattenedSerializerT) (s : ProtoFlattenedSerializerT)
          (n : String), ds = pre ++ s :: post → serializerNameOf m s = some n →
          mapGet st.p.classesByName n = some c →
          (∀ s1 ∈ post, ∀ n1 : String, serializerNameOf m s1 = some n1 →
            mapGet st.p.classesByName n1 ≠ some c) →
          cls1.serializer = some (st.p.serializerHeap.length + pre.length)) := by
  induction ds generalizing st with
  | nil =>
    simp only [processSerializers, Option.some.injEq] at h
    subst h
    refine ⟨rfl, rfl, rfl, ?_⟩
    intro c cls hcls
    refine ⟨cls, hcls, rfl, rfl, rfl, fun _ => rfl, ?_⟩
    intro pre post s n hsplit
    exact absurd hsplit (by simp)
  | cons s0 rest ih =>
    obtain ⟨st2, h1, h2⟩ := processSerializers_cons env m s0 rest st st1 h
    obtain ⟨ser, new1, hn, _, _, _, _, hsh, _, hbyid, hbyname, hlen, hcls2, _, _, _⟩ :=
      processSerializer_spec env m s0 st st2 h1
    obtain ⟨i1, i2, i3, i4⟩ := ih st2 h2
    refine ⟨i1.trans hbyid, i2.trans hbyname, i3.trans hlen, ?_⟩
    intro c cls hcls
    obtain ⟨cls1, g1, g2, g3, g4, g5, g6⟩ := i4 c _ (hcls2 c cls hcls)
    refine ⟨cls1, g1, ?_, ?_, ?_, ?_, ?_⟩
    · rw [g2]
      split <;> rfl
    · rw [g3]
      split <;> rfl
    · rw [g4]
      split <;> rfl
    · intro hnone
      rw [g5 (fun s hs n hsn => by
        rw [hbyname]
        exact hnone s (List.mem_cons_of_mem _ hs) n hsn)]
      rw [if_neg (hnone s0 (List.mem_cons_self _ _) ser.name hn)]
    · intro pre post s n hsplit hs hc hpost
      cases pre with
      | nil =>
        simp only [List.nil_append, List.cons.injEq] at hsplit
        obtain ⟨e1, e2⟩ := hsplit
        subst e1
        subst e2
        rw [g5 (fun s1 hs1 n1 hsn => by
          rw [hbyname]
          exact hpost s1 hs1 n1 hsn)]
        have hname : ser.name = n := by
          rw [hn] at hs
          exact Option.some.inj hs
        rw [hname, if_pos hc]
        simp
      | cons p0 pre1 =>
        simp only [List.cons_append, List.cons.injEq] at hsplit
        obtain ⟨_, e2⟩ := hsplit
        rw [g6 pre1 post s n e2 hs (by rw [hbyname]; exact hc) (fun s1 hs1 n1 hsn => by
          rw [hbyname]
          exact hpost s1 hs1 n1 hsn), hsh]
        simp only [List.length_append, List.length_cons, List.length_nil, Option.some.injEq]
        omega

theorem parsePacket_run (env : Externals) (b : List Nat) (p q : Parser) (err : Option String)
    (h : ParsePacket env b p = some (err, q)) :
    (∃ e : String, env.decode b = some (Except.error e) ∧ q = p ∧ err = some e) ∨
    (∃ (m : CSVCMsg_FlattenedSerializer) (st : PacketState),
      env.decode b = some (Except.ok m) ∧
      processSerializers env m m.serializers { p := p } = some st ∧ st.p = q ∧ err = none) := by
  unfold ParsePacket at h
  cases hdec : env.decode b with
  | none => simp [hdec] at h
  | some r =>
    cases r with
    | error e =>
      simp only [hdec, Option.some.injEq, Prod.mk.injEq] at h
      exact Or.inl ⟨e, rfl, h.2.symm, h.1.symm⟩
    | ok m =>
      simp only [hdec] at h
      cases hst : processSerializers env m m.serializers { p := p } with
      | none => simp [hst] at h
      | some st =>
        simp only [hst, Option.some.injEq, Prod.mk.injEq] at h
        exact Or.inr ⟨m, st, rfl, hst, h.2, h.1.symm⟩

theorem pointerTypes_iff (baseType : String) :
    (mapGet pointerTypes baseType).getD false = true ↔
      baseType ∈ ["CBodyComponentDCGBaseAnimating", "CBodyComponentBaseAnimating",
        "CBodyComponentBaseAnimatingOverlay", "CBodyComponentBaseModelEntity",
        "CBodyComponent", "CBodyComponentSkeletonInstance", "CBodyComponentPoint",
        "CLightComponent", "CRenderComponent", "CPhysicsComponent"] := by
  simp only [pointerTypes, mapGet, List.mem_cons, List.mem_singleton, List.not_mem_nil, or_false]
  constructor
  · intro h
    by_contra hne
    simp only [not_or] at hne
    obtain ⟨h1, h2, h3, h4, h5, h6, h7, h8, h9, h10⟩ := hne
    simp [Ne.symm h1, Ne.symm h2, Ne.symm h3, Ne.symm h4, Ne.symm h5, Ne.symm h6, Ne.symm h7,
      Ne.symm h8, Ne.symm h9, Ne.symm h10] at h
  · rintro (h | h | h | h | h | h | h | h | h | h) <;> subst h <;> decide

end Sendtablescs2

/-! ## Claims -/

/-- C1, as stated, fails: in the state where no descriptor list is stored and
the fallback list does not decode, handleGameEvent dispatches the
GameEventBeforeDescriptors warning, records the error and returns; no
GenericGameEvent is dispatched. -/
theorem handleGameEvent_fallback_failure :
    ∃ q : Parser, handleGameEvent sampleEnv { eventid := 1 } {} = some q ∧
      q.dispatched = [Event.ParserWarn "received GameEvent but event descriptors are missing"
        WarnType.WarnTypeGameEventBeforeDescriptors] ∧
      q.err = some (Error.unmarshal "cannot parse") ∧
      (q.dispatched.filter isGenericGameEvent).length = 0 :=
  ⟨_, rfl, rfl, rfl, rfl⟩

/-- C1, amended: for every LegacyGameEvent message and every parser state in
which a descriptor list is stored or the fallback list loads: whenever
handleGameEvent completes, exactly one GenericGameEvent has been dispatched
during the call, as the last event, carrying the resolved descriptor's name and
the zipped key data; and handleGameEvent does complete when the descriptor is
stored, the event carries at least as many keys as the descriptor, and the
name is unknown, has a nil handler or has a handler built by `delay`. -/
theorem handleGameEvent_generic (env : Env) (ge : GameEvent) (p p1 : Parser)
    (hload : loadDescriptors env p = Except.ok p1) :
    (∀ q : Parser, handleGameEvent env ge p = some q →
      ∃ (desc : Descriptor) (data : Data) (pre : List Event),
        mapGet (p1.gameEventDescs.getD []) ge.eventid = some desc ∧
        mapGameEventData (some desc) ge = some data ∧
        q.dispatched = p.dispatched ++ pre ++ [Event.GenericGameEvent desc.name data] ∧
        (∀ e ∈ pre, isGenericGameEvent e = false)) ∧
    (∀ desc : Descriptor, mapGet (p1.gameEventDescs.getD []) ge.eventid = some desc →
      desc.keys.length ≤ ge.keys.length →
      (gameEventNameToHandler desc.name = none ∨ gameEventNameToHandler desc.name = some none ∨
        ∃ f, gameEventNameToHandler desc.name = some (some (Handler.delay f))) →
      ∃ q : Parser, handleGameEvent env ge p = some q) := by
  have hp1 := loadDescriptors_appends env p p1 hload
  constructor
  · intro q hq
    simp only [handleGameEvent, hload] at hq
    cases hdesc : mapGet (p1.gameEventDescs.getD []) ge.eventid with
    | none => simp [hdesc, mapGameEventData] at hq
    | some desc =>
      simp only [hdesc] at hq
      cases hdata : mapGameEventData (some desc) ge with
      | none => simp [hdata] at hq
      | some data =>
        simp only [hdata, Option.map_some', Option.getD_some] at hq
        have key : ∀ p2 : Parser, Appends p1 p2 →
            dispatch p2 (Event.GenericGameEvent desc.name data) = q →
            ∃ pre : List Event,
              q.dispatched = p.dispatched ++ pre ++ [Event.GenericGameEvent desc.name data] ∧
              (∀ e ∈ pre, isGenericGameEvent e = false) := by
          intro p2 h12 hq2
          obtain ⟨pre, hpre, hno⟩ := Appends.trans hp1 h12
          refine ⟨pre, ?_, hno⟩
          rw [← hq2]
          simp only [dispatch, hpre]
        obtain ⟨p2, hp2, hq2⟩ := Option.map_eq_some'.mp hq
        have h12 : Appends p1 p2 := by
          split at hp2
          · exact callHandler_appends env _ data p1 p2 hp2
          · cases hp2
            exact Appends.refl p1
          · cases hp2
            exact Appends.step p1 _ (by rfl)
        obtain ⟨pre, h1, h2⟩ := key p2 h12 hq2
        exact ⟨desc, data, pre, rfl, hdata, h1, h2⟩
  · intro desc hdesc hkeys hname
    obtain ⟨data, hdata⟩ := mapGameEventDataFrom_isSome [] desc.keys ge.keys hkeys
    simp only [handleGameEvent, hload, hdesc, mapGameEventData, hdata, Option.map_some',
      Option.getD_some]
    rcases hname with h | h | ⟨f, h⟩
    · simp [h]
    · simp [h]
    · simp [h, callHandler]

/-- C1, amended, at a sample state: an hltv_status event (nil handler) with one
key completes and dispatches one GenericGameEvent with the zipped data. -/
theorem handleGameEvent_generic_witness :
    ∃ q : Parser,
      handleGameEvent sampleEnv { eventid := 4, keys := [{ valLong := 3 }] }
        sampleParserWithDescs = some q ∧
      q.dispatched = [Event.GenericGameEvent "hltv_status" [("clients", { valLong := 3 })]] := by
  obtain ⟨q, hq⟩ := (handleGameEvent_generic sampleEnv
    { eventid := 4, keys := [{ valLong := 3 }] } sampleParserWithDescs sampleParserWithDescs
    rfl).2 sampleDescriptor rfl
    (by decide) (Or.inr (Or.inl (by decide)))
  refine ⟨q, hq, ?_⟩
  have h2 : handleGameEvent sampleEnv { eventid := 4, keys := [{ valLong := 3 }] }
      sampleParserWithDescs = some (dispatch sampleParserWithDescs
        (Event.GenericGameEvent "hltv_status" [("clients", { valLong := 3 })])) := rfl
  rw [h2] at hq
  cases hq
  rfl

/-- C2, as stated, fails: with disableMimicSource1GameEvents set, bombPickup
dispatches a BombPickup event. -/
theorem bombPickup_dispatches_when_flag_set :
    sampleParser.disableMimicSource1GameEvents = true ∧
    runHandler sampleEnv HandlerFunc.bombPickup [("userid", { valShort := 7 })] sampleParser =
      some (dispatch sampleParser (Event.BombPickup (some 0))) := by
  constructor <;> rfl

/-- C2, amended: for each of the handlers roundStart, roundEnd,
roundOfficiallyEnded, weaponFire, playerBlind, bombBeginPlant, bombPlanted,
bombDefused, bombExploded, bombBeginDefuse, bombDropped and bombPickup, and for
every event data: when disableMimicSource1GameEvents is not set, the handler
returns at once, dispatches no event and leaves the whole parser and game
state unchanged. -/
theorem mimic_handlers_skip_when_flag_unset (env : Env) (f : HandlerFunc) (data : Data)
    (p : Parser)
    (hf : f ∈ [HandlerFunc.roundStart, HandlerFunc.roundEnd, HandlerFunc.roundOfficiallyEnded,
      HandlerFunc.weaponFire, HandlerFunc.playerBlind, HandlerFunc.bombBeginPlant,
      HandlerFunc.bombPlanted, HandlerFunc.bombDefused, HandlerFunc.bombExploded,
      HandlerFunc.bombBeginDefuse, HandlerFunc.bombDropped, HandlerFunc.bombPickup])
    (hflag : p.disableMimicSource1GameEvents = false) :
    runHandler env f data p = some p := by
  simp only [List.mem_cons, List.mem_nil_iff, or_false] at hf
  rcases hf with h | h | h | h | h | h | h | h | h | h | h | h <;> subst h <;>
    simp [runHandler, roundStart, roundEnd, roundOfficiallyEnded, weaponFire, playerBlind,
      bombBeginPlant, bombPlanted, bombDefused, bombExploded, bombBeginDefuse, bombDropped,
      bombPickup, hflag]

/-- C2, amended, at a sample state with the flag not set: roundEnd records no
round-end reason and dispatches nothing. -/
theorem mimic_handlers_skip_when_flag_unset_witness :
    runHandler sampleEnv HandlerFunc.roundEnd [("reason", { valByte := 1 })]
        { sampleParser with disableMimicSource1GameEvents := false } =
      some { sampleParser with disableMimicSource1GameEvents := false } :=
  mimic_handlers_skip_when_flag_unset sampleEnv HandlerFunc.roundEnd
    [("reason", { valByte := 1 })] { sampleParser with disableMimicSource1GameEvents := false }
    (by simp) rfl

/-- C3, as stated, fails: with ignoreBombsiteIndexNotFound not set, site 5 is
neither bombsite index and has no trigger, and bombEvent returns the error
ErrBombsiteIndexNotFound and dispatches no warning. -/
theorem bombEvent_unset_returns_error :
    bombEvent sampleEnv [("site", { valShort := 5 })] sampleParser =
      (Except.error (Error.ErrBombsiteIndexNotFound 5), sampleParser) := by
  rfl

/-- C3, amended: for a bomb event whose site equals neither bombsite index and
has no trigger registered, bombEvent returns ErrBombsiteIndexNotFound and
changes nothing when ignoreBombsiteIndexNotFound is not set and the site is not
0; when the option is set, bombEvent returns no error, the site of the returned
event is unknown, and one ParserWarn of type BombsiteUnknown is dispatched. -/
theorem bombEvent_site_not_found (env : Env) (data : Data) (p : Parser)
    (hA : bombEventSite data ≠ p.bombsiteA.index)
    (hB : bombEventSite data ≠ p.bombsiteB.index)
    (ht : mapGet p.triggers (bombEventSite data) = none) :
    (p.ignoreBombsiteIndexNotFound = false → bombEventSite data ≠ 0 →
      bombEvent env data p =
        (Except.error (Error.ErrBombsiteIndexNotFound (bombEventSite data)), p)) ∧
    (p.ignoreBombsiteIndexNotFound = true →
      bombEvent env data p =
        (Except.ok { player := playerByUserID32 p (getValShort data "userid"),
                     site := Bombsite.BomsiteUnknown },
          dispatch p (Event.ParserWarn "bombsite unknown for bomb related event"
            WarnType.WarnTypeBombsiteUnknown))) := by
  constructor
  · intro hi _
    simp [bombEvent, hA, hB, ht, hi]
  · intro hi
    simp [bombEvent, hA, hB, ht, hi, bombsiteUnknownWarn]

/-- C3, amended, at a sample state with the option set: site 5 is unknown, no
error is returned and the warning is dispatched. -/
theorem bombEvent_site_not_found_witness :
    bombEvent sampleEnv [("site", { valShort := 5 })]
        { sampleParser with ignoreBombsiteIndexNotFound := true } =
      (Except.ok { player := none, site := Bombsite.BomsiteUnknown },
        dispatch { sampleParser with ignoreBombsiteIndexNotFound := true }
          (Event.ParserWarn "bombsite unknown for bomb related event"
            WarnType.WarnTypeBombsiteUnknown)) :=
  (bombEvent_site_not_found sampleEnv [("site", { valShort := 5 })]
    { sampleParser with ignoreBombsiteIndexNotFound := true }
    (by decide) (by decide) rfl).2 rfl

/-- C4: when ignoreBombsiteIndexNotFound is set, bombEvent returns no error for
every event data and parser state, and the returned event carries the player of
the user id.  The site is BombsiteA or BombsiteB, with nothing dispatched, when
the site value is the index of that bombsite or, failing that, the trigger
registered under it contains the center of that bombsite (A before B).  In
every other case, that is when the site cannot be resolved (no trigger is
registered under it, or the trigger contains neither center), the returned site
is unknown and the only effect is that exactly one ParserWarn of type
BombsiteUnknown is dispatched. -/
theorem bombEvent_ignore_never_errors (env : Env) (data : Data) (p : Parser)
    (hi : p.ignoreBombsiteIndexNotFound = true) :
    ∃ ev : BombEvent, (bombEvent env data p).1 = Except.ok ev ∧
      ev.player = playerByUserID32 p (getValShort data "userid") ∧
      ((ev.site ≠ Bombsite.BomsiteUnknown ∧
          (bombEvent env data p).2.dispatched = p.dispatched) ∨
        (ev.site = Bombsite.BomsiteUnknown ∧
          (bombEvent env data p).2.dispatched = p.dispatched ++
            [Event.ParserWarn "bombsite unknown for bomb related event"
              WarnType.WarnTypeBombsiteUnknown])) ∧
      (bombEventSite data = p.bombsiteA.index →
        ev.site = Bombsite.BombsiteA ∧ (bombEvent env data p).2 = p) ∧
      (bombEventSite data ≠ p.bombsiteA.index → bombEventSite data = p.bombsiteB.index →
        ev.site = Bombsite.BombsiteB ∧ (bombEvent env data p).2 = p) ∧
      (∀ t : Trigger, bombEventSite data ≠ p.bombsiteA.index →
        bombEventSite data ≠ p.bombsiteB.index →
        mapGet p.triggers (bombEventSite data) = some t →
        (env.contains t p.bombsiteA.center = true → ev.site = Bombsite.BombsiteA) ∧
        (env.contains t p.bombsiteA.center = false →
          env.contains t p.bombsiteB.center = true → ev.site = Bombsite.BombsiteB)) ∧
      (bombEventSite data ≠ p.bombsiteA.index → bombEventSite data ≠ p.bombsiteB.index →
        (mapGet p.triggers (bombEventSite data) = none ∨
          ∃ t : Trigger, mapGet p.triggers (bombEventSite data) = some t ∧
            env.contains t p.bombsiteA.center = false ∧
            env.contains t p.bombsiteB.center = false) →
        ev.site = Bombsite.BomsiteUnknown ∧
        (bombEvent env data p).2 =
          dispatch p (Event.ParserWarn "bombsite unknown for bomb related event"
            WarnType.WarnTypeBombsiteUnknown)) := by
  unfold bombEvent
  simp only [hi, bombsiteUnknownWarn]
  by_cases hA : bombEventSite data = p.bombsiteA.index
  · simp [hA]
  · by_cases hB : bombEventSite data = p.bombsiteB.index
    · have hBA : ¬ p.bombsiteB.index = p.bombsiteA.index := by
        rw [← hB]
        exact hA
      simp [hB, hBA]
    · simp only [hA, hB, if_false]
      cases ht : mapGet p.triggers (bombEventSite data) with
      | none => simp [dispatch]
      | some t =>
        by_cases cA : env.contains t p.bombsiteA.center = true
        · simp [cA]
        · by_cases cB : env.contains t p.bombsiteB.center = true
          · simp [cA, cB]
          · simp [cA, cB, dispatch]

/-- C4, at a sample state: with the option set, the site 5 is neither bombsite
index and has no trigger; bombEvent returns no error, the site is unknown and
the warning is dispatched. -/
theorem bombEvent_ignore_never_errors_witness :
    bombEvent sampleEnv [("site", { valShort := 5 })]
        { sampleParser with ignoreBombsiteIndexNotFound := true } =
      (Except.ok { player := none, site := Bombsite.BomsiteUnknown },
        dispatch { sampleParser with ignoreBombsiteIndexNotFound := true }
          (Event.ParserWarn "bombsite unknown for bomb related event"
            WarnType.WarnTypeBombsiteUnknown)) := by
  obtain ⟨ev, h1, h2, _, _, _, _, h7⟩ :=
    bombEvent_ignore_never_errors sampleEnv [("site", { valShort := 5 })]
      { sampleParser with ignoreBombsiteIndexNotFound := true } rfl
  obtain ⟨h8, h9⟩ := h7 (by decide) (by decide) (Or.inl rfl)
  have hev : ev = { player := none, site := Bombsite.BomsiteUnknown } := by
    cases ev
    simp only [BombEvent.mk.injEq]
    exact ⟨h2, h8⟩
  rw [hev] at h1
  exact Prod.ext h1 h9

/-- C5, as stated, fails: player 7 has health 80, the player_hurt event reports
dmg_health 50 and health 0, and the dispatched HealthDamageTaken is 80, above
min(100, HealthDamage) = 50. -/
theorem playerHurt_taken_exceeds_damage :
    ∃ e : PlayerHurt,
      playerHurt sampleEnv
          [("userid", { valShort := 7 }), ("dmg_health", { valShort := 50 }),
            ("health", { valByte := 0 })] sampleParser =
        some (dispatch sampleParser (Event.PlayerHurt e)) ∧
      e.healthDamage = 50 ∧ e.healthDamageTaken = 80 ∧
      ¬ e.healthDamageTaken ≤ min 100 e.healthDamage :=
  ⟨playerHurtEvent
      [("userid", { valShort := 7 }), ("dmg_health", { valShort := 50 }),
        ("health", { valByte := 0 })] sampleParser (some { type := EquipmentType.EqWorld }),
    rfl, rfl, rfl, by decide⟩

/-- C5, amended: for every player_hurt event and every game state in which the
lookup of the weapon instance returns, playerHurt dispatches exactly one PlayerHurt.  Its
HealthDamage is the event's dmg_health.  When the victim resolves to no player
or the event's health is not 0, HealthDamageTaken = min(100, HealthDamage), so
that 0 <= HealthDamageTaken <= min(100, HealthDamage) whenever
HealthDamage >= 0; when the victim resolves to a player and the event's health
is 0, HealthDamageTaken is that player's Health().  The same holds for
ArmorDamage, ArmorDamageTaken, the event's armor and the player's Armor(). -/
theorem playerHurt_taken_bounds (env : Env) (data : Data) (p : Parser)
    (weapon : Option Equipment)
    (hw : getEquipmentInstance env p (playerByUserID32 p (getValShort data "attacker"))
      (attackerWeaponType p (env.MapEquipment (getValString data "weapon"))
        (getValShort data "userid")) = some weapon) :
    ∃ e : PlayerHurt,
      playerHurt env data p = some (dispatch p (Event.PlayerHurt e)) ∧
      e.healthDamage = getValShort data "dmg_health" ∧
      e.armorDamage = getValByte data "dmg_armor" ∧
      ((playerByUserID32 p (getValShort data "userid") = none ∨ getValByte data "health" ≠ 0) →
        e.healthDamageTaken = min 100 e.healthDamage ∧
        (0 ≤ e.healthDamage →
          0 ≤ e.healthDamageTaken ∧ e.healthDamageTaken ≤ min 100 e.healthDamage)) ∧
      ((playerByUserID32 p (getValShort data "userid") = none ∨ getValByte data "armor" ≠ 0) →
        e.armorDamageTaken = min 100 e.armorDamage ∧
        (0 ≤ e.armorDamage →
          0 ≤ e.armorDamageTaken ∧ e.armorDamageTaken ≤ min 100 e.armorDamage)) ∧
      (∀ pl, playerByUserID32 p (getValShort data "userid") = some pl →
        (getValByte data "health" = 0 → e.healthDamageTaken = (playerAt p pl).health) ∧
        (getValByte data "armor" = 0 → e.armorDamageTaken = (playerAt p pl).armor)) := by
  have clamp : ∀ d : Int, (if d > 100 then 100 else d) = min 100 d := by
    intro d
    by_cases hd : d > 100
    · rw [if_pos hd, min_eq_left (le_of_lt hd)]
    · rw [if_neg hd, min_eq_right (not_lt.mp hd)]
  refine ⟨playerHurtEvent data p weapon, ?_, rfl, rfl, ?_, ?_, ?_⟩
  · simp only [playerHurt, hw, Option.map_some']
  · intro hv
    have ht : (playerHurtEvent data p weapon).healthDamageTaken =
        min 100 (getValShort data "dmg_health") := by
      simp only [playerHurtEvent, clamp]
      rcases hv with hv | hv
      · simp only [hv]
      · cases playerByUserID32 p (getValShort data "userid") <;> simp [hv]
    refine ⟨ht, fun h0 => ?_⟩
    rw [ht]
    exact ⟨le_min (by norm_num) h0, le_refl _⟩
  · intro hv
    have ht : (playerHurtEvent data p weapon).armorDamageTaken =
        min 100 (getValByte data "dmg_armor") := by
      simp only [playerHurtEvent, clamp]
      rcases hv with hv | hv
      · simp only [hv]
      · cases playerByUserID32 p (getValShort data "userid") <;> simp [hv]
    refine ⟨ht, fun h0 => ?_⟩
    rw [ht]
    exact ⟨le_min (by norm_num) h0, le_refl _⟩
  · intro pl hpl
    constructor
    · intro h0
      simp [playerHurtEvent, hpl, h0]
    · intro h0
      simp [playerHurtEvent, hpl, h0]

/-- C5, amended, at a sample state: an unknown victim hit for 120 health and
30 armor damage takes 100 and 30. -/
theorem playerHurt_taken_bounds_witness :
    ∃ e : PlayerHurt,
      playerHurt sampleEnv
          [("userid", { valShort := 9 }), ("dmg_health", { valShort := 120 }),
            ("dmg_armor", { valByte := 30 }), ("health", { valByte := 5 }),
            ("armor", { valByte := 2 })] sampleParser =
        some (dispatch sampleParser (Event.PlayerHurt e)) ∧
      e.healthDamageTaken = 100 ∧ e.armorDamageTaken = 30 := by
  obtain ⟨e, hrun, _, _, hh, ha, _⟩ := playerHurt_taken_bounds sampleEnv
    [("userid", { valShort := 9 }), ("dmg_health", { valShort := 120 }),
      ("dmg_armor", { valByte := 30 }), ("health", { valByte := 5 }),
      ("armor", { valByte := 2 })] sampleParser (some { type := EquipmentType.EqUnknown }) rfl
  refine ⟨e, hrun, ?_, ?_⟩
  · have h1 := (hh (Or.inl rfl)).1
    rw [h1]
    have h2 : e.healthDamage = 120 := by assumption
    rw [h2]
    decide
  · have h1 := (ha (Or.inl rfl)).1
    rw [h1]
    have h2 : e.armorDamage = 30 := by assumption
    rw [h2]
    decide

/-- C6: attackerWeaponType(w, v) returns w unchanged whenever w is not Unknown;
for w = Unknown it returns World when the fall-damage frame recorded for the
victim v is the current frame, whatever round-end reason is recorded (and it is
so right after playerFallDamage ran for v in this frame); otherwise, for
w = Unknown, it returns Bomb when the round-end reason read for the current
frame is TargetBombed or 0. -/
theorem attackerWeaponType_spec (p : Parser) (w : EquipmentType) (v : Int) :
    (w ≠ EquipmentType.EqUnknown → attackerWeaponType p w v = w) ∧
    (w = EquipmentType.EqUnknown →
      mapGet p.userIDToFallDamageFrame v = some p.currentFrame →
      attackerWeaponType p w v = EquipmentType.EqWorld) ∧
    (w = EquipmentType.EqUnknown →
      (mapGet p.userIDToFallDamageFrame v).getD 0 ≠ p.currentFrame →
      ((mapGet p.frameToRoundEndReason p.currentFrame).getD 0 = RoundEndReasonTargetBombed ∨
        (mapGet p.frameToRoundEndReason p.currentFrame).getD 0 = 0) →
      attackerWeaponType p w v = EquipmentType.EqBomb) ∧
    (∀ (data : Data) (q : Parser), playerFallDamage data p = some q →
      attackerWeaponType q EquipmentType.EqUnknown (getValShort data "userid") =
        EquipmentType.EqWorld) := by
  refine ⟨?_, ?_, ?_, ?_⟩
  · intro hw
    simp [attackerWeaponType, hw]
  · intro hw hfall
    subst hw
    simp [attackerWeaponType, hfall]
  · intro hw hfall hreason
    subst hw
    rcases hreason with h | h
    · simp [attackerWeaponType, hfall, h]
    · simp [attackerWeaponType, hfall, h]
  · intro data q hq
    simp only [playerFallDamage, Option.some.injEq] at hq
    subst hq
    simp [attackerWeaponType, mapGet_mapSet_self]

/-- C6, at a sample state: the victim 7 took fall damage in frame 12, the
current frame, so an Unknown weapon type becomes World. -/
theorem attackerWeaponType_spec_witness :
    attackerWeaponType sampleParser EquipmentType.EqUnknown 7 = EquipmentType.EqWorld :=
  (attackerWeaponType_spec sampleParser EquipmentType.EqUnknown 7).2.1 rfl (by decide)

/-- C7: for every player_team event whose user id resolves to a player,
playerTeam dispatches exactly one event, a PlayerTeamChange for that player
whose NewTeam is the player's current Team (whatever the event's team value)
and whose OldTeam is the event's oldteam value, and nothing else changes: the
player's Team stays as it was. -/
theorem playerTeam_uses_player_team (env : Env) (data : Data) (p : Parser) (pl : PlayerPtr)
    (h : playerByUserID32 p (getValShort data "userid") = some pl) :
    playerTeam env data p =
      some (dispatch p (Event.PlayerTeamChange
        { player := some pl, isBot := getValBool data "isbot",
          silent := getValBool data "silent",
          newTeam := (playerAt p pl).team,
          newTeamState := env.teamState (playerAt p pl).team,
          oldTeam := toByte (getValByte data "oldteam"),
          oldTeamState := env.teamState (toByte (getValByte data "oldteam")) })) := by
  unfold playerTeam
  simp only [h]
  by_cases ht : (playerAt p pl).team = toByte (getValByte data "team")
  · simp [ht]
  · simp [ht, updatePlayer_same_team]

/-- C7, at a sample state: player 7 is on team 3, the event says team 2 and
oldteam 1; the dispatched NewTeam is 3. -/
theorem playerTeam_uses_player_team_witness :
    playerTeam sampleEnv
        [("userid", { valShort := 7 }), ("team", { valByte := 2 }),
          ("oldteam", { valByte := 1 })] sampleParser =
      some (dispatch sampleParser (Event.PlayerTeamChange
        { player := some 0, isBot := false, silent := false, newTeam := 3,
          newTeamState := none, oldTeam := 1, oldTeamState := none })) :=
  playerTeam_uses_player_team sampleEnv
    [("userid", { valShort := 7 }), ("team", { valByte := 2 }), ("oldteam", { valByte := 1 })]
    sampleParser 0 rfl

/-- C8: each of the names bot_takeover, decoy_started, inferno_startburn,
item_equip, item_pickup, player_blind and player_team is registered in
gameEventNameToHandler with a handler built by `delay`; calling that handler
appends exactly one entry to delayedEventHandlers, which will run the method on
the same data, and changes nothing else (so no event is dispatched), whatever
playersByUserID holds. -/
theorem delayed_names_only_enqueue (name : String) (f : HandlerFunc)
    (h : (name, f) ∈ [("bot_takeover", HandlerFunc.botTakeover),
      ("decoy_started", HandlerFunc.decoyStarted),
      ("inferno_startburn", HandlerFunc.infernoStartBurn),
      ("item_equip", HandlerFunc.itemEquip),
      ("item_pickup", HandlerFunc.itemPickup),
      ("player_blind", HandlerFunc.playerBlind),
      ("player_team", HandlerFunc.playerTeam)]) :
    gameEventNameToHandler name = some (some (Handler.delay f)) ∧
    ∀ (env : Env) (data : Data) (p : Parser),
      callHandler env (Handler.delay f) data p =
        some { p with delayedEventHandlers :=
                p.delayedEventHandlers ++ [Delayed.run f data] } := by
  constructor
  · simp only [List.mem_cons, Prod.mk.injEq, List.mem_nil_iff, or_false] at h
    rcases h with ⟨hn, hf⟩ | ⟨hn, hf⟩ | ⟨hn, hf⟩ | ⟨hn, hf⟩ | ⟨hn, hf⟩ | ⟨hn, hf⟩ | ⟨hn, hf⟩ <;>
      (subst hn; subst hf; decide)
  · intro env data p
    rfl

/-- C8, at the name player_team. -/
theorem delayed_names_only_enqueue_witness :
    gameEventNameToHandler "player_team" = some (some (Handler.delay HandlerFunc.playerTeam)) ∧
    ∀ (env : Env) (data : Data) (p : Parser),
      callHandler env (Handler.delay HandlerFunc.playerTeam) data p =
        some { p with delayedEventHandlers :=
                p.delayedEventHandlers ++ [Delayed.run HandlerFunc.playerTeam data] } :=
  delayed_names_only_enqueue "player_team" HandlerFunc.playerTeam (by simp)

/-- C9: for every handler f wrapped by delayIfNoPlayers and every event data:
if playersByUserID is non-empty the call is the call of f itself, so the
wrapper adds nothing to delayedEventHandlers; if playersByUserID is empty, f
is not run, nothing but delayedEventHandlers changes, and exactly one entry is
appended to it, which runs f on the same data. -/
theorem delayIfNoPlayers_spec (env : Env) (f : HandlerFunc) (data : Data) (p : Parser) :
    (p.playersByUserID ≠ [] →
      callHandler env (Handler.delayIfNoPlayers f) data p = runHandler env f data p) ∧
    (p.playersByUserID = [] →
      callHandler env (Handler.delayIfNoPlayers f) data p =
        some { p with delayedEventHandlers :=
                p.delayedEventHandlers ++ [Delayed.run f data] } ∧
      ∀ q : Parser, runDelayed env (Delayed.run f data) q = runHandler env f data q) := by
  constructor
  · intro hne
    simp [callHandler, delayIfNoPlayers, hne]
  · intro he
    refine ⟨?_, fun q => rfl⟩
    simp [callHandler, delayIfNoPlayers, he, delay]

/-- C9, at two sample states: with one known player the wrapped playerFootstep
runs at once; with no known player it is queued. -/
theorem delayIfNoPlayers_spec_witness :
    callHandler sampleEnv (Handler.delayIfNoPlayers HandlerFunc.playerFootstep)
        [("userid", { valShort := 7 })] sampleParser =
      runHandler sampleEnv HandlerFunc.playerFootstep [("userid", { valShort := 7 })]
        sampleParser ∧
    callHandler sampleEnv (Handler.delayIfNoPlayers HandlerFunc.playerFootstep)
        [("userid", { valShort := 7 })] {} =
      some { delayedEventHandlers :=
        [] ++ [Delayed.run HandlerFunc.playerFootstep [("userid", { valShort := 7 })]] } :=
  ⟨(delayIfNoPlayers_spec sampleEnv HandlerFunc.playerFootstep [("userid", { valShort := 7 })]
      sampleParser).1 (by simp [sampleParser]),
    ((delayIfNoPlayers_spec sampleEnv HandlerFunc.playerFootstep
      [("userid", { valShort := 7 })] {}).2 rfl).1⟩

/-- C10, as stated, fails: with a MatchStartedChanged and a RoundEnd pending and
no RoundStart pending, the RoundEnd is dispatched first and the
MatchStartedChanged after it. -/
theorem processRoundProgressEvents_match_started_last :
    (processRoundProgressEvents
        { lastMatchStartedChangedEvent := some (false, true),
          lastRoundEndEvent := some { reason := 9 } }).dispatched =
      [Event.RoundEnd { reason := 9 }, Event.MatchStartedChanged false true] := by
  rfl

/-- C10, amended: for every game state, processRoundProgressEvents dispatches
the pending events in the order RoundStart, freeze-time change, RoundEnd; a
MatchStartedChanged that is pending on entry is dispatched right before the
RoundStart when a RoundStart is pending, and after the freeze-time and RoundEnd
events when no RoundStart is pending. -/
theorem processRoundProgressEvents_order (p : Parser) :
    (processRoundProgressEvents p).dispatched =
      p.dispatched ++
        (match p.lastRoundStartEvent with
          | some rs =>
            (p.lastMatchStartedChangedEvent.map
              (fun e => Event.MatchStartedChanged e.1 e.2)).toList ++ [Event.RoundStart rs]
          | none => []) ++
        (p.lastFreezeTimeChangedEvent.map
          (fun e => Event.RoundFreezetimeChanged e.1 e.2)).toList ++
        (p.lastRoundEndEvent.map Event.RoundEnd).toList ++
        (match p.lastRoundStartEvent with
          | some _ => []
          | none =>
            (p.lastMatchStartedChangedEvent.map
              (fun e => Event.MatchStartedChanged e.1 e.2)).toList) := by
  cases hrs : p.lastRoundStartEvent <;> cases hms : p.lastMatchStartedChangedEvent <;>
    cases hfr : p.lastFreezeTimeChangedEvent <;> cases hre : p.lastRoundEndEvent <;>
    simp [processRoundProgressEvents, dispatchMatchStartedEventIfNecessary, dispatch,
      hrs, hms, hfr, hre]

/-- C11: processRoundProgressEvents dispatches each event that is pending on
entry (MatchStartedChanged, RoundStart, freeze-time change, RoundEnd) exactly
once and nothing else: the events it appends are a rearrangement of the
pending ones.  Afterwards the four pending slots are empty, and an immediately
repeated call dispatches nothing. -/
theorem processRoundProgressEvents_once (p : Parser) :
    (∃ new : List Event,
      (processRoundProgressEvents p).dispatched = p.dispatched ++ new ∧
      List.Perm new
        ((p.lastMatchStartedChangedEvent.map
            (fun e => Event.MatchStartedChanged e.1 e.2)).toList ++
          (p.lastRoundStartEvent.map Event.RoundStart).toList ++
          (p.lastFreezeTimeChangedEvent.map
            (fun e => Event.RoundFreezetimeChanged e.1 e.2)).toList ++
          (p.lastRoundEndEvent.map Event.RoundEnd).toList)) ∧
    (processRoundProgressEvents p).lastMatchStartedChangedEvent = none ∧
    (processRoundProgressEvents p).lastRoundStartEvent = none ∧
    (processRoundProgressEvents p).lastFreezeTimeChangedEvent = none ∧
    (processRoundProgressEvents p).lastRoundEndEvent = none ∧
    processRoundProgressEvents (processRoundProgressEvents p) =
      processRoundProgressEvents p := by
  cases hrs : p.lastRoundStartEvent <;> cases hms : p.lastMatchStartedChangedEvent <;>
    cases hfr : p.lastFreezeTimeChangedEvent <;> cases hre : p.lastRoundEndEvent <;>
    simp [processRoundProgressEvents, dispatchMatchStartedEventIfNecessary, dispatch,
      hrs, hms, hfr, hre, List.perm_comm, List.perm_append_comm]
  all_goals first
    | exact List.Perm.swap _ _ _
    | exact (List.Perm.swap _ _ _).trans (List.Perm.cons _ (List.Perm.swap _ _ _))

/-- C12, as stated, fails: the head flashbang has no flashed entity ids and its
explodedFrame 0 is less than the current frame 12, yet the queue is left as it
is. -/
theorem processFlyingFlashbangs_keeps_unexploded_head :
    (0 : Int) < sampleParser.currentFrame ∧
    (processFlyingFlashbangs
        { sampleParser with
          flyingFlashbangs := [{ projectile := {}, explodedFrame := 0 }] }).flyingFlashbangs =
      [{ projectile := {}, explodedFrame := 0 }] := by
  constructor
  · decide
  · rfl

/-- C12, amended: if the head of flyingFlashbangs has no flashed entity ids and
its explodedFrame is greater than 0 and less than currentFrame,
processFlyingFlashbangs removes that head from the queue and changes nothing
else. -/
theorem processFlyingFlashbangs_pops_exploded_head (p : Parser) (head : FlyingFlashbang)
    (rest : List FlyingFlashbang)
    (hq : p.flyingFlashbangs = head :: rest)
    (hnone : head.flashedEntityIDs = [])
    (hpos : 0 < head.explodedFrame)
    (hlt : head.explodedFrame < p.currentFrame) :
    processFlyingFlashbangs p = { p with flyingFlashbangs := rest } := by
  simp [processFlyingFlashbangs, hq, hnone, hpos, hlt]

/-- C12, amended, at a sample state: the head exploded in frame 3, the current
frame is 12, so the head leaves the queue. -/
theorem processFlyingFlashbangs_pops_exploded_head_witness :
    processFlyingFlashbangs
        { sampleParser with
          flyingFlashbangs := [{ projectile := {}, explodedFrame := 3 }] } =
      { sampleParser with flyingFlashbangs := [] } :=
  processFlyingFlashbangs_pops_exploded_head
    { sampleParser with flyingFlashbangs := [{ projectile := {}, explodedFrame := 3 }] }
    { projectile := {}, explodedFrame := 3 } [] rfl rfl (by decide) (by decide)

/-- C13: if the head of flyingFlashbangs has at least one flashed entity id,
processFlyingFlashbangs dispatches one PlayerFlashed per flashed entity id that
maps to a player, in list order, each with Attacker equal to the head
projectile's thrower and Projectile equal to the head projectile, skips the
ids with no player, and then removes exactly the head; the rest of the queue
stays as it is and produces no event, and nothing else changes. -/
theorem processFlyingFlashbangs_flashes_head (p : Parser) (head : FlyingFlashbang)
    (rest : List FlyingFlashbang)
    (hq : p.flyingFlashbangs = head :: rest)
    (hsome : head.flashedEntityIDs ≠ []) :
    processFlyingFlashbangs p =
      { p with
        dispatched := p.dispatched ++ head.flashedEntityIDs.filterMap (fun entityID =>
          (participantsByEntityID p entityID).map (fun player =>
            Event.PlayerFlashed (some player) head.projectile.thrower (some head.projectile)))
        flyingFlashbangs := rest } := by
  simp only [processFlyingFlashbangs, hq, List.length_eq_zero, hsome, if_false,
    foldl_playerFlashed]

/-- C13, at a sample state: the head flashed the entities 4 (no player) and 5
(player 0); one PlayerFlashed is dispatched and the second flashbang stays. -/
theorem processFlyingFlashbangs_flashes_head_witness :
    processFlyingFlashbangs
        { sampleParser with
          playersByEntityID := [(5, 0)]
          flyingFlashbangs := [{ projectile := { thrower := some 0 },
                                 flashedEntityIDs := [4, 5] },
                               { projectile := {}, flashedEntityIDs := [5] }] } =
      { sampleParser with
        playersByEntityID := [(5, 0)]
        dispatched := [Event.PlayerFlashed (some 0) (some 0) (some { thrower := some 0 })]
        flyingFlashbangs := [{ projectile := {}, flashedEntityIDs := [5] }] } :=
  processFlyingFlashbangs_flashes_head
    { sampleParser with
      playersByEntityID := [(5, 0)]
      flyingFlashbangs := [{ projectile := { thrower := some 0 }, flashedEntityIDs := [4, 5] },
                           { projectile := {}, flashedEntityIDs := [5] }] }
    { projectile := { thrower := some 0 }, flashedEntityIDs := [4, 5] }
    [{ projectile := {}, flashedEntityIDs := [5] }] rfl (by decide)

/-- C14: processFrameGameEvents runs every entry queued in delayedEventHandlers
exactly once, in the order the entries were appended, and leaves
delayedEventHandlers empty, for every configuration: the call returns `r`
exactly when the queued entries, called one after the other from the state
reached after the flashbang and round-progress step (which is skipped when
disableMimicSource1GameEvents is set and never touches the queue), all return
and lead to `r` up to the emptied queue. -/
theorem processFrameGameEvents_runs_queue (env : Env) (p r : Parser) :
    ((if (!p.disableMimicSource1GameEvents) = true then
        processRoundProgressEvents (processFlyingFlashbangs p) else p).delayedEventHandlers =
      p.delayedEventHandlers) ∧
    (processFrameGameEvents env p = some r ↔
      ∃ q : Parser,
        RunsInOrder env p.delayedEventHandlers
          (if (!p.disableMimicSource1GameEvents) = true then
            processRoundProgressEvents (processFlyingFlashbangs p) else p) q ∧
        r = { q with delayedEventHandlers := [] }) ∧
    (processFrameGameEvents env p = some r → r.delayedEventHandlers = []) := by
  have hqueue : (if (!p.disableMimicSource1GameEvents) = true then
        processRoundProgressEvents (processFlyingFlashbangs p) else p).delayedEventHandlers =
      p.delayedEventHandlers := by
    split
    · rw [delayed_processRoundProgressEvents, delayed_processFlyingFlashbangs]
    · rfl
  have hiff : processFrameGameEvents env p = some r ↔
      ∃ q : Parser,
        RunsInOrder env p.delayedEventHandlers
          (if (!p.disableMimicSource1GameEvents) = true then
            processRoundProgressEvents (processFlyingFlashbangs p) else p) q ∧
        r = { q with delayedEventHandlers := [] } := by
    unfold processFrameGameEvents
    simp only [hqueue, Option.map_eq_some']
    constructor
    · rintro ⟨q, h1, h2⟩
      exact ⟨q, (runDelayedHandlers_iff env _ _ q).mp h1, h2.symm⟩
    · rintro ⟨q, h1, h2⟩
      exact ⟨q, (runDelayedHandlers_iff env _ _ q).mpr h1, h2.symm⟩
  refine ⟨hqueue, hiff, ?_⟩
  intro h
  obtain ⟨q, _, hr⟩ := hiff.mp h
  rw [hr]

/-- C14, at a sample state with the flag set: the queue holds a footstep of
player 7 and then the deletion of a decoy of player 0; both run, in that
order, and the queue is empty afterwards. -/
theorem processFrameGameEvents_runs_queue_witness :
    processFrameGameEvents sampleEnv
        { sampleParser with
          delayedEventHandlers :=
            [Delayed.run HandlerFunc.playerFootstep [("userid", { valShort := 7 })],
             Delayed.deleteThrownGrenade (some 0) EquipmentType.EqDecoy] } =
      some { sampleParser with dispatched := [Event.Footstep (some 0)] } :=
  (processFrameGameEvents_runs_queue sampleEnv
    { sampleParser with
      delayedEventHandlers :=
        [Delayed.run HandlerFunc.playerFootstep [("userid", { valShort := 7 })],
         Delayed.deleteThrownGrenade (some 0) EquipmentType.EqDecoy] }
    { sampleParser with dispatched := [Event.Footstep (some 0)] }).2.1.mpr
    ⟨_, RunsInOrder.step _ _ _ _ _ rfl (RunsInOrder.step _ _ _ _ _ rfl (RunsInOrder.done _)),
      rfl⟩

/-- C15, as stated, fails: with disableMimicSource1GameEvents not set, the
round_officially_ended handler returns at once; thrownGrenades and
flyingFlashbangs keep their entries and no RoundEndOfficial is dispatched. -/
theorem roundOfficiallyEnded_skips_when_flag_unset :
    gameEventNameToHandler "round_officially_ended" =
      some (some (Handler.direct HandlerFunc.roundOfficiallyEnded)) ∧
    callHandler sampleEnv (Handler.direct HandlerFunc.roundOfficiallyEnded) []
        { thrownGrenades := [(0, [(EquipmentType.EqSmoke, [{ type := EquipmentType.EqSmoke }])])]
          flyingFlashbangs := [{ projectile := {} }] } =
      some { thrownGrenades := [(0, [(EquipmentType.EqSmoke, [{ type := EquipmentType.EqSmoke }])])]
             flyingFlashbangs := [{ projectile := {} }]
             dispatched := [] } := by
  constructor
  · decide
  · rfl

/-- C15, amended: when disableMimicSource1GameEvents is set, after the
round_officially_ended handler has run, for every prior game state,
thrownGrenades is empty, flyingFlashbangs is empty, and exactly one event, a
RoundEndOfficial, has been dispatched by the handler. -/
theorem roundOfficiallyEnded_clears (env : Env) (data : Data) (p : Parser)
    (hflag : p.disableMimicSource1GameEvents = true) :
    gameEventNameToHandler "round_officially_ended" =
      some (some (Handler.direct HandlerFunc.roundOfficiallyEnded)) ∧
    ∃ q : Parser,
      callHandler env (Handler.direct HandlerFunc.roundOfficiallyEnded) data p = some q ∧
      q.thrownGrenades = [] ∧ q.flyingFlashbangs = [] ∧
      q.dispatched = p.dispatched ++ [Event.RoundEndOfficial] := by
  refine ⟨by decide, dispatch (clearGrenadeProjectiles p) Event.RoundEndOfficial, ?_, ?_, ?_, ?_⟩
  · simp [callHandler, runHandler, roundOfficiallyEnded, hflag]
  · simp [dispatch, clearGrenadeProjectiles]
  · simp [dispatch, clearGrenadeProjectiles]
  · simp only [dispatch, dispatched_clearGrenadeProjectiles]

/-- C15, amended, at the sample state (flag set), with one thrown grenade and
one flying flashbang queued. -/
theorem roundOfficiallyEnded_clears_witness :
    ∃ q : Parser,
      callHandler sampleEnv (Handler.direct HandlerFunc.roundOfficiallyEnded) []
        { sampleParser with
          thrownGrenades := [(0, [(EquipmentType.EqSmoke, [{ type := EquipmentType.EqSmoke }])])]
          flyingFlashbangs := [{ projectile := {} }] } = some q ∧
      q.thrownGrenades = [] ∧ q.flyingFlashbangs = [] ∧
      q.dispatched = [] ++ [Event.RoundEndOfficial] :=
  (roundOfficiallyEnded_clears sampleEnv []
    { sampleParser with
      thrownGrenades := [(0, [(EquipmentType.EqSmoke, [{ type := EquipmentType.EqSmoke }])])]
      flyingFlashbangs := [{ projectile := {} }] } rfl).2

/-- C16: for every non-nil player whose thrown-grenade list for Molotov is
empty and whose list for Incendiary is non-empty, getThrownGrenade(p, Molotov)
returns the last, that is the most recently added, Incendiary entry (the one
addThrownGrenade has just appended, if any); symmetrically with the two types
exchanged.  getThrownGrenade only reads the parser. -/
theorem getThrownGrenade_alias (p : Parser) (ptr : PlayerPtr) :
    (thrownList p ptr EquipmentType.EqMolotov = [] →
      thrownList p ptr EquipmentType.EqIncendiary ≠ [] →
      getThrownGrenade p (some ptr) EquipmentType.EqMolotov =
        some (thrownList p ptr EquipmentType.EqIncendiary).getLast?) ∧
    (thrownList p ptr EquipmentType.EqIncendiary = [] →
      thrownList p ptr EquipmentType.EqMolotov ≠ [] →
      getThrownGrenade p (some ptr) EquipmentType.EqIncendiary =
        some (thrownList p ptr EquipmentType.EqMolotov).getLast?) ∧
    (∀ w : Equipment, w.type = EquipmentType.EqIncendiary →
      thrownList p ptr EquipmentType.EqMolotov = [] →
      getThrownGrenade (addThrownGrenade p (some ptr) w) (some ptr) EquipmentType.EqMolotov =
        some (some w)) ∧
    (∀ w : Equipment, w.type = EquipmentType.EqMolotov →
      thrownList p ptr EquipmentType.EqIncendiary = [] →
      getThrownGrenade (addThrownGrenade p (some ptr) w) (some ptr) EquipmentType.EqIncendiary =
        some (some w)) := by
  have alias1 : ∀ q : Parser, thrownList q ptr EquipmentType.EqMolotov = [] →
      thrownList q ptr EquipmentType.EqIncendiary ≠ [] →
      getThrownGrenade q (some ptr) EquipmentType.EqMolotov =
        some (thrownList q ptr EquipmentType.EqIncendiary).getLast? := by
    intro q hm hi
    have hm2 : (mapGet ((mapGet q.thrownGrenades ptr).getD []) EquipmentType.EqMolotov).getD []
        = [] := hm
    have hi2 : (mapGet ((mapGet q.thrownGrenades ptr).getD [])
        EquipmentType.EqIncendiary).getD [] ≠ [] := hi
    unfold getThrownGrenade getThrownGrenadeFuel
    simp [thrownList, hm2, hi2]
  have alias2 : ∀ q : Parser, thrownList q ptr EquipmentType.EqIncendiary = [] →
      thrownList q ptr EquipmentType.EqMolotov ≠ [] →
      getThrownGrenade q (some ptr) EquipmentType.EqIncendiary =
        some (thrownList q ptr EquipmentType.EqMolotov).getLast? := by
    intro q hi hm
    have hi2 : (mapGet ((mapGet q.thrownGrenades ptr).getD [])
        EquipmentType.EqIncendiary).getD [] = [] := hi
    have hm2 : (mapGet ((mapGet q.thrownGrenades ptr).getD []) EquipmentType.EqMolotov).getD []
        ≠ [] := hm
    unfold getThrownGrenade getThrownGrenadeFuel
    simp [thrownList, hm2, hi2]
  refine ⟨alias1 p, alias2 p, ?_, ?_⟩
  · intro w hw hm
    have h1 : thrownList (addThrownGrenade p (some ptr) w) ptr EquipmentType.EqMolotov = [] := by
      rw [thrownList_addThrownGrenade]
      simp [hw, hm]
    have h2 : thrownList (addThrownGrenade p (some ptr) w) ptr EquipmentType.EqIncendiary =
        thrownList p ptr EquipmentType.EqIncendiary ++ [w] := by
      rw [thrownList_addThrownGrenade]
      simp [hw]
    rw [alias1 _ h1 (by simp [h2]), h2]
    simp
  · intro w hw hi
    have h1 : thrownList (addThrownGrenade p (some ptr) w) ptr EquipmentType.EqIncendiary = [] := by
      rw [thrownList_addThrownGrenade]
      simp [hw, hi]
    have h2 : thrownList (addThrownGrenade p (some ptr) w) ptr EquipmentType.EqMolotov =
        thrownList p ptr EquipmentType.EqMolotov ++ [w] := by
      rw [thrownList_addThrownGrenade]
      simp [hw]
    rw [alias2 _ h1 (by simp [h2]), h2]
    simp

/-- C16, at a sample state: player 0 threw two incendiaries and no molotov; the
lookup for Molotov returns the second incendiary. -/
theorem getThrownGrenade_alias_witness :
    getThrownGrenade
        { sampleParser with
          thrownGrenades := [(0, [(EquipmentType.EqIncendiary,
            [{ type := EquipmentType.EqIncendiary, uniqueID := 1 },
             { type := EquipmentType.EqIncendiary, uniqueID := 2 }])])] }
        (some 0) EquipmentType.EqMolotov =
      some (some { type := EquipmentType.EqIncendiary, uniqueID := 2 }) :=
  (getThrownGrenade_alias
    { sampleParser with
      thrownGrenades := [(0, [(EquipmentType.EqIncendiary,
        [{ type := EquipmentType.EqIncendiary, uniqueID := 1 },
         { type := EquipmentType.EqIncendiary, uniqueID := 2 }])])] } 0).1 rfl (by decide)

/-- C17: for every non-nil player p and equipment w, after addThrownGrenade(p, w)
the call getThrownGrenade(p, w.Type) returns w, and a following
deleteThrownGrenade(p, w.Type) restores p's list for w.Type to what it was
before the add; the lists of every other player and of every other type read
as before too. -/
theorem thrownGrenade_add_get_delete (p : Parser) (ptr : PlayerPtr) (w : Equipment) :
    getThrownGrenade (addThrownGrenade p (some ptr) w) (some ptr) w.type = some (some w) ∧
    ∀ (pl : PlayerPtr) (t : EquipmentType),
      thrownList (deleteThrownGrenade (addThrownGrenade p (some ptr) w) (some ptr) w.type) pl t =
        thrownList p pl t := by
  constructor
  · have h2 : thrownList (addThrownGrenade p (some ptr) w) ptr w.type =
        thrownList p ptr w.type ++ [w] := by
      rw [thrownList_addThrownGrenade]
      simp
    rw [getThrownGrenade_of_thrownList _ _ _ (by simp [h2]), h2]
    simp
  · intro pl t
    have h2 : thrownList (addThrownGrenade p (some ptr) w) ptr w.type =
        thrownList p ptr w.type ++ [w] := by
      rw [thrownList_addThrownGrenade]
      simp
    rw [thrownList_deleteThrownGrenade _ _ _ (by simp [h2]), h2, thrownList_addThrownGrenade]
    by_cases hc : pl = ptr ∧ t = w.type
    · obtain ⟨hp, ht⟩ := hc
      subst hp
      subst ht
      simp
    · simp [hc]

/-- C18: for every bomb event whose site value s differs from both
bombsiteA.index and bombsiteB.index and for which the trigger registered under
s contains bombsiteA.center, bombEvent returns Site = BombsiteA with no error,
dispatches nothing (so no ParserWarn), sets bombsiteA.index to s and leaves
bombsiteB.index and everything else unchanged. -/
theorem bombEvent_trigger_fallback_A (env : Env) (data : Data) (p : Parser) (t : Trigger)
    (hA : bombEventSite data ≠ p.bombsiteA.index)
    (hB : bombEventSite data ≠ p.bombsiteB.index)
    (ht : mapGet p.triggers (bombEventSite data) = some t)
    (hc : env.contains t p.bombsiteA.center = true) :
    bombEvent env data p =
      (Except.ok { player := playerByUserID32 p (getValShort data "userid"),
                   site := Bombsite.BombsiteA },
        { p with bombsiteA := { p.bombsiteA with index := bombEventSite data } }) := by
  simp [bombEvent, hA, hB, ht, hc]

/-- C18, at a sample state: site 17 is unknown, the trigger 17 contains the
center of bombsite A, and bombsiteA.index becomes 17. -/
theorem bombEvent_trigger_fallback_A_witness :
    bombEvent { sampleEnv with contains := fun _ _ => true } [("site", { valShort := 17 })]
        { sampleParser with triggers := [(17, {})] } =
      (Except.ok { player := none, site := Bombsite.BombsiteA },
        { sampleParser with triggers := [(17, {})], bombsiteA := { index := 17 } }) :=
  bombEvent_trigger_fallback_A { sampleEnv with contains := fun _ _ => true }
    [("site", { valShort := 17 })] { sampleParser with triggers := [(17, {})] } {}
    (by decide) (by decide) rfl rfl

/-- C19: whenever handleGameEvent resolves the descriptor and completes, the
events it has dispatched contain an "unknown event" ParserWarn if and only if
the descriptor's name is not a key of gameEventNameToHandler (and then it is
the warning built from that name); for a name that is a key with a nil handler,
as player_spawn is, the call dispatches only the GenericGameEvent and changes
nothing else once the descriptors are available (the parser after the
descriptor step is the parser itself whenever a descriptor list is stored). -/
theorem handleGameEvent_unknown_warn (env : Env) (ge : GameEvent) (p p1 q : Parser)
    (desc : Descriptor)
    (hload : loadDescriptors env p = Except.ok p1)
    (hdesc : mapGet (p1.gameEventDescs.getD []) ge.eventid = some desc)
    (hq : handleGameEvent env ge p = some q) :
    gameEventNameToHandler "player_spawn" = some none ∧
    (p.gameEventDescs ≠ none → p1 = p) ∧
    (gameEventNameToHandler desc.name = some none →
      ∃ data : Data, mapGameEventData (some desc) ge = some data ∧
        q = dispatch p1 (Event.GenericGameEvent desc.name data)) ∧
    ∃ new : List Event, q.dispatched = p.dispatched ++ new ∧
      ((∃ e ∈ new, isUnknownEventWarn e = true) ↔ gameEventNameToHandler desc.name = none) ∧
      (gameEventNameToHandler desc.name = none →
        Event.ParserWarn (env.unknownEventMessage desc.name) WarnType.WarnTypeUndefined ∈ new) := by
  have hp1 := loadDescriptors_known env p p1 hload
  have hstored : p.gameEventDescs ≠ none → p1 = p := by
    intro hne
    unfold loadDescriptors at hload
    split at hload
    · cases hload
      rfl
    · rename_i hnone
      exact absurd hnone hne
  simp only [handleGameEvent, hload, hdesc, Option.map_some', Option.getD_some] at hq
  cases hdata : mapGameEventData (some desc) ge with
  | none => simp [hdata] at hq
  | some data =>
    simp only [hdata] at hq
    obtain ⟨p2, hp2, hq2⟩ := Option.map_eq_some'.mp hq
    subst hq2
    refine ⟨by decide, hstored, ?_, ?_⟩
    · intro hnil
      simp only [hnil, Option.some.injEq] at hp2
      subst hp2
      exact ⟨data, rfl, rfl⟩
    · cases hname : gameEventNameToHandler desc.name with
      | none =>
        simp only [hname, Option.some.injEq] at hp2
        subst hp2
        obtain ⟨pre, hpre, _⟩ := hp1
        refine ⟨pre ++ [Event.ParserWarn (env.unknownEventMessage desc.name)
          WarnType.WarnTypeUndefined, Event.GenericGameEvent desc.name data], ?_, ?_, ?_⟩
        · simp [dispatch, hpre]
        · constructor
          · intro _
            trivial
          · intro _
            exact ⟨Event.ParserWarn (env.unknownEventMessage desc.name)
              WarnType.WarnTypeUndefined, by simp, rfl⟩
        · intro _
          simp
      | some entry =>
        have h12 : AppendsKnown p1 p2 := by
          cases entry with
          | none =>
            simp only [hname, Option.some.injEq] at hp2
            subst hp2
            exact appendsKnown_refl p1
          | some handler =>
            simp only [hname] at hp2
            exact callHandler_known env handler data p1 p2 hp2
        obtain ⟨pre, hpre, hno⟩ := appendsKnown_trans hp1 h12
        refine ⟨pre ++ [Event.GenericGameEvent desc.name data], ?_, ?_, ?_⟩
        · simp [dispatch, hpre]
        · constructor
          · rintro ⟨e, he, hu⟩
            rcases List.mem_append.mp he with h | h
            · rw [hno e h] at hu
              cases hu
            · simp only [List.mem_singleton] at h
              subst h
              cases hu
          · intro h
            cases h
        · intro h
          cases h

/-- C19, at a sample state that has stored the descriptor of hltv_status, a
name with a nil handler: only the GenericGameEvent is dispatched. -/
theorem handleGameEvent_unknown_warn_witness :
    ∃ data : Data, mapGameEventData (some sampleDescriptor)
        { eventid := 4, keys := [{ valLong := 3 }] } = some data ∧
      dispatch sampleParserWithDescs
          (Event.GenericGameEvent "hltv_status" [("clients", { valLong := 3 })]) =
        dispatch sampleParserWithDescs (Event.GenericGameEvent sampleDescriptor.name data) :=
  (handleGameEvent_unknown_warn sampleEnv { eventid := 4, keys := [{ valLong := 3 }] }
    sampleParserWithDescs sampleParserWithDescs
    (dispatch sampleParserWithDescs
      (Event.GenericGameEvent "hltv_status" [("clients", { valLong := 3 })]))
    sampleDescriptor rfl rfl rfl).2.2.1 (by decide)

/-- C20: for every descriptor d and event e that carries at least as many keys
as d, mapGameEventData(d, e) returns a map whose key set is the set of d's key
names (each stored once) and in which each name maps to the event key at the
position of the last descriptor key with that name; with pairwise distinct key
names the map has exactly len(d.Keys) entries. -/
theorem mapGameEventData_zips (d : Descriptor) (e : GameEvent)
    (hlen : d.keys.length ≤ e.keys.length) :
    ∃ data : Data, mapGameEventData (some d) e = some data ∧
      (data.map Prod.fst).Nodup ∧
      (∀ name : String, name ∈ data.map Prod.fst ↔ name ∈ d.keys.map KeyDesc.name) ∧
      (∀ (i : Nat) (k : KeyDesc) (v : KeyT), d.keys[i]? = some k → e.keys[i]? = some v →
        (∀ (j : Nat) (k2 : KeyDesc), i < j → d.keys[j]? = some k2 → k2.name ≠ k.name) →
        mapGet data k.name = some v) ∧
      ((d.keys.map KeyDesc.name).Nodup → data.length = d.keys.length) := by
  obtain ⟨data, hdata⟩ := mapGameEventDataFrom_isSome [] d.keys e.keys hlen
  refine ⟨data, hdata, ?_, ?_, ?_, ?_⟩
  · exact mapGameEventDataFrom_nodup [] d.keys e.keys data hdata (by simp)
  · intro name
    rw [mapGameEventDataFrom_keys [] d.keys e.keys data hdata name]
    simp
  · intro i k v hk hv hlast
    exact mapGameEventDataFrom_value [] d.keys e.keys data hdata i k v hk hv hlast
  · intro hnodup
    rw [mapGameEventDataFrom_length [] d.keys e.keys data hdata hnodup (by simp)]
    simp

/-- C20, at a sample descriptor with the key names x, y, x and an event with
four keys: x maps to the third event key, y to the second. -/
theorem mapGameEventData_zips_witness :
    ∃ data : Data,
      mapGameEventData (some { keys := [{ name := "x" }, { name := "y" }, { name := "x" }] })
        { keys := [{ valLong := 1 }, { valLong := 2 }, { valLong := 3 }, { valLong := 4 }] } =
        some data ∧
      mapGet data "x" = some { valLong := 3 } ∧ mapGet data "y" = some { valLong := 2 } := by
  obtain ⟨data, hdata, _, _, hval, _⟩ := mapGameEventData_zips
    { keys := [{ name := "x" }, { name := "y" }, { name := "x" }] }
    { keys := [{ valLong := 1 }, { valLong := 2 }, { valLong := 3 }, { valLong := 4 }] }
    (by decide)
  refine ⟨data, hdata, ?_, ?_⟩
  · refine hval 2 { name := "x" } { valLong := 3 } rfl rfl ?_
    intro j k2 hj hk2
    have h3 : 3 ≤ j := hj
    have hnone : ([{ name := "x" }, { name := "y" }, { name := "x" }] : List KeyDesc)[j]? =
        none := List.getElem?_eq_none (by simpa using h3)
    have hk3 : ([{ name := "x" }, { name := "y" }, { name := "x" }] : List KeyDesc)[j]? =
        some k2 := hk2
    rw [hnone] at hk3
    cases hk3
  · refine hval 1 { name := "y" } { valLong := 2 } rfl rfl ?_
    intro j k2 hj hk2
    have hk3 : ([{ name := "x" }, { name := "y" }, { name := "x" }] : List KeyDesc)[j]? =
        some k2 := hk2
    match j, hj, hk3 with
    | 2, _, h =>
      simp only [List.getElem?_cons_succ, List.getElem?_cons_zero, Option.some.injEq] at h
      subst h
      decide
    | n + 3, _, h =>
      simp at h

/-- C21, at two failing inputs: handleGameEvent does not complete for a message
whose event id (99) has no stored descriptor, where mapGameEventData reads
`d.Keys` of a nil descriptor, nor for a message that carries no key while its
descriptor lists one, where `e.Keys[i]` is out of range. -/
theorem handleGameEvent_fails_without_descriptor_or_keys :
    handleGameEvent sampleEnv { eventid := 99 } sampleParserWithDescs = none ∧
    handleGameEvent sampleEnv { eventid := 4, keys := [] } sampleParserWithDescs = none :=
  ⟨rfl, rfl⟩

/-- C22: playerConnect widens the user id u of a human player (not a bot, xuid
above 0, u <= 255) to u | (0xFF << 8) and stores the raw player under the
widened id, and it leaves the id of a bot, of a player without xuid and of an
id above 255 as it is.  For every u with 0 <= u <= 255 the widened id is at
most 0xFFFF and the masking of playerByUserID32 gives u again, so the lookup of
the widened id is the lookup of u; for every id greater than 0xFFFF the
masking leaves the id unchanged. -/
theorem userID_widen_mask_roundtrip (env : Env) (p : Parser) :
    (∀ data : Data, getValShort data "userid" ≤ 255 → getValBool data "bot" = false →
      0 < getValUint64 data "xuid" →
      playerConnect env data p =
        some (setRawPlayer p (Int.lor (getValShort data "userid") 65280)
          { userID := Int.lor (getValShort data "userid") 65280,
            name := getValString data "name", guid := getValString data "networkid",
            xuid := getValUint64 data "xuid", isFakePlayer := false })) ∧
    (∀ (data : Data) (xuid : Nat), getValShort data "userid" ≤ 255 →
      getValBool data "bot" = false → getValUint64 data "xuid" = 0 →
      getValString data "networkid" ≠ "" →
      guidToSteamID64 env (getValString data "networkid") = Except.ok xuid → 0 < xuid →
      playerConnect env data p =
        some (setRawPlayer p (Int.lor (getValShort data "userid") 65280)
          { userID := Int.lor (getValShort data "userid") 65280,
            name := getValString data "name", guid := getValString data "networkid",
            xuid := xuid, isFakePlayer := false })) ∧
    (∀ data : Data,
      (getValString data "networkid" = "" ∨ 0 < getValUint64 data "xuid") →
      (getValBool data "bot" = true ∨ getValUint64 data "xuid" = 0 ∨
        255 < getValShort data "userid") →
      playerConnect env data p =
        some (setRawPlayer p (getValShort data "userid")
          { userID := getValShort data "userid",
            name := getValString data "name", guid := getValString data "networkid",
            xuid := getValUint64 data "xuid", isFakePlayer := getValBool data "bot" })) ∧
    (∀ u : Int, 0 ≤ u → u ≤ 255 →
      Int.lor u 65280 ≤ 65535 ∧ Int.land (Int.lor u 65280) 255 = u ∧
      playerByUserID32 p (Int.lor u 65280) = playerByUserID p u) ∧
    (∀ id : Int, 65535 < id → playerByUserID32 p id = playerByUserID p id) := by
  refine ⟨?_, ?_, ?_, ?_, ?_⟩
  · intro data hu hbot hx
    have hx0 : ¬ getValUint64 data "xuid" = 0 := Nat.pos_iff_ne_zero.mp hx
    simp [playerConnect, hu, hbot, hx, hx0]
  · intro data xuid hu hbot hx0 hguid hok hx
    simp [playerConnect, hu, hbot, hx0, hguid, hok, hx]
  · intro data hskip hno
    have hcond : ¬ (getValString data "networkid" ≠ "" ∧ getValUint64 data "xuid" = 0) := by
      rintro ⟨h1, h2⟩
      rcases hskip with h | h
      · exact h1 h
      · omega
    rcases hno with h | h | h
    · simp [playerConnect, hcond, h]
    · have hg : getValString data "networkid" = "" := by
        rcases hskip with h1 | h1
        · exact h1
        · omega
      simp [playerConnect, hg, h]
    · have h255 : ¬ getValShort data "userid" ≤ 255 := not_le.mpr h
      simp [playerConnect, hcond, h255]
  · intro u h0 h255
    have key : Int.lor u 65280 ≤ 65535 ∧ Int.land (Int.lor u 65280) 255 = u := by
      interval_cases u <;> exact ⟨by decide, by decide⟩
    refine ⟨key.1, key.2, ?_⟩
    simp only [playerByUserID32, key.1, if_true, key.2]
  · intro id hid
    have hnot : ¬ id ≤ 65535 := not_le.mpr hid
    simp only [playerByUserID32, hnot, if_false]

/-- C22, at the user id 7 in the sample state: playerConnect stores the human
player with user id 7 and xuid 5 under the widened id 65287, and the widened
id resolves to the player stored under 7. -/
theorem userID_widen_mask_roundtrip_witness :
    playerConnect sampleEnv [("userid", { valShort := 7 }), ("xuid", { valUint64 := 5 })]
        sampleParser =
      some (setRawPlayer sampleParser 65287 { userID := 65287, xuid := 5 }) ∧
    playerByUserID32 sampleParser 65287 = playerByUserID sampleParser 7 :=
  ⟨(userID_widen_mask_roundtrip sampleEnv sampleParser).1
      [("userid", { valShort := 7 }), ("xuid", { valUint64 := 5 })] (by decide) rfl
      (by decide),
    ((userID_widen_mask_roundtrip sampleEnv sampleParser).2.2.2.1 7 (by decide)
      (by decide)).2.2⟩

/-- C23, as stated, fails: the buffer holds two updates that both set the index
to the read value 4 plus 1, and the two items returned have the same Index 5. -/
theorem parseStringTable_repeats_index :
    (parseStringTable sampleEnv [8, 64, 0] 2 {} {}).1 =
      [{ index := 5, key := [], value := [] }, { index := 5, key := [], value := [] }] := by
  decide

/-- C23, amended: for every input buffer and update count (an int32), when every
update that parseStringTable decodes is an increment of the index, the k-th
item returned (counting from 0) has Index k, so the items have pairwise
distinct Index values; an update with a fixed index position gives its item
the value read plus 1, which may repeat. -/
theorem parseStringTable_increment_indices (env : Env) (buf : List Nat) (numUpdates : Int)
    (cfg : StringTableConfig) (p : Parser)
    (hn : numUpdates < 2 ^ 31)
    (hincr : ∀ k, k < (parseStringTable env buf numUpdates cfg p).1.length →
      ∃ r1, ReadBit (parseStringTableLoop env cfg k
        { r := NewSmallBitReader buf, index := -1, keys := [] } []).2.1.r = some (true, r1)) :
    (∀ (k : Nat) (item : StringTableItem),
      (parseStringTable env buf numUpdates cfg p).1[k]? = some item → item.index = k) ∧
    ((parseStringTable env buf numUpdates cfg p).1.map StringTableItem.index).Nodup := by
  have hitems : (parseStringTable env buf numUpdates cfg p).1 = [] ∨
      (parseStringTable env buf numUpdates cfg p).1 =
        (parseStringTableLoop env cfg numUpdates.toNat
          { r := NewSmallBitReader buf, index := -1, keys := [] } []).1 := by
    unfold parseStringTable
    split
    · exact Or.inl rfl
    · right
      split <;> simp_all
  have hidx : ∀ (k : Nat) (item : StringTableItem),
      (parseStringTable env buf numUpdates cfg p).1[k]? = some item → item.index = k := by
    rcases hitems with h | h
    · intro k item hk
      simp [h] at hk
    · rw [h] at hincr ⊢
      intro k item hk
      have := parseStringTableLoop_indices env cfg numUpdates.toNat
        { r := NewSmallBitReader buf, index := -1, keys := [] } (by simp)
        (by simp only; omega) hincr k item hk
      simpa using this
  refine ⟨hidx, ?_⟩
  rw [List.nodup_iff_injective_get]
  intro a b hab
  simp only [List.get_eq_getElem, List.getElem_map] at hab
  have ha := a.isLt
  have hb := b.isLt
  simp only [List.length_map] at ha hb
  have h1 := hidx a.val _ (List.getElem?_eq_getElem ha)
  have h2 := hidx b.val _ (List.getElem?_eq_getElem hb)
  rw [h1, h2] at hab
  exact Fin.ext (by exact_mod_cast hab)

/-- C23, amended, at a sample buffer with two increments: the items have the
Index values 0 and 1. -/
theorem parseStringTable_increment_indices_witness :
    ((parseStringTable sampleEnv [11, 19, 3, 112, 16, 198, 0, 0] 2 {} {}).1.map
      StringTableItem.index).Nodup :=
  (parseStringTable_increment_indices sampleEnv [11, 19, 3, 112, 16, 198, 0, 0] 2 {} {}
    (by decide)
    (by
      intro k hk
      have hlen : (parseStringTable sampleEnv [11, 19, 3, 112, 16, 198, 0, 0] 2 {} {}).1.length
          = 2 := by decide
      rw [hlen] at hk
      interval_cases k
      · exact ⟨_, rfl⟩
      · exact ⟨_, rfl⟩)).2

/-- C24: in parseStringTable, at the end of every update iteration the key
history holds at most 32 keys; an update with a key turns the history into the
last 32 keys of the old history followed by the new key (the oldest key is
evicted first, the order is kept), and an update without a key leaves the
history unchanged. -/
theorem keyHistory_bounded (env : Env) (cfg : StringTableConfig) (st st1 : UpdateState)
    (item : StringTableItem)
    (h : parseStringTableUpdate env cfg st = some (item, st1))
    (hlen : st.keys.length ≤ stringtableKeyHistorySize) :
    st1.keys.length ≤ stringtableKeyHistorySize ∧
    (∃ (index : Int) (r1 : BitReader),
      readStringTableIndex st.r st.index = some (index, r1) ∧
      (∀ r2, ReadBit r1 = some (false, r2) → st1.keys = st.keys) ∧
      (∀ r2, ReadBit r1 = some (true, r2) →
        st1.keys = (st.keys ++ [item.key]).drop
          ((st.keys ++ [item.key]).length - stringtableKeyHistorySize))) ∧
    (∀ n : Nat, (parseStringTableLoop env cfg n st []).2.1.keys.length ≤
      stringtableKeyHistorySize) ∧
    (∀ (buf : List Nat) (n : Nat),
      (parseStringTableLoop env cfg n
        { r := NewSmallBitReader buf, index := -1, keys := [] } []).2.1.keys.length ≤
      stringtableKeyHistorySize) := by
  have hlen2 : st.keys.length ≤ 32 := hlen
  obtain ⟨index, r1, r2, hidx, hkey⟩ := parseStringTableUpdate_parts env cfg st st1 item h
  obtain ⟨hno, hyes, _, _⟩ := readStringTableKey_cases r1 st.keys item.key st1.keys r2 hkey
  have hstep : st1.keys.length ≤ 32 := by
    have := parseStringTableLoop_keys_bounded env cfg 1 st hlen2
    rw [parseStringTableLoop_succ env cfg 0 st st1 item h] at this
    simpa [parseStringTableLoop] using this
  refine ⟨hstep, ⟨index, r1, hidx, fun ra hb => (hno ra hb).2, ?_⟩, ?_, ?_⟩
  · intro ra hb
    rw [hyes ra hb]
    exact pushKeyHistory_eq _ _ hlen2
  · intro n
    exact parseStringTableLoop_keys_bounded env cfg n st hlen2
  · intro buf n
    exact parseStringTableLoop_keys_bounded env cfg n _ (by simp)

/-- C24, at a sample update that reads the key "a" into an empty history. -/
theorem keyHistory_bounded_witness :
    ([[97]] : List GoString).length ≤ stringtableKeyHistorySize :=
  (keyHistory_bounded sampleEnv {}
    { r := NewSmallBitReader [11, 3, 0], index := -1, keys := [] }
    { r := [false, false, false, false], index := 0, keys := [[97]] }
    { index := 0, key := [97], value := [] } (by decide) (by decide)).1

/-- C25: in parseStringTable, for an update that has a key and uses the history
with position pos and size size, and with t the NUL-terminated string read
next: the key is t when pos >= len(history); it is history[pos] followed by t
when size > len(history[pos]); otherwise it is the first size bytes of
history[pos] followed by t.  For an update that has a key and does not use the
history the key is t, and for an update without a key it is the empty string. -/
theorem stringTableKey_rules (env : Env) (cfg : StringTableConfig) (st st1 : UpdateState)
    (item : StringTableItem)
    (h : parseStringTableUpdate env cfg st = some (item, st1)) :
    ∃ (index : Int) (r1 : BitReader),
      readStringTableIndex st.r st.index = some (index, r1) ∧
      (∀ r2, ReadBit r1 = some (false, r2) → item.key = []) ∧
      (∀ r2 r3, ReadBit r1 = some (true, r2) → ReadBit r2 = some (false, r3) →
        ∃ t r4, ReadString r3 = some (t, r4) ∧ item.key = t) ∧
      (∀ r2 r3 pos r4 size r5, ReadBit r1 = some (true, r2) → ReadBit r2 = some (true, r3) →
        ReadInt 5 r3 = some (pos, r4) → ReadInt 5 r4 = some (size, r5) →
        ∃ t r6, ReadString r5 = some (t, r6) ∧
          (pos ≥ st.keys.length → item.key = t) ∧
          (pos < st.keys.length → size > (st.keys.getD pos []).length →
            item.key = st.keys.getD pos [] ++ t) ∧
          (pos < st.keys.length → size ≤ (st.keys.getD pos []).length →
            item.key = (st.keys.getD pos []).take size ++ t)) := by
  obtain ⟨index, r1, r2, hidx, hkey⟩ := parseStringTableUpdate_parts env cfg st st1 item h
  obtain ⟨hno, _, hplain, hhist⟩ :=
    readStringTableKey_cases r1 st.keys item.key st1.keys r2 hkey
  refine ⟨index, r1, hidx, fun ra hb => (hno ra hb).1, hplain, ?_⟩
  intro ra rb pos rc size rd h1 h2 h3 h4
  obtain ⟨t, re, hs, hk⟩ := hhist ra rb pos rc size rd h1 h2 h3 h4
  refine ⟨t, re, hs, ?_, ?_, ?_⟩
  · intro hpos
    rw [hk]
    simp [historyKey, hpos]
  · intro hpos hsize
    rw [hk]
    simp only [historyKey, if_neg (Nat.not_le.mpr hpos), if_pos hsize]
  · intro hpos hsize
    rw [hk]
    simp only [historyKey, if_neg (Nat.not_le.mpr hpos), if_neg (Nat.not_lt.mpr hsize)]

/-- C25, at a sample update with the history ["ab"], position 0, size 1 and the
string "c": the key is "ac". -/
theorem stringTableKey_rules_witness :
    ∃ (index : Int) (r1 : BitReader),
      readStringTableIndex (NewSmallBitReader [7, 97, 12, 0]) 0 = some (index, r1) ∧
      (∀ r2, ReadBit r1 = some (false, r2) → ([97, 99] : GoString) = []) ∧
      (∀ r2 r3, ReadBit r1 = some (true, r2) → ReadBit r2 = some (false, r3) →
        ∃ t r4, ReadString r3 = some (t, r4) ∧ ([97, 99] : GoString) = t) ∧
      (∀ r2 r3 pos r4 size r5, ReadBit r1 = some (true, r2) → ReadBit r2 = some (true, r3) →
        ReadInt 5 r3 = some (pos, r4) → ReadInt 5 r4 = some (size, r5) →
        ∃ t r6, ReadString r5 = some (t, r6) ∧
          (pos ≥ 1 → ([97, 99] : GoString) = t) ∧
          (pos < 1 → size > (([[97, 98]] : List GoString).getD pos []).length →
            ([97, 99] : GoString) = ([[97, 98]] : List GoString).getD pos [] ++ t) ∧
          (pos < 1 → size ≤ (([[97, 98]] : List GoString).getD pos []).length →
            ([97, 99] : GoString) =
              (([[97, 98]] : List GoString).getD pos []).take size ++ t)) :=
  stringTableKey_rules sampleEnv {}
    { r := NewSmallBitReader [7, 97, 12, 0], index := 0, keys := [[97, 98]] }
    { r := [false, false], index := 1, keys := [[97, 98], [97, 99]] }
    { index := 1, key := [97, 99], value := [] } (by decide)

/-- C26, as stated, fails: for an empty buffer and three updates no read is
made, so none fails, and parseStringTable returns no item instead of three
(and dispatches nothing). -/
theorem parseStringTable_empty_buffer :
    parseStringTable sampleEnv [] 3 {} {} = ([], {}) := by
  rfl

/-- C26, amended: for a non-empty buffer, if a read (or the decompression of a
value) fails while parseStringTable decodes the k-th of numUpdates updates, the
failure does not reach the caller: the call returns the k-1 items decoded
before and dispatches exactly one ParserWarn of type
StringTableParsingFailure; when nothing fails it returns exactly numUpdates
items (none for a negative count) and dispatches no warning.  For an empty
buffer the call returns no item and dispatches nothing. -/
theorem parseStringTable_recovers (env : Env) (buf : List Nat) (numUpdates : Int)
    (cfg : StringTableConfig) (p : Parser) :
    (buf = [] → parseStringTable env buf numUpdates cfg p = ([], p)) ∧
    (buf ≠ [] →
      ((parseStringTable env buf numUpdates cfg p).2 = p ∧
        (parseStringTable env buf numUpdates cfg p).1.length = numUpdates.toNat ∧
        parseStringTableLoop env cfg numUpdates.toNat
            { r := NewSmallBitReader buf, index := -1, keys := [] } [] =
          ((parseStringTable env buf numUpdates cfg p).1,
            (parseStringTableLoop env cfg numUpdates.toNat
              { r := NewSmallBitReader buf, index := -1, keys := [] } []).2.1, false)) ∨
      ((parseStringTable env buf numUpdates cfg p).2 =
          dispatch p (Event.ParserWarn "failed to parse stringtable properly"
            WarnType.WarnTypeStringTableParsingFailure) ∧
        (parseStringTable env buf numUpdates cfg p).1.length < numUpdates.toNat ∧
        ∃ st : UpdateState,
          parseStringTableLoop env cfg (parseStringTable env buf numUpdates cfg p).1.length
              { r := NewSmallBitReader buf, index := -1, keys := [] } [] =
            ((parseStringTable env buf numUpdates cfg p).1, st, false) ∧
          parseStringTableUpdate env cfg st = none)) := by
  constructor
  · intro hb
    simp [parseStringTable, hb]
  · intro hb
    have hlen : ¬ buf.length = 0 := fun h0 => hb (List.length_eq_zero.mp h0)
    have hl := parseStringTableLoop_length env cfg numUpdates.toNat
      { r := NewSmallBitReader buf, index := -1, keys := [] }
    have hf := parseStringTableLoop_failure env cfg numUpdates.toNat
      { r := NewSmallBitReader buf, index := -1, keys := [] }
    unfold parseStringTable
    simp only [if_neg hlen]
    cases hloop : parseStringTableLoop env cfg numUpdates.toNat
        { r := NewSmallBitReader buf, index := -1, keys := [] } [] with
    | mk items rest =>
      obtain ⟨st, failed⟩ := rest
      rw [hloop] at hl hf
      cases failed with
      | false =>
        left
        exact ⟨rfl, hl.1 rfl, rfl⟩
      | true =>
        right
        exact ⟨rfl, hl.2 rfl, st, (hf rfl).1, (hf rfl).2⟩

/-- C26, amended, at a sample buffer that holds two updates while three are
announced: the two items are returned and the warning is dispatched. -/
theorem parseStringTable_recovers_witness :
    (parseStringTable sampleEnv [11, 19, 3, 112, 16, 198, 0, 0] 3 {} {}).1.length = 2 ∧
    (parseStringTable sampleEnv [11, 19, 3, 112, 16, 198, 0, 0] 3 {} {}).2.dispatched =
      [Event.ParserWarn "failed to parse stringtable properly"
        WarnType.WarnTypeStringTableParsingFailure] := by
  rcases (parseStringTable_recovers sampleEnv [11, 19, 3, 112, 16, 198, 0, 0] 3 {} {}).2
    (by decide) with h | h
  · have h2 : (parseStringTable sampleEnv [11, 19, 3, 112, 16, 198, 0, 0] 3 {} {}).1.length
        = 2 := by decide
    rw [h2] at h
    exact absurd h.2.1 (by decide)
  · refine ⟨by decide, ?_⟩
    rw [h.1]
    rfl

/-- C27, as stated, fails: the instancebaseline table holds one item whose key
4294967296 is a decimal integer; SetInstanceBaseline rejects the id as out of
bounds, processStringTable fails and no baseline is set. -/
theorem processStringTable_rejects_large_class_id :
    (parseStringTable sampleEnv
        [163, 145, 201, 161, 201, 177, 185, 145, 201, 177, 1, 24, 0, 224, 0] 1
        { name := "instancebaseline" } {}).1 =
      [{ index := 0, key := goString "4294967296", value := [7] }] ∧
    Atoi (goString "4294967296") = some 4294967296 ∧
    processStringTable sampleEnv
        { name := "instancebaseline", numEntries := 1,
          stringData := [163, 145, 201, 161, 201, 177, 185, 145, 201, 177, 1, 24, 0, 224, 0] }
        {} = none := by
  refine ⟨by decide, by decide, rfl⟩

/-- C27, amended: when processStringTable handles an instancebaseline table and
completes, every parsed item whose key is empty or matches ^\d+:\d+$ leaves all
class baselines unchanged, and every parsed item whose key parses to an integer
c sets the baseline of class c, with 0 <= c <= MaxInt32, to that item's value
bytes, a later item for the same c overriding an earlier one; baselines of
classes not named by any item are unchanged.  The call completes when every
key is empty, matches ^\d+:\d+$ or parses to an integer within 0..MaxInt32 (any
other key makes it fail). -/
theorem processStringTable_baselines (env : Env) (tab : CreateStringTable) (p : Parser)
    (data : List Nat)
    (hname : tab.name = stNameInstanceBaseline)
    (hprep : prepareStringTable env tab p = some (data, p)) :
    (∀ (c : Int) (it : StringTableItem),
      it.key = [] ∨ instanceBaselineKeyRegexMatch it.key = true → setsBaseline c it = false) ∧
    (∀ q : Parser, processStringTable env tab p = some q →
      (∀ c : Int, (∀ it ∈ (parsedStringTable env tab data p).1, setsBaseline c it = false) →
        mapGet q.classBaselines c = mapGet p.classBaselines c) ∧
      (∀ (c : Int) (pre post : List StringTableItem) (item : StringTableItem),
        (parsedStringTable env tab data p).1 = pre ++ item :: post →
        setsBaseline c item = true → (∀ it ∈ post, setsBaseline c it = false) →
        mapGet q.classBaselines c = some item.value ∧ 0 ≤ c ∧ c ≤ 2147483647)) ∧
    ((∀ it ∈ (parsedStringTable env tab data p).1,
        it.key = [] ∨ instanceBaselineKeyRegexMatch it.key = true ∨
          ∃ c, Atoi it.key = some c ∧ 0 ≤ c ∧ c ≤ 2147483647) →
      ∃ q : Parser, processStringTable env tab p = some q) := by
  have hnot : ¬ tab.name = stNameModelPreCache := by
    rw [hname]
    decide
  have hsame : (parsedStringTable env tab data p).2.classBaselines = p.classBaselines := by
    rcases parseStringTable_state env data tab.numEntries
      { name := tab.name, userDataFixed := tab.userDataFixedSize,
        userDataSize := tab.userDataSize, flags := tab.flags,
        variantBitCount := tab.usingVarintBitcounts } p with h | h
    · simp only [parsedStringTable, h]
    · simp only [parsedStringTable, h]
      rfl
  refine ⟨?_, ?_, ?_⟩
  · intro c it hskip
    rcases hskip with h1 | h1 <;> simp [setsBaseline, h1]
  · intro q hq
    simp only [processStringTable, hprep, hname] at hq
    cases hrun : forEachM (processStringTableItem env stNameInstanceBaseline)
        (parsedStringTable env tab data p).1 (parsedStringTable env tab data p).2 with
    | none =>
      simp [hrun] at hq
    | some p3 =>
      have hq3 : p3 = q := by
        have hdec : ¬ stNameInstanceBaseline = stNameModelPreCache := by decide
        simpa [hrun, hdec] using hq
      subst hq3
      constructor
      · intro c hnone
        rw [baseline_items_unchanged env _ _ p3 c hrun hnone, hsame]
      · intro c pre post item hsplit hsets hnone
        rw [hsplit] at hrun
        exact baseline_items_last env pre post item _ p3 c hrun hsets hnone
  · intro hok
    obtain ⟨q, hq⟩ := baseline_items_complete env (parsedStringTable env tab data p).1
      (parsedStringTable env tab data p).2 hok
    refine ⟨q, ?_⟩
    have hdec : ¬ stNameInstanceBaseline = stNameModelPreCache := by decide
    simp only [processStringTable, hprep, hname, hq, hdec, if_false]

set_option maxRecDepth 8000 in
/-- C27, amended, at a sample table with the keys 12, 12:3 and 12: the call
completes and class 12 gets the value of the last item. -/
theorem processStringTable_baselines_witness :
    ∃ q : Parser,
      processStringTable sampleEnv
        { name := "instancebaseline", numEntries := 3,
          stringData := [139, 145, 1, 40, 0, 224, 32, 97, 49, 50, 58, 51, 0, 3, 0, 4, 44, 70,
            6, 96, 0, 0, 4] } {} = some q :=
  (processStringTable_baselines sampleEnv
    { name := "instancebaseline", numEntries := 3,
      stringData := [139, 145, 1, 40, 0, 224, 32, 97, 49, 50, 58, 51, 0, 3, 0, 4, 44, 70,
        6, 96, 0, 0, 4] } {}
    [139, 145, 1, 40, 0, 224, 32, 97, 49, 50, 58, 51, 0, 3, 0, 4, 44, 70, 6, 96, 0, 0, 4]
    rfl rfl).2.2
    (by
      have hitems : (parsedStringTable sampleEnv
          { name := "instancebaseline", numEntries := 3,
            stringData := [139, 145, 1, 40, 0, 224, 32, 97, 49, 50, 58, 51, 0, 3, 0, 4, 44, 70,
              6, 96, 0, 0, 4] }
          [139, 145, 1, 40, 0, 224, 32, 97, 49, 50, 58, 51, 0, 3, 0, 4, 44, 70, 6, 96, 0, 0, 4]
          {}).1 =
          [{ index := 0, key := [49, 50], value := [7, 9] },
           { index := 1, key := [49, 50, 58, 51], value := [1] },
           { index := 2, key := [49, 50], value := [8] }] := by decide
      rw [hitems]
      intro it hit
      simp only [List.mem_cons, List.mem_nil_iff, or_false] at hit
      rcases hit with h | h | h <;> subst h
      · exact Or.inr (Or.inr ⟨12, by decide, by decide, by decide⟩)
      · exact Or.inr (Or.inl (by decide))
      · exact Or.inr (Or.inr ⟨12, by decide, by decide, by decide⟩))

/-- C28, at a failing input: the modelprecache table holds one item with index 0
and the key "flashbang"; after processStringTable the slot 0 of modelPreCache
holds the empty string that the padding put there, not the key, and no
grenade model index is recorded. -/
theorem processStringTable_modelprecache_keeps_padding :
    (parseStringTable sampleEnv [51, 99, 11, 155, 67, 19, 11, 115, 59, 3, 0] 1
        { name := "modelprecache" } {}).1 =
      [{ index := 0, key := goString "flashbang", value := [] }] ∧
    (processStringTable sampleEnv
        { name := "modelprecache", numEntries := 1,
          stringData := [51, 99, 11, 155, 67, 19, 11, 115, 59, 3, 0] } {}).map
        (fun q => (q.modelPreCache, q.grenadeModelIndices)) = some ([[]], []) := by
  refine ⟨by decide, by decide⟩

/-- C29 (counterexample): a parser that already stores a raw player for slot 3
processes a snapshot whose userinfo item for slot 3 decodes to the name "bob",
xuid 5 and user id 9; afterwards slot 3 still holds the raw player stored before. -/
theorem handleStringTables_keeps_stored_raw_player :
    Atoi (goString "3") = some 3 ∧
    sampleEnv.UnmarshalPlayerInfo [5, 9, 98, 111, 98] =
      Except.ok { xuid := 5, userid := 9, name := "bob" } ∧
    (handleStringTables sampleEnv
      [{ tableName := stNameUserInfo,
         items := [{ str := goString "3", data := [5, 9, 98, 111, 98] }] }]
      { sampleParser with rawPlayers := [(3, { name := "old", xuid := 1, userID := 2 })] }).map
        (fun q => mapGet q.rawPlayers 3) =
      some (some { name := "old", xuid := 1, userID := 2 }) := by
  refine ⟨by decide, rfl, rfl⟩

/-- C29 (amended): when handleStringTables has processed a snapshot, a userinfo
item for slot i with decodable, non-empty player info, reached with no raw
player stored for slot i, leaves that item's name, xuid and user id in
rawPlayers[i]; a raw player stored for slot i when the item is reached, in
particular one stored before the snapshot, is kept as it is. -/
theorem handleStringTables_userinfo_item (env : Env) (before after : List SnapshotTable)
    (pre post : List SnapshotItem) (item : SnapshotItem) (i : Int) (userInfo : CMsgPlayerInfo)
    (p q : Parser)
    (hrun : handleStringTables env
      (before ++ { tableName := stNameUserInfo, items := pre ++ item :: post } :: after) p =
        some q)
    (hslot : Atoi item.str = some i)
    (hdec : env.UnmarshalPlayerInfo item.data = Except.ok userInfo)
    (hne : ¬ (userInfo.xuid = 0 ∧ userInfo.name = "")) :
    ∃ p1 : Parser,
      handleStringTables env (before ++ [{ tableName := stNameUserInfo, items := pre }]) p =
        some p1 ∧
      (mapGet p1.rawPlayers i = none →
        ∃ info : PlayerInfo, mapGet q.rawPlayers i = some info ∧ info.name = userInfo.name ∧
          info.xuid = userInfo.xuid ∧ info.userID = userInfo.userid) ∧
      (∀ old : PlayerInfo, mapGet p1.rawPlayers i = some old →
        mapGet q.rawPlayers i = some old) ∧
      (∀ old : PlayerInfo, mapGet p.rawPlayers i = some old →
        mapGet q.rawPlayers i = some old) := by
  obtain ⟨p1, p2, h1, h2, h3⟩ := handleStringTables_split env before after pre post item p q hrun
  have h2a : parseUserInfo env item.data i p1 = some p2 := by
    simp only [handleUserInfoItem, hslot] at h2
    exact h2
  obtain ⟨_, hkeep, hfresh, _⟩ := parseUserInfo_step env item.data i p1 p2 h2a
  refine ⟨p1, h1, ?_, ?_, ?_⟩
  · intro hnone
    exact ⟨playerInfoOf userInfo, h3 i _ (hfresh userInfo hnone hdec hne), rfl, rfl, rfl⟩
  · intro old hold
    exact h3 i old (hkeep i old hold)
  · intro old hold
    exact handleStringTables_keeps env _ p q hrun i old hold

/-- C29 (witness): a snapshot with the userinfo items "2" and "3" on a parser
without raw players completes, and slot 3 then holds the name "bob", the xuid 5
and the user id 9 of its item. -/
theorem handleStringTables_userinfo_item_witness :
    ∃ q : Parser,
      handleStringTables sampleEnv
        ([] ++ { tableName := stNameUserInfo,
                 items := [{ str := goString "2", data := [4, 8, 97, 108] }] ++
                   { str := goString "3", data := [5, 9, 98, 111, 98] } :: [] } :: [])
        sampleParser = some q ∧
      ∃ info : PlayerInfo, mapGet q.rawPlayers 3 = some info ∧ info.name = "bob" ∧
        info.xuid = 5 ∧ info.userID = 9 := by
  obtain ⟨q, hq⟩ := Option.isSome_iff_exists.mp
    (show (handleStringTables sampleEnv
        ([] ++ { tableName := stNameUserInfo,
                 items := [{ str := goString "2", data := [4, 8, 97, 108] }] ++
                   { str := goString "3", data := [5, 9, 98, 111, 98] } :: [] } :: [])
        sampleParser).isSome = true from rfl)
  obtain ⟨p1, h1, hfresh, _, _⟩ := handleStringTables_userinfo_item sampleEnv [] []
    [{ str := goString "2", data := [4, 8, 97, 108] }] []
    { str := goString "3", data := [5, 9, 98, 111, 98] } 3
    { xuid := 5, userid := 9, name := "bob" } sampleParser q hq (by decide) rfl (by decide)
  have hp1 : (handleStringTables sampleEnv
      ([] ++ [{ tableName := stNameUserInfo,
                items := [{ str := goString "2", data := [4, 8, 97, 108] }] }])
      sampleParser).map (fun r => mapGet r.rawPlayers 3) = some none := rfl
  rw [h1] at hp1
  simp only [Option.map_some', Option.some.injEq] at hp1
  exact ⟨q, hq, hfresh hp1⟩

/-- C30: over every sequence of parseUserInfo calls with non-negative slots that
completes and starts with recordingPlayerSlot = -1, the POVRecordingPlayerDetected
events among the dispatched ones are either none, recordingPlayerSlot is still
-1 and no call newly stored an entry whose name equals header.ClientName; or
exactly one, dispatched by the first call that newly stores such an entry,
carrying that call's slot, and recordingPlayerSlot is that slot after this call
and after every later one. -/
theorem parseUserInfo_pov_once (env : Env) (calls : List (List Nat × Int)) (p q : Parser)
    (hstart : p.recordingPlayerSlot = -1)
    (hslots : ∀ c ∈ calls, 0 ≤ c.2)
    (hrun : parseUserInfoCalls env calls p = some q) :
    ∃ new : List Event, q.dispatched = p.dispatched ++ new ∧
      ((new.filter isPOVRecordingPlayerDetected = [] ∧ q.recordingPlayerSlot = -1 ∧
          ∀ (a b : List (List Nat × Int)) (c : List Nat × Int) (r : Parser),
            calls = a ++ c :: b → parseUserInfoCalls env a p = some r →
            storesClientName env c.1 c.2 r = false) ∨
        ∃ (pre post : List (List Nat × Int)) (data : List Nat) (slot : Int) (p1 : Parser)
            (userInfo : CMsgPlayerInfo),
          calls = pre ++ (data, slot) :: post ∧
          parseUserInfoCalls env pre p = some p1 ∧
          (∀ (a b : List (List Nat × Int)) (c : List Nat × Int) (r : Parser),
            pre = a ++ c :: b → parseUserInfoCalls env a p = some r →
            storesClientName env c.1 c.2 r = false) ∧
          storesClientName env data slot p1 = true ∧
          env.UnmarshalPlayerInfo data = Except.ok userInfo ∧
          new.filter isPOVRecordingPlayerDetected =
            [Event.POVRecordingPlayerDetected slot (playerInfoOf userInfo)] ∧
          ∀ (post1 post2 : List (List Nat × Int)) (r : Parser), post = post1 ++ post2 →
            parseUserInfoCalls env (pre ++ (data, slot) :: post1) p = some r →
            r.recordingPlayerSlot = slot) := by
  induction calls generalizing p with
  | nil =>
    simp only [parseUserInfoCalls, forEachM, Option.some.injEq] at hrun
    subst hrun
    refine ⟨[], by simp, Or.inl ⟨rfl, hstart, ?_⟩⟩
    intro a b c r hsplit
    exact absurd hsplit (by simp)
  | cons c rest ih =>
    obtain ⟨p1, h1, h2⟩ := parseUserInfoCalls_cons env c rest p q hrun
    obtain ⟨_, _, _, hstep⟩ := parseUserInfo_step env c.1 c.2 p p1 h1
    have hslots1 : ∀ d ∈ rest, 0 ≤ d.2 := fun d hd => hslots d (List.mem_cons_of_mem _ hd)
    have hfirst : ∀ (rest0 : List (List Nat × Int)),
        storesClientName env c.1 c.2 p = false →
        (∀ (a b : List (List Nat × Int)) (d : List Nat × Int) (r : Parser),
          rest0 = a ++ d :: b → parseUserInfoCalls env a p1 = some r →
          storesClientName env d.1 d.2 r = false) →
        ∀ (a b : List (List Nat × Int)) (d : List Nat × Int) (r : Parser),
          c :: rest0 = a ++ d :: b → parseUserInfoCalls env a p = some r →
          storesClientName env d.1 d.2 r = false := by
      intro rest0 hc hrest a b d r hsplit hr
      cases a with
      | nil =>
        simp only [List.nil_append, List.cons.injEq] at hsplit
        simp only [parseUserInfoCalls, forEachM, Option.some.injEq] at hr
        rw [← hsplit.1, ← hr]
        exact hc
      | cons a0 a1 =>
        simp only [List.cons_append, List.cons.injEq] at hsplit
        rw [← hsplit.1, parseUserInfoCalls_cons_eq env c a1 p p1 h1] at hr
        exact hrest a1 b d r hsplit.2 hr
    rcases hstep with ⟨hsame, hnostore, new0, hnew0, hpov0⟩ |
      ⟨_, hslot, hstores, _, userInfo, hdec, _, _, _, new0, hnew0, hpov0⟩
    · have hstart1 : p1.recordingPlayerSlot = -1 := hsame.trans hstart
      obtain ⟨new1, hnew1, halt⟩ := ih p1 hstart1 hslots1 h2
      refine ⟨new0 ++ new1, ?_, ?_⟩
      · rw [hnew1, hnew0, List.append_assoc]
      · rcases halt with ⟨hpov1, hq, hnone⟩ |
          ⟨pre, post, data, slot, p2, u, hsplit, hpre, hnone, hst, hu, hpov1, hafter⟩
        · refine Or.inl ⟨?_, hq, hfirst rest (hnostore hstart) hnone⟩
          rw [List.filter_append, hpov0, hpov1]
          rfl
        · refine Or.inr ⟨c :: pre, post, data, slot, p2, u, ?_, ?_, ?_, hst, hu, ?_, ?_⟩
          · rw [hsplit]
            rfl
          · rw [parseUserInfoCalls_cons_eq env c pre p p1 h1]
            exact hpre
          · exact hfirst pre (hnostore hstart) hnone
          · rw [List.filter_append, hpov0, hpov1]
            rfl
          · intro post1 post2 r hpost hr
            rw [List.cons_append, parseUserInfoCalls_cons_eq env c _ p p1 h1] at hr
            exact hafter post1 post2 r hpost hr
    · have hnonneg : (0 : Int) ≤ c.2 := hslots c (List.mem_cons_self _ _)
      have hset1 : p1.recordingPlayerSlot ≠ -1 := by
        rw [hslot]
        omega
      obtain ⟨hq, new1, hnew1, hpov1⟩ := parseUserInfoCalls_slot_set env rest p1 q hset1 h2
      refine ⟨new0 ++ new1, ?_, Or.inr ⟨[], rest, c.1, c.2, p, userInfo, rfl, rfl, ?_,
        hstores, hdec, ?_, ?_⟩⟩
      · rw [hnew1, hnew0, List.append_assoc]
      · intro a b d r hsplit
        exact absurd hsplit (by simp)
      · rw [List.filter_append, hpov0, hpov1]
        rfl
      · intro post1 post2 r _ hr
        rw [List.nil_append, parseUserInfoCalls_cons_eq env c post1 p p1 h1] at hr
        exact ((parseUserInfoCalls_slot_set env post1 p1 r hset1 hr).1).trans hslot

/-- C30 (witness): three calls on a parser whose header.ClientName is "bob", for
the slots 2 ("al"), 3 ("bob") and 4 ("bob"): at most one
POVRecordingPlayerDetected event is dispatched. -/
theorem parseUserInfo_pov_once_witness :
    ({ sampleParser with headerClientName := "bob" } : Parser).recordingPlayerSlot = -1 ∧
    (∀ c ∈ [(([4, 8, 97, 108] : List Nat), (2 : Int)), ([5, 9, 98, 111, 98], 3),
        ([5, 9, 98, 111, 98], 4)], 0 ≤ c.2) ∧
    ∃ (q : Parser) (new : List Event),
      parseUserInfoCalls sampleEnv
        [([4, 8, 97, 108], 2), ([5, 9, 98, 111, 98], 3), ([5, 9, 98, 111, 98], 4)]
        { sampleParser with headerClientName := "bob" } = some q ∧
      q.dispatched = ({ sampleParser with headerClientName := "bob" } : Parser).dispatched ++
        new ∧
      (new.filter isPOVRecordingPlayerDetected).length ≤ 1 := by
  have hslots : ∀ c ∈ [(([4, 8, 97, 108] : List Nat), (2 : Int)), ([5, 9, 98, 111, 98], 3),
      ([5, 9, 98, 111, 98], 4)], 0 ≤ c.2 := by decide
  obtain ⟨q, hq⟩ := Option.isSome_iff_exists.mp
    (show (parseUserInfoCalls sampleEnv
        [([4, 8, 97, 108], 2), ([5, 9, 98, 111, 98], 3), ([5, 9, 98, 111, 98], 4)]
        { sampleParser with headerClientName := "bob" }).isSome = true from rfl)
  obtain ⟨new, hnew, halt⟩ := parseUserInfo_pov_once sampleEnv
    [([4, 8, 97, 108], 2), ([5, 9, 98, 111, 98], 3), ([5, 9, 98, 111, 98], 4)]
    { sampleParser with headerClientName := "bob" } q rfl hslots hq
  refine ⟨rfl, hslots, q, new, hq, hnew, ?_⟩
  rcases halt with ⟨hpov, _⟩ | ⟨_, _, _, _, _, _, _, _, _, _, _, hpov, _⟩
  · rw [hpov]
    exact Nat.zero_le 1
  · rw [hpov]
    exact Nat.le_refl 1

/-- C32 (counterexample): in the sample packet the field with index 0 has the
base type CBodyComponent, one of the ten pointer-indirected names, and names no
serializer; ParsePacket gives it the model Simple, not FixedTable. -/
theorem parsePacket_pointer_type_simple :
    (Sendtablescs2.ParsePacket Sendtablescs2.sampleExternals [1] {}).map
        (fun r => r.2.fieldHeap[1]?) =
      some (some { varName := "m_body", varType := "CBodyComponent", serializerName := "",
                   fieldType := some { baseType := "CBodyComponent" }, serializer := none,
                   model := Sendtablescs2.FieldModel.fieldModelSimple }) := by
  decide

/-- C32 (amended): every field materialised by ParsePacket has a field type; if
its sub-serializer resolves (field.serializer is not nil), it is given the model
FixedTable when its type is a pointer or its base type is one of the ten
pointer-indirected type names, and VariableTable otherwise; if no sub-serializer
resolves, it is given FixedArray, VariableArray or Simple, whatever its base
type. -/
theorem parsePacket_field_models (env : Sendtablescs2.Externals) (b : List Nat)
    (p q : Sendtablescs2.Parser) (err : Option String)
    (hrun : Sendtablescs2.ParsePacket env b p = some (err, q)) :
    ∃ new : List Sendtablescs2.Field, q.fieldHeap = p.fieldHeap ++ new ∧
      ∀ f ∈ new, ∃ fieldType : Sendtablescs2.FieldType, f.fieldType = some fieldType ∧
        (f.serializer ≠ none →
          (fieldType.pointer = true ∨
            fieldType.baseType ∈ ["CBodyComponentDCGBaseAnimating",
              "CBodyComponentBaseAnimating", "CBodyComponentBaseAnimatingOverlay",
              "CBodyComponentBaseModelEntity", "CBodyComponent",
              "CBodyComponentSkeletonInstance", "CBodyComponentPoint", "CLightComponent",
              "CRenderComponent", "CPhysicsComponent"]) →
          f.model = Sendtablescs2.FieldModel.fieldModelFixedTable) ∧
        (f.serializer ≠ none →
          ¬ (fieldType.pointer = true ∨
            fieldType.baseType ∈ ["CBodyComponentDCGBaseAnimating",
              "CBodyComponentBaseAnimating", "CBodyComponentBaseAnimatingOverlay",
              "CBodyComponentBaseModelEntity", "CBodyComponent",
              "CBodyComponentSkeletonInstance", "CBodyComponentPoint", "CLightComponent",
              "CRenderComponent", "CPhysicsComponent"]) →
          f.model = Sendtablescs2.FieldModel.fieldModelVariableTable) ∧
        (f.serializer = none →
          f.model =
            if fieldType.count > 0 ∧ fieldType.baseType ≠ "char" then
              Sendtablescs2.FieldModel.fieldModelFixedArray
            else if fieldType.baseType = "CUtlVector" ∨
                fieldType.baseType = "CNetworkUtlVectorBase" then
              Sendtablescs2.FieldModel.fieldModelVariableArray
            else Sendtablescs2.FieldModel.fieldModelSimple) := by
  have key : ∀ f : Sendtablescs2.Field, Sendtablescs2.determineModel f = some f.model →
      ∃ fieldType : Sendtablescs2.FieldType, f.fieldType = some fieldType ∧
        (f.serializer ≠ none →
          (fieldType.pointer = true ∨
            fieldType.baseType ∈ ["CBodyComponentDCGBaseAnimating",
              "CBodyComponentBaseAnimating", "CBodyComponentBaseAnimatingOverlay",
              "CBodyComponentBaseModelEntity", "CBodyComponent",
              "CBodyComponentSkeletonInstance", "CBodyComponentPoint", "CLightComponent",
              "CRenderComponent", "CPhysicsComponent"]) →
          f.model = Sendtablescs2.FieldModel.fieldModelFixedTable) ∧
        (f.serializer ≠ none →
          ¬ (fieldType.pointer = true ∨
            fieldType.baseType ∈ ["CBodyComponentDCGBaseAnimating",
              "CBodyComponentBaseAnimating", "CBodyComponentBaseAnimatingOverlay",
              "CBodyComponentBaseModelEntity", "CBodyComponent",
              "CBodyComponentSkeletonInstance", "CBodyComponentPoint", "CLightComponent",
              "CRenderComponent", "CPhysicsComponent"]) →
          f.model = Sendtablescs2.FieldModel.fieldModelVariableTable) ∧
        (f.serializer = none →
          f.model =
            if fieldType.count > 0 ∧ fieldType.baseType ≠ "char" then
              Sendtablescs2.FieldModel.fieldModelFixedArray
            else if fieldType.baseType = "CUtlVector" ∨
                fieldType.baseType = "CNetworkUtlVectorBase" then
              Sendtablescs2.FieldModel.fieldModelVariableArray
            else Sendtablescs2.FieldModel.fieldModelSimple) := by
    intro f hf
    unfold Sendtablescs2.determineModel at hf
    cases hft : f.fieldType with
    | none => simp [hft] at hf
    | some fieldType =>
      simp only [hft] at hf
      refine ⟨fieldType, rfl, ?_, ?_, ?_⟩
      · intro hser hptr
        have h1 : f.serializer.isSome = true := by
          cases hs : f.serializer with
          | none => exact absurd hs hser
          | some _ => rfl
        have h2 : (fieldType.pointer ||
            (mapGet Sendtablescs2.pointerTypes fieldType.baseType).getD false) = true := by
          rcases hptr with h | h
          · simp [h]
          · simp [(Sendtablescs2.pointerTypes_iff fieldType.baseType).mpr h]
        rw [if_pos h1, if_pos h2] at hf
        exact (Option.some.inj hf).symm
      · intro hser hptr
        have h1 : f.serializer.isSome = true := by
          cases hs : f.serializer with
          | none => exact absurd hs hser
          | some _ => rfl
        have h2 : ¬ (fieldType.pointer ||
            (mapGet Sendtablescs2.pointerTypes fieldType.baseType).getD false) = true := by
          intro h0
          apply hptr
          rcases Bool.or_eq_true_iff.mp h0 with h | h
          · exact Or.inl h
          · exact Or.inr ((Sendtablescs2.pointerTypes_iff fieldType.baseType).mp h)
        rw [if_pos h1, if_neg h2] at hf
        exact (Option.some.inj hf).symm
      · intro hser
        simp only [hser, Option.isSome_none, Bool.false_eq_true, if_false] at hf
        split at hf
        · rename_i hc
          rw [if_pos hc]
          exact (Option.some.inj hf).symm
        · rename_i hc
          rw [if_neg hc]
          split at hf
          · rename_i hc2
            rw [if_pos hc2]
            exact (Option.some.inj hf).symm
          · rename_i hc2
            rw [if_neg hc2]
            exact (Option.some.inj hf).symm
  rcases Sendtablescs2.parsePacket_run env b p q err hrun with
    ⟨e, _, hq, _⟩ | ⟨m, st, _, hst, hq, _⟩
  · refine ⟨[], ?_, ?_⟩
    · rw [hq, List.append_nil]
    · intro f hf
      cases hf
  · obtain ⟨new, hnew, hmodel, _⟩ := Sendtablescs2.processSerializers_fields env m _ _ st hst
    refine ⟨new, ?_, ?_⟩
    · rw [← hq]
      exact hnew
    · intro f hf
      exact key f (hmodel f hf)

/-- C32 (witness): in the sample packet the field with index 1 names the stored
serializer CBodyComponentPoint and has the base type CBodyComponent; ParsePacket
materialises it first and gives it the model FixedTable. -/
theorem parsePacket_field_models_witness :
    ∃ (q : Sendtablescs2.Parser) (f : Sendtablescs2.Field),
      Sendtablescs2.ParsePacket Sendtablescs2.sampleExternals [1] {} = some (none, q) ∧
      q.fieldHeap[0]? = some f ∧ f.serializer = some 0 ∧
      f.fieldType = some { baseType := "CBodyComponent" } ∧
      f.model = Sendtablescs2.FieldModel.fieldModelFixedTable := by
  obtain ⟨r, hr⟩ := Option.isSome_iff_exists.mp
    (show (Sendtablescs2.ParsePacket Sendtablescs2.sampleExternals [1] {}).isSome = true
      from by decide)
  obtain ⟨err, q⟩ := r
  have herr : (Sendtablescs2.ParsePacket Sendtablescs2.sampleExternals [1] {}).map
      (fun r => r.1) = some none := by decide
  have hf0 : (Sendtablescs2.ParsePacket Sendtablescs2.sampleExternals [1] {}).map
      (fun r => r.2.fieldHeap[0]?.map (fun f => (f.serializer, f.fieldType))) =
      some (some (some 0, some { baseType := "CBodyComponent" })) := by decide
  rw [hr] at herr hf0
  simp only [Option.map_some', Option.some.injEq] at herr hf0
  subst herr
  obtain ⟨new, hnew, hall⟩ := parsePacket_field_models Sendtablescs2.sampleExternals [1] {} q
    none hr
  cases hq0 : q.fieldHeap[0]? with
  | none => simp [hq0] at hf0
  | some f =>
    simp only [hq0, Option.map_some', Option.some.injEq, Prod.mk.injEq] at hf0
    have hmem : f ∈ new := by
      have h0 : f ∈ q.fieldHeap := List.mem_iff_getElem?.mpr ⟨0, hq0⟩
      rw [hnew] at h0
      simpa using h0
    obtain ⟨fieldType, hft, hfixed, _, _⟩ := hall f hmem
    refine ⟨q, f, hr, hq0, hf0.1, hf0.2, ?_⟩
    have hbase : fieldType = { baseType := "CBodyComponent" } := by
      rw [hf0.2] at hft
      exact (Option.some.inj hft).symm
    apply hfixed
    · rw [hf0.1]
      exact Option.some_ne_none 0
    · right
      rw [hbase]
      decide

/-- C33 (counterexample): the sample packet holds two serializers named CWorld,
with the versions 0 and 1.  After ParsePacket both are on the heap, but the map
of the stored serializers has one entry for the name CWorld, the serializer of
version 1; the serializer of version 0 cannot be looked up any more. -/
theorem parsePacket_same_name_replaces :
    Sendtablescs2.samplePacket.serializers.map
        (fun s => (Sendtablescs2.serializerNameOf Sendtablescs2.samplePacket s,
          s.serializerVersion)) =
      [(some "CBodyComponentPoint", 0), (some "CWorld", 0), (some "CWorld", 1)] ∧
    (Sendtablescs2.ParsePacket Sendtablescs2.sampleExternals [1] {}).map
        (fun r => (r.2.serializers,
          r.2.serializerHeap.map (fun s => (s.name, s.version)))) =
      some ([("CBodyComponentPoint", 0), ("CWorld", 2)],
        [("CBodyComponentPoint", 0), ("CWorld", 0), ("CWorld", 1)]) := by
  exact ⟨by decide, by decide⟩

/-- C33 (amended): ParsePacket stores the serializers by name only.  After it has
processed the descriptors of a packet, a name that no descriptor carries keeps
the serializer stored before, and a name that descriptors carry is mapped to
the serializer built from the last descriptor of that name, with that
descriptor's version; an earlier descriptor of the same name, whatever its
version, is no longer reachable by lookup. -/
theorem parsePacket_serializers_by_name (env : Sendtablescs2.Externals) (b : List Nat)
    (p q : Sendtablescs2.Parser) (m : Sendtablescs2.CSVCMsg_FlattenedSerializer)
    (hdec : env.decode b = some (Except.ok m))
    (hrun : Sendtablescs2.ParsePacket env b p = some (none, q)) (n : String) :
    ((∀ s ∈ m.serializers, Sendtablescs2.serializerNameOf m s ≠ some n) →
      mapGet q.serializers n = mapGet p.serializers n) ∧
    (∀ (pre post : List Sendtablescs2.ProtoFlattenedSerializerT)
        (s : Sendtablescs2.ProtoFlattenedSerializerT),
      m.serializers = pre ++ s :: post → Sendtablescs2.serializerNameOf m s = some n →
      (∀ s1 ∈ post, Sendtablescs2.serializerNameOf m s1 ≠ some n) →
      ∃ ser : Sendtablescs2.Serializer,
        mapGet q.serializers n = some (p.serializerHeap.length + pre.length) ∧
        q.serializerHeap[p.serializerHeap.length + pre.length]? = some ser ∧
        ser.name = n ∧ ser.version = s.serializerVersion) := by
  rcases Sendtablescs2.parsePacket_run env b p q none hrun with
    ⟨e, _, _, he⟩ | ⟨m1, st, hdec1, hst, hq, _⟩
  · cases he
  · rw [hdec] at hdec1
    simp only [Option.some.injEq, Except.ok.injEq] at hdec1
    subst hdec1
    subst hq
    obtain ⟨h1, h2⟩ := Sendtablescs2.processSerializers_names env m _ _ st hst n
    refine ⟨h1, ?_⟩
    intro pre post s hsplit hs hpost
    obtain ⟨sers, hheap, _, hall⟩ := Sendtablescs2.processSerializers_heap env m _ _ st hst
    have hk : m.serializers[pre.length]? = some s := by
      rw [hsplit, List.getElem?_append_right (Nat.le_refl _), Nat.sub_self]
      exact List.getElem?_cons_zero
    obtain ⟨ser, g1, g2, g3, _⟩ := hall pre.length s hk
    refine ⟨ser, h2 pre post s hsplit hs hpost, ?_, ?_, g3⟩
    · rw [hheap, List.getElem?_append_right (Nat.le_add_right _ _)]
      simpa using g1
    · rw [hs] at g2
      exact (Option.some.inj g2).symm

/-- C33 (witness): in the sample packet the last descriptor named CWorld has the
version 1; after ParsePacket the name CWorld is mapped to the serializer at
address 2, whose version is 1. -/
theorem parsePacket_serializers_by_name_witness :
    ∃ (q : Sendtablescs2.Parser) (ser : Sendtablescs2.Serializer),
      Sendtablescs2.ParsePacket Sendtablescs2.sampleExternals [1] {} = some (none, q) ∧
      mapGet q.serializers "CWorld" = some 2 ∧ q.serializerHeap[2]? = some ser ∧
      ser.name = "CWorld" ∧ ser.version = 1 := by
  obtain ⟨r, hr⟩ := Option.isSome_iff_exists.mp
    (show (Sendtablescs2.ParsePacket Sendtablescs2.sampleExternals [1] {}).isSome = true
      from by decide)
  obtain ⟨err, q⟩ := r
  have herr : (Sendtablescs2.ParsePacket Sendtablescs2.sampleExternals [1] {}).map
      (fun r => r.1) = some none := by decide
  rw [hr] at herr
  simp only [Option.map_some', Option.some.injEq] at herr
  subst herr
  obtain ⟨ser, h1, h2, h3, h4⟩ :=
    (parsePacket_serializers_by_name Sendtablescs2.sampleExternals [1] {} q
      Sendtablescs2.samplePacket rfl hr "CWorld").2
      [{ serializerNameSym := 3, serializerVersion := 0, fieldsIndex := [] },
       { serializerNameSym := 0, serializerVersion := 0, fieldsIndex := [1, 0, 1] }] []
      { serializerNameSym := 0, serializerVersion := 1, fieldsIndex := [0] } rfl (by decide)
      (by simp)
  exact ⟨q, ser, hr, h1, h2, h3, h4⟩

/-- C34: for a packet that ParsePacket processes to the end there is a map from
field indices to fields such that every field index that a descriptor of the
packet names has exactly one field, a heap cell of its own created by this call
(as many new cells as distinct indices), and such that the serializer built for
the k-th descriptor has as many fields as the descriptor has field indices, its
j-th field being the field of the j-th index; so an index named several times,
by one descriptor or by several, always stands for the same field. -/
theorem parsePacket_fields_in_order (env : Sendtablescs2.Externals) (b : List Nat)
    (p q : Sendtablescs2.Parser) (m : Sendtablescs2.CSVCMsg_FlattenedSerializer)
    (hdec : env.decode b = some (Except.ok m))
    (hrun : Sendtablescs2.ParsePacket env b p = some (none, q)) :
    ∃ fields : List (Int × Sendtablescs2.FieldPtr),
      (fields.map Prod.fst).Nodup ∧
      fields.map Prod.snd = List.range' p.fieldHeap.length fields.length ∧
      q.fieldHeap.length = p.fieldHeap.length + fields.length ∧
      (∀ i : Int, i ∈ fields.map Prod.fst ↔ ∃ s ∈ m.serializers, i ∈ s.fieldsIndex) ∧
      (∀ (k : Nat) (s : Sendtablescs2.ProtoFlattenedSerializerT),
        m.serializers[k]? = some s →
        ∃ ser : Sendtablescs2.Serializer,
          q.serializerHeap[p.serializerHeap.length + k]? = some ser ∧
          ser.fields.length = s.fieldsIndex.length ∧
          ser.fields.map some = s.fieldsIndex.map (mapGet fields)) := by
  rcases Sendtablescs2.parsePacket_run env b p q none hrun with
    ⟨e, _, _, he⟩ | ⟨m1, st, hdec1, hst, hq, _⟩
  · cases he
  · rw [hdec] at hdec1
    simp only [Option.some.injEq, Except.ok.injEq] at hdec1
    subst hdec1
    subst hq
    obtain ⟨new, _, _, _, hinv, hkeys⟩ :=
      Sendtablescs2.processSerializers_fields env m _ _ st hst
    obtain ⟨sers, hheap, _, hall⟩ := Sendtablescs2.processSerializers_heap env m _ _ st hst
    have hinit : Sendtablescs2.FieldsInv p.fieldHeap.length { p := p } := by
      refine ⟨?_, ?_, ?_⟩
      · exact List.nodup_nil
      · rfl
      · rfl
    obtain ⟨i1, i2, i3⟩ := hinv _ hinit
    refine ⟨st.fields, i1, i2, i3, ?_, ?_⟩
    · intro i
      rw [hkeys i]
      simp
    · intro k s hk
      obtain ⟨ser, g1, _, _, g4⟩ := hall k s hk
      refine ⟨ser, ?_, ?_, g4⟩
      · rw [hheap, List.getElem?_append_right (Nat.le_add_right _ _)]
        simpa using g1
      · have hlen := congrArg List.length g4
        simpa using hlen

/-- C34 (witness): in the sample packet the second descriptor names the field
indices 1, 0, 1; its serializer, at address 1, has three fields, the first and
the third being the same field. -/
theorem parsePacket_fields_in_order_witness :
    ∃ (q : Sendtablescs2.Parser) (ser : Sendtablescs2.Serializer)
      (fields : List (Int × Sendtablescs2.FieldPtr)),
      Sendtablescs2.ParsePacket Sendtablescs2.sampleExternals [1] {} = some (none, q) ∧
      q.serializerHeap[1]? = some ser ∧ ser.fields.length = 3 ∧
      ser.fields.map some = [mapGet fields 1, mapGet fields 0, mapGet fields 1] := by
  obtain ⟨r, hr⟩ := Option.isSome_iff_exists.mp
    (show (Sendtablescs2.ParsePacket Sendtablescs2.sampleExternals [1] {}).isSome = true
      from by decide)
  obtain ⟨err, q⟩ := r
  have herr : (Sendtablescs2.ParsePacket Sendtablescs2.sampleExternals [1] {}).map
      (fun r => r.1) = some none := by decide
  rw [hr] at herr
  simp only [Option.map_some', Option.some.injEq] at herr
  subst herr
  obtain ⟨fields, _, _, _, _, hall⟩ :=
    parsePacket_fields_in_order Sendtablescs2.sampleExternals [1] {} q
      Sendtablescs2.samplePacket rfl hr
  obtain ⟨ser, h1, h2, h3⟩ := hall 1
    { serializerNameSym := 0, serializerVersion := 0, fieldsIndex := [1, 0, 1] } rfl
  exact ⟨q, ser, fields, hr, by simpa using h1, h2, h3⟩

/-- C35 (counterexample): OnDemoClassInfo creates the class CWorld with id 7 while
no serializer is stored, so the class has no serializer; a following
ParsePacket of the sample packet, which holds serializers named CWorld, gives
the class the serializer at address 2. -/
theorem parsePacket_rebinds_class_serializer :
    (Sendtablescs2.OnDemoClassInfo [{ classId := 7, networkName := "CWorld" }] {}).classHeap =
      [{ classId := 7, name := "CWorld", serializer := none }] ∧
    (Sendtablescs2.ParsePacket Sendtablescs2.sampleExternals [1]
        (Sendtablescs2.OnDemoClassInfo [{ classId := 7, networkName := "CWorld" }] {})).map
        (fun r => r.2.classHeap) =
      some [{ classId := 7, name := "CWorld", serializer := some 2 }] := by
  exact ⟨by decide, by decide⟩

/-- C35 (amended): no ParsePacket call changes the id or the name of a class that
exists, nor the maps classesById and classesByName.  The serializer of a class
is unchanged when the packet does not decode or holds no serializer whose name
is registered for that class in classesByName; otherwise it is replaced by the
serializer built from the last such descriptor of the packet. -/
theorem parsePacket_class_frame (env : Sendtablescs2.Externals) (b : List Nat)
    (p q : Sendtablescs2.Parser) (err : Option String)
    (hrun : Sendtablescs2.ParsePacket env b p = some (err, q)) :
    q.classesById = p.classesById ∧ q.classesByName = p.classesByName ∧
    q.classHeap.length = p.classHeap.length ∧
    ∀ (c : Sendtablescs2.ClassPtr) (cls : Sendtablescs2.Class), p.classHeap[c]? = some cls →
      ∃ cls1 : Sendtablescs2.Class, q.classHeap[c]? = some cls1 ∧
        cls1.classId = cls.classId ∧ cls1.name = cls.name ∧
        (∀ e : String, env.decode b = some (Except.error e) →
          cls1.serializer = cls.serializer) ∧
        (∀ m : Sendtablescs2.CSVCMsg_FlattenedSerializer, env.decode b = some (Except.ok m) →
          ((∀ s ∈ m.serializers, ∀ n : String, Sendtablescs2.serializerNameOf m s = some n →
              mapGet p.classesByName n ≠ some c) → cls1.serializer = cls.serializer) ∧
          (∀ (pre post : List Sendtablescs2.ProtoFlattenedSerializerT)
              (s : Sendtablescs2.ProtoFlattenedSerializerT) (n : String),
            m.serializers = pre ++ s :: post → Sendtablescs2.serializerNameOf m s = some n →
            mapGet p.classesByName n = some c →
            (∀ s1 ∈ post, ∀ n1 : String, Sendtablescs2.serializerNameOf m s1 = some n1 →
              mapGet p.classesByName n1 ≠ some c) →
            cls1.serializer = some (p.serializerHeap.length + pre.length))) := by
  rcases Sendtablescs2.parsePacket_run env b p q err hrun with
    ⟨e, hdec, hq, _⟩ | ⟨m, st, hdec, hst, hq, _⟩
  · subst hq
    refine ⟨rfl, rfl, rfl, ?_⟩
    intro c cls hcls
    refine ⟨cls, hcls, rfl, rfl, fun _ _ => rfl, ?_⟩
    intro m1 hm1
    rw [hdec] at hm1
    cases hm1
  · subst hq
    obtain ⟨h1, h2, h3, h4⟩ := Sendtablescs2.processSerializers_classes env m _ _ st hst
    refine ⟨h1, h2, h3, ?_⟩
    intro c cls hcls
    obtain ⟨cls1, g1, g2, g3, _, g5, g6⟩ := h4 c cls hcls
    refine ⟨cls1, g1, g2, g3, ?_, ?_⟩
    · intro e he
      rw [hdec] at he
      cases he
    · intro m1 hm1
      rw [hdec] at hm1
      simp only [Option.some.injEq, Except.ok.injEq] at hm1
      subst hm1
      exact ⟨g5, g6⟩

/-- C35 (witness): the class CWorld with id 7, created by OnDemoClassInfo, keeps
its id and its name through ParsePacket of the sample packet. -/
theorem parsePacket_class_frame_witness :
    ∃ (q : Sendtablescs2.Parser) (cls1 : Sendtablescs2.Class),
      Sendtablescs2.ParsePacket Sendtablescs2.sampleExternals [1]
        (Sendtablescs2.OnDemoClassInfo [{ classId := 7, networkName := "CWorld" }] {}) =
          some (none, q) ∧
      q.classHeap[0]? = some cls1 ∧ cls1.classId = 7 ∧ cls1.name = "CWorld" ∧
      cls1.serializer = some 2 := by
  obtain ⟨r, hr⟩ := Option.isSome_iff_exists.mp
    (show (Sendtablescs2.ParsePacket Sendtablescs2.sampleExternals [1]
        (Sendtablescs2.OnDemoClassInfo [{ classId := 7, networkName := "CWorld" }] {})).isSome =
          true from by decide)
  obtain ⟨err, q⟩ := r
  have herr : (Sendtablescs2.ParsePacket Sendtablescs2.sampleExternals [1]
      (Sendtablescs2.OnDemoClassInfo [{ classId := 7, networkName := "CWorld" }] {})).map
      (fun r => r.1) = some none := by decide
  rw [hr] at herr
  simp only [Option.map_some', Option.some.injEq] at herr
  subst herr
  obtain ⟨_, _, _, hall⟩ := parsePacket_class_frame Sendtablescs2.sampleExternals [1]
    (Sendtablescs2.OnDemoClassInfo [{ classId := 7, networkName := "CWorld" }] {}) q none hr
  obtain ⟨cls1, h1, h2, h3, _, h5⟩ := hall 0 { classId := 7, name := "CWorld" } rfl
  have h6 := (h5 Sendtablescs2.samplePacket rfl).2
    [{ serializerNameSym := 3, serializerVersion := 0, fieldsIndex := [] },
     { serializerNameSym := 0, serializerVersion := 0, fieldsIndex := [1, 0, 1] }] []
    { serializerNameSym := 0, serializerVersion := 1, fieldsIndex := [0] } "CWorld" rfl
    (by decide) (by decide) (by simp)
  exact ⟨q, cls1, hr, h1, h2, h3, h6⟩

/-- C36: on the fake parser every MockEvents call queues one further frame behind
the pending ones and dispatches nothing; with a mocked result and a first
pending frame, one ParseNextFrame call hands to the event handlers the events of
that frame, in the order queued, and none of a later frame (the later frames
stay pending), and it returns the mocked result. -/
theorem fake_parseNextFrame_first_frame {ε : Type} (p : Fake.Parser ε)
    (result : Bool × Option String) (frame : List ε) (later : List (List ε))
    (hmocked : p.mocked = some result) (hframes : p.frames = frame :: later) :
    (∀ (p0 : Fake.Parser ε) (calls : List (List ε)),
      (calls.foldl Fake.MockEvents p0).frames = p0.frames ++ calls ∧
      (calls.foldl Fake.MockEvents p0).dispatched = p0.dispatched ∧
      (calls.foldl Fake.MockEvents p0).mocked = p0.mocked) ∧
    ∃ q : Fake.Parser ε, Fake.ParseNextFrame p = some (result, q) ∧
      q.dispatched = p.dispatched ++ frame ∧ q.frames = later ∧ q.mocked = p.mocked := by
  constructor
  · intro p0 calls
    induction calls generalizing p0 with
    | nil => simp
    | cons c rest ih =>
      obtain ⟨h1, h2, h3⟩ := ih (Fake.MockEvents p0 c)
      simp only [List.foldl_cons]
      refine ⟨?_, ?_, ?_⟩
      · rw [h1]
        simp [Fake.MockEvents]
      · rw [h2]
        rfl
      · rw [h3]
        rfl
  · refine ⟨{ p with frames := later, dispatched := p.dispatched ++ frame }, ?_, rfl, rfl, rfl⟩
    simp only [Fake.ParseNextFrame, hmocked, hframes]

/-- C36 (witness): the test TestParseNextFrameEvents.  The result (true, nil) is
mocked, two kills are queued for the first frame and one for the second; the
call returns (true, nil) and hands over the two kills of the first frame. -/
theorem fake_parseNextFrame_first_frame_witness :
    ∃ q : Fake.Parser String,
      Fake.ParseNextFrame
        (Fake.MockEvents
          (Fake.MockEvents (Fake.OnParseNextFrameReturn Fake.NewParser true none)
            ["kill AK47", "kill Scout"]) ["kill AUG"]) = some ((true, none), q) ∧
      q.dispatched = ["kill AK47", "kill Scout"] ∧ q.frames = [["kill AUG"]] := by
  obtain ⟨q, h1, h2, h3, _⟩ := (fake_parseNextFrame_first_frame
    (Fake.MockEvents
      (Fake.MockEvents (Fake.OnParseNextFrameReturn Fake.NewParser true none)
        ["kill AK47", "kill Scout"]) ["kill AUG"])
    (true, none) ["kill AK47", "kill Scout"] [["kill AUG"]] rfl rfl).2
  exact ⟨q, h1, h2, h3⟩

/-- C37, at a failing input: player 0 has thrown two flashbangs, first the one
with id 1 and then the one with id 2; deleteThrownGrenade removes the one thrown
last and keeps the one thrown first, where the claim (and the comment in the
code) has the first one removed. -/
theorem deleteThrownGrenade_drops_last :
    thrownList
      (deleteThrownGrenade
        { sampleParser with thrownGrenades :=
            [(0, [(EquipmentType.EqFlash,
              [{ type := EquipmentType.EqFlash, uniqueID := 1 },
               { type := EquipmentType.EqFlash, uniqueID := 2 }])])] }
        (some 0) EquipmentType.EqFlash) 0 EquipmentType.EqFlash =
      [{ type := EquipmentType.EqFlash, uniqueID := 1 }] := by
  decide

/-- C38, at a failing input: the site value is 0, the bombsite indices are 1 and
2, no trigger is registered and ignoreBombsiteIndexNotFound is not set;
bombEvent returns ErrBombsiteIndexNotFound, where the claim (and the comment in
the code) has the error only for a site other than 0. -/
theorem bombEvent_site_zero_returns_error :
    sampleParser.ignoreBombsiteIndexNotFound = false ∧
    mapGet sampleParser.triggers 0 = none ∧
    bombEvent sampleEnv [("site", { valShort := 0 })] sampleParser =
      (Except.error (Error.ErrBombsiteIndexNotFound 0), sampleParser) := by
  exact ⟨rfl, rfl, rfl⟩

/-- C39, at two failing inputs: no fall-damage frame and no round-end reason is
recorded.  In frame 12 the missing reason reads as 0 and attackerWeaponType
turns Unknown into Bomb; in frame 0 the missing fall-damage frame reads as 0,
the current frame, and Unknown becomes World. -/
theorem attackerWeaponType_upgrades_without_record :
    attackerWeaponType
      { sampleParser with userIDToFallDamageFrame := [], frameToRoundEndReason := [] }
      EquipmentType.EqUnknown 7 = EquipmentType.EqBomb ∧
    attackerWeaponType
      { sampleParser with userIDToFallDamageFrame := [], frameToRoundEndReason := [],
                          currentFrame := 0 }
      EquipmentType.EqUnknown 7 = EquipmentType.EqWorld := by
  exact ⟨by decide, by decide⟩

/-- C40, at a failing input: disableMimicSource1GameEvents is set, the site 1 is
bombsite A and the user id 9 resolves to no player; bombBeginPlant fails when
it writes IsPlanting through the nil player, while bombPlanted completes on the
same data. -/
theorem bombBeginPlant_fails_without_player :
    sampleParser.disableMimicSource1GameEvents = true ∧
    playerByUserID32 sampleParser 9 = none ∧
    (bombEvent sampleEnv [("userid", { valShort := 9 }), ("site", { valShort := 1 })]
      sampleParser).1 = Except.ok { player := none, site := Bombsite.BombsiteA } ∧
    bombBeginPlant sampleEnv [("userid", { valShort := 9 }), ("site", { valShort := 1 })]
      sampleParser = none ∧
    (bombPlanted sampleEnv [("userid", { valShort := 9 }), ("site", { valShort := 1 })]
      sampleParser).isSome = true := by
  exact ⟨rfl, rfl, rfl, rfl, rfl⟩

end Demoinfocs
